import Mathlib

/-!
# Parallel source finding: partition, detect, reconcile

A shallow embedding of `DuchampParallel` (file
`Code/Components/Analysis/analysis/current/parallelanalysis/DuchampParallel.cc`)
and proofs of properties of its constructor, `setThreshold`, `findSources`,
`finaliseDetection`, `receiveObjects` and `cleanup`.

Conventions of the embedding.

* C++ integers are mathematical integers; where the translated source performs
  arithmetic on values it declares as `int`, the result is reduced with `wrapInt32`.
  Coordinates and offsets of the Duchamp classes, whose declarations are not among the
  translated files, are unbounded.
* Floating point values are elements of an arbitrary type `F`; the embedding
  only copies them, and arithmetic on them is supplied from outside.
* Functions of the Duchamp library and of classes whose source is not part of
  the translated files are parameters of the definitions that call them.
-/

namespace askap.analysis

/-! ## Basic types -/

/-- Reduction of an integer to the range of a 32-bit two's complement `int`. -/
def wrapInt32 (v : Int) : Int := (v + 2 ^ 31) % 2 ^ 32 - 2 ^ 31

/-- The class `LOFAR::ParameterSet`: a finite map from keys to string values, seen through
its lookup function. -/
abbrev ParameterSet := String → Option String

/-- The method `ParameterSet::isDefined`. -/
def ParameterSet.isDefined (ps : ParameterSet) (key : String) : Bool := (ps key).isSome

/-- The method `ParameterSet::replace(key, value)`: the key is bound to the new value, whether
or not it was bound before. -/
def ParameterSet.replace (ps : ParameterSet) (key value : String) : ParameterSet :=
  fun k => if k = key then some value else ps k

/-- The call `ParameterSet::replace(KVpair(key, int))`: the value is stored as its decimal text. -/
def ParameterSet.replaceInt (ps : ParameterSet) (key : String) (value : Int) : ParameterSet :=
  ps.replace key (toString value)

/-- The fields of `analysisutilities::SubimageDef` read and written by the
constructor of `DuchampParallel`. -/
structure SubimageDef where
  nsubx : Int
  nsuby : Int
  nsubz : Int
  overlapx : Int
  overlapy : Int
  overlapz : Int
deriving DecidableEq, Repr

/-- The setter `SubimageDef::setOverlapX`. -/
def SubimageDef.setOverlapX (sd : SubimageDef) (o : Int) : SubimageDef := { sd with overlapx := o }

/-- The setter `SubimageDef::setOverlapY`. -/
def SubimageDef.setOverlapY (sd : SubimageDef) (o : Int) : SubimageDef := { sd with overlapy := o }

/-- The setter `SubimageDef::setOverlapZ`. -/
def SubimageDef.setOverlapZ (sd : SubimageDef) (o : Int) : SubimageDef := { sd with overlapz := o }

/-- The fields of `sourcefitting::FittingParameters` used here. -/
structure FittingParameters where
  doFit : Bool
  boxPadSize : Int
deriving DecidableEq, Repr

/-- Messages written to the log that the properties below refer to. -/
inductive LogMsg where
  | changedOverlaps (x y z : Int)
deriving DecidableEq, Repr

/-! ## The constructor: overlap of the subimages -/

/-- The state the last block of the constructor works on. -/
structure OverlapState where
  itsParset : ParameterSet
  itsSubimageDef : SubimageDef
  log : List LogMsg

/-- The block `if (itsComms.isParallel()) { ... } else { ... }` that ends the
constructor `DuchampParallel::DuchampParallel(comms, parset)`.

`fromParset` is the value of `SubimageDef(this->itsParset)` and `dflt` the value of
`SubimageDef()`; `searchType` is `itsCube.pars().getSearchType()` and `boxSize` is
`itsVarThresher->boxSize()`. -/
def setupOverlaps (isParallel : Bool) (itsParset : ParameterSet) (fromParset dflt : SubimageDef)
    (itsFitParams : FittingParameters) (itsFlagVariableThreshold : Bool) (searchType : String)
    (boxSize : Int) : OverlapState :=
  if isParallel then
    let sd := fromParset
    let ovx := sd.overlapx
    let ovy := sd.overlapy
    let ovz := sd.overlapz
    -- Need the overlap to be at least the boxPadSize used by the Fitting
    let sd :=
      if itsFitParams.doFit then
        let sd := if sd.nsubx > 1 then sd.setOverlapX (max sd.overlapx itsFitParams.boxPadSize) else sd
        let sd := if sd.nsuby > 1 then sd.setOverlapY (max sd.overlapy itsFitParams.boxPadSize) else sd
        sd
      else sd
    -- Need the overlap to be at least the full box width in the variable threshold case
    let sd :=
      if itsFlagVariableThreshold then
        if searchType = "spatial" then
          let sd := if sd.nsubx > 1 then sd.setOverlapX (max sd.overlapx (wrapInt32 (2 * boxSize + 1))) else sd
          let sd := if sd.nsuby > 1 then sd.setOverlapY (max sd.overlapy (wrapInt32 (2 * boxSize + 1))) else sd
          sd
        else
          if sd.nsubz > 1 then sd.setOverlapZ (max sd.overlapz (wrapInt32 (2 * boxSize))) else sd
      else sd
    -- If values have changed, alert user and update parset
    if sd.overlapx ≠ ovx ∨ sd.overlapy ≠ ovy ∨ sd.overlapz ≠ ovz then
      { itsParset :=
          ((itsParset.replaceInt "overlapx" sd.overlapx).replaceInt "overlapy" sd.overlapy).replaceInt
            "overlapz" sd.overlapz
        itsSubimageDef := sd
        log := [LogMsg.changedOverlaps sd.overlapx sd.overlapy sd.overlapz] }
    else
      { itsParset := itsParset, itsSubimageDef := sd, log := [] }
  else
    { itsParset := itsParset, itsSubimageDef := dflt, log := [] }

/-- The padding requirements on the x and y axes, as the specification lists them:
the fitter's `boxPadSize` when fitting is enabled, and `2*boxSize+1` when the
variable threshold is on with search type `spatial`. -/
def paddingXY (fit : FittingParameters) (flagVariableThreshold : Bool) (searchType : String)
    (boxSize : Int) : List Int :=
  (if fit.doFit then [fit.boxPadSize] else []) ++
    (if flagVariableThreshold ∧ searchType = "spatial" then [2 * boxSize + 1] else [])

/-- The padding requirements on the z axis, as the specification lists them:
`2*boxSize` when the variable threshold is on with a search type other than `spatial`. -/
def paddingZ (flagVariableThreshold : Bool) (searchType : String) (boxSize : Int) : List Int :=
  if flagVariableThreshold ∧ searchType ≠ "spatial" then [2 * boxSize] else []

/-- The effective overlap of the specification: the largest of the requested overlap
and the padding requirements when the axis is subdivided, the requested overlap
otherwise. -/
def effectiveOverlap (nsub requested : Int) (padding : List Int) : Int :=
  if nsub > 1 then padding.foldl max requested else requested

/-! ## Detections, parameters and the state of a process -/

/-- A voxel: one pixel coordinate of the cube (`PixelInfo::Voxel`). -/
structure Voxel where
  x : Int
  y : Int
  z : Int
deriving DecidableEq, Repr

/-- The part of `duchamp::Detection` the properties refer to: the set of voxels of the
object, the offsets of the subimage it was found in, the identifier and the flag text.
Derived scalar attributes (fluxes, centroids, WCS positions) are not part of the model. -/
structure Detection where
  pixelSet : Finset Voxel
  xSubOffset : Int
  ySubOffset : Int
  zSubOffset : Int
  id : Int
  flagText : String
deriving DecidableEq

/-- The part of `sourcefitting::RadioSource` the properties refer to: a `Detection`
with the flag telling whether it lies at the edge of its subimage. -/
structure RadioSource extends Detection where
  atEdge : Bool
deriving DecidableEq

/-- Modelled from the spec: the constructor `RadioSource(duchamp::Detection)` (file
`RadioSource.cc`, not among the translated files): the detection is copied and the edge flag
starts unset, to be assigned by the boundary classifier. -/
def RadioSource.ofDetection (d : Detection) : RadioSource := { toDetection := d, atEdge := false }

/-- The fields of `duchamp::Param` read and written by the translated functions. -/
structure Param (F : Type) where
  minPix : Int
  minChannels : Int
  minVoxels : Int
  flagGrowth : Bool
  flagUserThreshold : Bool
  threshold : F
  cut : F
  flagATrous : Bool
  flagSmooth : Bool
  xOffset : Int
  yOffset : Int
  zOffset : Int
  sortingParam : String
deriving DecidableEq

/-- Modelled from the spec: the Duchamp class `StatsContainer<float>`, whose source is
not among the translated files, seen as the record of the statistics it stores: the
threshold with the mean and spread it derives from (the GlobalThreshold of the
specification), in both the normal and the robust flavour. -/
structure StatsContainer (F : Type) where
  mean : F
  stddev : F
  median : F
  madfm : F
  threshold : F
  robust : Bool
  defined : Bool
deriving DecidableEq

/-- The fields of `duchamp::Cube` used by the translated functions; `dim` is the array of
axis lengths, `numPix` the value of `getSize()` and `canUseThirdAxis` the flag of the header. -/
structure Cube (F : Type) where
  pars : Param F
  stats : StatsContainer F
  objectList : List Detection
  dim : List Nat
  numPix : Nat
  canUseThirdAxis : Bool
deriving DecidableEq

/-- The answers of `askap::askapparallel::AskapParallel` that the translated functions ask for. -/
structure Comms where
  isParallel : Bool
  isMaster : Bool
  isWorker : Bool
  rank : Nat
  nProcs : Nat
deriving DecidableEq, Repr

/-- The search routines `findSources` chooses from. -/
inductive SearchKind where
  | variableThreshold
  | weightScaling
  | recon
  | smooth
  | cubic
deriving DecidableEq, Repr

/-- Calls whose order and arguments the properties refer to. They are recorded in the
field `trace` of the state, which the translated functions only ever extend. -/
inductive Event (F : Type) where
  | search (kind : SearchKind) (pars : Param F)
  | objectMerger (pars : Param F)
  | finaliseList (pars : Param F)
  | sendBlob (dest : Nat)
  | receiveBlob (source : Nat)
  | broadcastBlob (root : Nat)
  | found (numObj nedge ngood : Nat)
deriving DecidableEq

/-- The exceptions the translated functions can end with. -/
inductive AskapError where
  | assertError (condition : String)
  | askapError (message : String)
  | blobError (message : String)
deriving DecidableEq, Repr

/-- The result of a function that may throw: the state reached, and the exception if the
function ended with one (the state is then the one at the point of the throw). -/
structure Outcome (σ : Type) where
  state : σ
  error : Option AskapError

/-- The members of `DuchampParallel` used by the translated functions, with the trace of
recorded calls. `itsWeighterDoScaling` is the answer of `itsWeighter->doScaling()`. -/
structure DuchampParallel (F : Type) where
  itsComms : Comms
  itsCube : Cube F
  itsFitParams : FittingParameters
  itsFlagThresholdPerWorker : Bool
  itsFlagVariableThreshold : Bool
  itsFlagOptimiseMask : Bool
  itsWeighterDoScaling : Bool
  itsSourceList : List RadioSource
  itsEdgeSourceList : List RadioSource
  trace : List (Event F)

/-- Functions that the translated code calls and whose source is not among the translated
files: routines of the Duchamp library, methods of `RadioSource` and the arithmetic on
floating point values. They are left arbitrary.

* `hasEnoughChannels`, `getSpatialSize`: the methods of `duchamp::Detection`;
* `isAtEdge`: the flag set by `RadioSource::setAtEdge(itsCube, itsSubimageDef, rank - 1)`;
* `finaliseList`: `duchamp::finaliseList(list, pars)`;
* `calcObjectWCSparams`: the effect of `Cube::calcObjectWCSparams()` on the object list;
* `search`: the object list left by the chosen search routine, from the parameters and
  the list it finds;
* `adjacent`: the connectivity rule of the merger;
* `grow`: the growth step of `Cube::ObjectMerger`, `optimiseMask`: the mask optimisation;
* `parameterise`: the edge sources handed back by `ObjectParameteriser`;
* `SortDetections`: `SortDetections(list, sortingParam)`;
* `snrThreshold middle spread snr`: the value `middle + snr * spread`;
* `madfmToSigma`, `zero`, `one`: the conversion of the robust spread and the constants
  `0.F` and `1.F`. -/
structure Library (F : Type) where
  hasEnoughChannels : Detection → Int → Bool
  getSpatialSize : Detection → Int
  isAtEdge : Detection → Bool
  finaliseList : List Detection → Param F → List Detection
  calcObjectWCSparams : List Detection → List Detection
  search : SearchKind → Param F → List Detection → List Detection
  adjacent : Voxel → Voxel → Bool
  grow : List Detection → List Detection
  optimiseMask : List Detection → List Detection
  parameterise : List RadioSource → List RadioSource
  SortDetections : List RadioSource → String → List RadioSource
  snrThreshold : F → F → F → F
  madfmToSigma : F → F
  zero : F
  one : F

/-! ## Blob streams -/

/-- One value written to a blob stream, with the type it was written as. -/
inductive BlobItem (F : Type) where
  | int16 (v : Int)
  | int32 (v : Int)
  | int (v : Int)
  | double (v : F)
  | source (s : RadioSource)
deriving DecidableEq

/-- Modelled from the spec: a message of the transport, as built with `LOFAR::BlobOStream`
(whose source is not among the translated files): a typed, versioned envelope followed by
the values written, in order. -/
structure Blob (F : Type) where
  objectType : String
  version : Int
  items : List (BlobItem F)
deriving DecidableEq

/-- Modelled from the spec: `BlobIStream::getStart(type)` fails when the message is not of
the expected type and otherwise gives the version of the envelope and a stream positioned
on the first value. -/
def BlobIStream.getStart {F : Type} (bs : Blob F) (type : String) :
    Except AskapError (Int × List (BlobItem F)) :=
  if bs.objectType = type then .ok (bs.version, bs.items)
  else .error (.blobError "wrong object type")

/-- Modelled from the spec: `in >> v` for an `int16`; a truncated or malformed message is an error. -/
def BlobIStream.getInt16 {F : Type} : List (BlobItem F) → Except AskapError (Int × List (BlobItem F))
  | .int16 v :: rest => .ok (v, rest)
  | _ => .error (.blobError "int16 expected")

/-- Modelled from the spec: `in >> v` for an `int32`. -/
def BlobIStream.getInt32 {F : Type} : List (BlobItem F) → Except AskapError (Int × List (BlobItem F))
  | .int32 v :: rest => .ok (v, rest)
  | _ => .error (.blobError "int32 expected")

/-- Modelled from the spec: `in >> v` for an `int`. -/
def BlobIStream.getInt {F : Type} : List (BlobItem F) → Except AskapError (Int × List (BlobItem F))
  | .int v :: rest => .ok (v, rest)
  | _ => .error (.blobError "int expected")

/-- Modelled from the spec: `in >> v` for a `double`. -/
def BlobIStream.getDouble {F : Type} : List (BlobItem F) → Except AskapError (F × List (BlobItem F))
  | .double v :: rest => .ok (v, rest)
  | _ => .error (.blobError "double expected")

/-- Modelled from the spec: `in >> src` for a `RadioSource`, the inverse of `out << src`. -/
def BlobIStream.getSource {F : Type} :
    List (BlobItem F) → Except AskapError (RadioSource × List (BlobItem F))
  | .source s :: rest => .ok (s, rest)
  | _ => .error (.blobError "RadioSource expected")

/-- Modelled from the spec: `BlobIStream::getEnd()` fails when part of the message is unread. -/
def BlobIStream.getEnd {F : Type} : List (BlobItem F) → Except AskapError Unit
  | [] => .ok ()
  | _ :: _ => .error (.blobError "part of the object not read")

/-- Modelled from the spec: the macro `ASKAPASSERT(condition)` of `askap/AskapError.h`
(not among the translated files) throws `AssertError` when the condition is false; a
protocol violation is fatal. -/
def ASKAPASSERT (condition : Bool) (text : String) : Except AskapError Unit :=
  if condition then .ok () else .error (.assertError text)

/-! ## receiveObjects -/

/-- The function `DuchampParallel::is2D`: at most two axes of the cube are longer than one pixel. -/
def is2D {F : Type} (cube : Cube F) : Bool :=
  decide (cube.dim.countP (fun d => decide (d > 1)) ≤ 2)

/-- A voxel moved by the given amounts. -/
def Voxel.translate (v : Voxel) (dx dy dz : Int) : Voxel := ⟨v.x + dx, v.y + dy, v.z + dz⟩

/-- The setter `Detection::setXOffset`. -/
def RadioSource.setXOffset (s : RadioSource) (o : Int) : RadioSource := { s with xSubOffset := o }

/-- The setter `Detection::setYOffset`. -/
def RadioSource.setYOffset (s : RadioSource) (o : Int) : RadioSource := { s with ySubOffset := o }

/-- The setter `Detection::setZOffset`. -/
def RadioSource.setZOffset (s : RadioSource) (o : Int) : RadioSource := { s with zSubOffset := o }

/-- Modelled from the spec: `Detection::addOffsets()` (Duchamp library, not among the
translated files) applies the stored offsets to the coordinates of the detection: every
voxel is moved by the three offsets. -/
def RadioSource.addOffsets (s : RadioSource) : RadioSource :=
  { s with pixelSet := s.pixelSet.image (fun v => v.translate s.xSubOffset s.ySubOffset s.zSubOffset) }

/-- The setter `Detection::setOffsets(pars)`: the offsets become those of the parameter set. -/
def RadioSource.setOffsets {F : Type} (s : RadioSource) (pars : Param F) : RadioSource :=
  { s with xSubOffset := pars.xOffset, ySubOffset := pars.yOffset, zSubOffset := pars.zOffset }

/-- The setter `FittingParameters::setFlagDoFit`. -/
def FittingParameters.setFlagDoFit (fp : FittingParameters) (b : Bool) : FittingParameters :=
  { fp with doFit := b }

/-- Lines 975-989 of `receiveObjects`: the received source is put in the frame of the
master cube. The calls `calcParams`, `calcWCSparams`, `defineBox` and the assignment of the
fit parameters write attributes outside the model. -/
def correctOffsets {F : Type} (pars : Param F) (xstart ystart zstart : Int) (src : RadioSource) :
    RadioSource :=
  -- Correct for any offsets.
  let src := src.setXOffset (xstart - pars.xOffset)
  let src := src.setYOffset (ystart - pars.yOffset)
  let src := src.setZOffset (zstart - pars.zOffset)
  let src := src.addOffsets
  -- And now set offsets to those of the full image as we are in the master cube
  src.setOffsets pars

/-- The size test of lines 993-994:
`src.hasEnoughChannels(pars.getMinChannels()) && (src.getSpatialSize() >= pars.getMinPix())`. -/
def meetsSizeCriteria {F : Type} (lib : Library F) (pars : Param F) (src : RadioSource) : Bool :=
  lib.hasEnoughChannels src.toDetection pars.minChannels
    && decide (lib.getSpatialSize src.toDetection ≥ pars.minPix)

/-- The body of the loop over the objects of one message, after `in >> src`
(lines 975-998). -/
def storeSource {F : Type} (lib : Library F) (xstart ystart zstart : Int)
    (st : DuchampParallel F) (src : RadioSource) : DuchampParallel F :=
  let src := correctOffsets st.itsCube.pars xstart ystart zstart src
  if src.atEdge then { st with itsEdgeSourceList := st.itsEdgeSourceList ++ [src] }
  else if meetsSizeCriteria lib st.itsCube.pars src then
    -- Only add the source if it meets the true criteria for size
    { st with itsSourceList := st.itsSourceList ++ [src] }
  else st

/-- The loop `for (int obj = 0; obj < numObj; obj++)` of `receiveObjects`, with the number
of iterations left as first argument. The result carries the stream after the last read. -/
def readSources {F : Type} (lib : Library F) (xstart ystart zstart : Int) :
    Nat → DuchampParallel F → List (BlobItem F) → Outcome (DuchampParallel F × List (BlobItem F))
  | 0, st, s => ⟨(st, s), none⟩
  | n + 1, st, s =>
    match BlobIStream.getSource s with
    | .error e => ⟨(st, s), some e⟩
    | .ok (src, s) => readSources lib xstart ystart zstart n (storeSource lib xstart ystart zstart st src) s

/-- The body of the loop over the workers in `receiveObjects` (lines 959-1003);
`receiveBlob i` is the message that arrives from rank `i`. -/
def receiveFromWorker {F : Type} (lib : Library F) (receiveBlob : Nat → Blob F) (i : Nat)
    (st : DuchampParallel F) : Outcome (DuchampParallel F) :=
  let st := { st with trace := st.trace ++ [Event.receiveBlob i] }
  let bs := receiveBlob i
  match BlobIStream.getStart bs "detW2M" with
  | .error e => ⟨st, some e⟩
  | .ok (version, s) =>
  match ASKAPASSERT (version == 1) "version == 1" with
  | .error e => ⟨st, some e⟩
  | .ok _ =>
  match BlobIStream.getInt16 s with
  | .error e => ⟨st, some e⟩
  | .ok (_rank, s) =>
  match BlobIStream.getInt32 s with
  | .error e => ⟨st, some e⟩
  | .ok (numObj, s) =>
  match BlobIStream.getInt s with
  | .error e => ⟨st, some e⟩
  | .ok (xstart, s) =>
  match BlobIStream.getInt s with
  | .error e => ⟨st, some e⟩
  | .ok (ystart, s) =>
  match BlobIStream.getInt s with
  | .error e => ⟨st, some e⟩
  | .ok (zstart, s) =>
  match readSources lib xstart ystart zstart numObj.toNat st s with
  | ⟨(st, _), some e⟩ => ⟨st, some e⟩
  | ⟨(st, s), none⟩ =>
  match BlobIStream.getEnd s with
  | .error e => ⟨st, some e⟩
  | .ok _ => ⟨st, none⟩

/-- A loop whose body may throw, run over the given values of its counter: the first
exception ends the loop. -/
def forEachRank {σ : Type} (body : Nat → σ → Outcome σ) : List Nat → σ → Outcome σ
  | [], st => ⟨st, none⟩
  | i :: rest, st =>
    match body i st with
    | ⟨st, some e⟩ => ⟨st, some e⟩
    | ⟨st, none⟩ => forEachRank body rest st

/-- Lines 945-947 of `receiveObjects`: don't do fit if we have a spectral axis. -/
def receiveObjectsFitFlag {F : Type} (st : DuchampParallel F) : DuchampParallel F :=
  let flagIs2D := !st.itsCube.canUseThirdAxis || is2D st.itsCube
  { st with itsFitParams := st.itsFitParams.setFlagDoFit (st.itsFitParams.doFit && flagIs2D) }

/-- The function `DuchampParallel::receiveObjects`: the master reads the message of every worker, in the
order of the ranks `1, ..., nProcs - 1`. -/
def receiveObjects {F : Type} (lib : Library F) (receiveBlob : Nat → Blob F)
    (st : DuchampParallel F) : Outcome (DuchampParallel F) :=
  if !st.itsComms.isParallel || st.itsComms.isMaster then
    if st.itsComms.isParallel then
      forEachRank (receiveFromWorker lib receiveBlob) (List.range' 1 (st.itsComms.nProcs - 1))
        (receiveObjectsFitFlag st)
    else ⟨st, none⟩
  else ⟨st, none⟩

/-! ## setThreshold -/

/-- Modelled from the spec: `StatsContainer::getMiddle` (Duchamp library), the location of
the statistics: the median with robust statistics, the mean otherwise. -/
def StatsContainer.getMiddle {F : Type} (s : StatsContainer F) : F :=
  if s.robust then s.median else s.mean

/-- Modelled from the spec: `StatsContainer::getSpread` (Duchamp library), the spread of the
statistics: the converted MADFM with robust statistics, the standard
deviation otherwise. -/
def StatsContainer.getSpread {F : Type} (lib : Library F) (s : StatsContainer F) : F :=
  if s.robust then lib.madfmToSigma s.madfm else s.stddev

/-- The getter `StatsContainer::getThreshold`. -/
def StatsContainer.getThreshold {F : Type} (s : StatsContainer F) : F := s.threshold

/-- The setter `StatsContainer::setRobust`. -/
def StatsContainer.setRobust {F : Type} (s : StatsContainer F) (b : Bool) : StatsContainer F :=
  { s with robust := b }

/-- The setter `StatsContainer::setMean`. -/
def StatsContainer.setMean {F : Type} (s : StatsContainer F) (m : F) : StatsContainer F :=
  { s with mean := m }

/-- The setter `StatsContainer::setStddev`. -/
def StatsContainer.setStddev {F : Type} (s : StatsContainer F) (d : F) : StatsContainer F :=
  { s with stddev := d }

/-- Modelled from the spec: `StatsContainer::define(mean, median, stddev, madfm)` (Duchamp
library) sets the statistics directly: the four values are stored
as given. -/
def StatsContainer.define {F : Type} (s : StatsContainer F) (mean median stddev madfm : F) :
    StatsContainer F :=
  { s with mean := mean, median := median, stddev := stddev, madfm := madfm, defined := true }

/-- Modelled from the spec: `StatsContainer::setThresholdSNR(snr)` (Duchamp library): the
threshold becomes `middle + snr * spread`. -/
def StatsContainer.setThresholdSNR {F : Type} (lib : Library F) (s : StatsContainer F) (snr : F) :
    StatsContainer F :=
  { s with threshold := lib.snrThreshold s.getMiddle (s.getSpread lib) snr }

/-- The setter `Param::setThreshold`. -/
def Param.setThreshold {F : Type} (p : Param F) (t : F) : Param F := { p with threshold := t }

/-- The setter `Param::setFlagUserThreshold`. -/
def Param.setFlagUserThreshold {F : Type} (p : Param F) (b : Bool) : Param F :=
  { p with flagUserThreshold := b }

/-- The result of a function that takes part in a broadcast: its outcome, and the message
it handed to `broadcastBlob` when it is the root. -/
structure BroadcastStep (F : Type) where
  outcome : Outcome (DuchampParallel F)
  sent : Option (Blob F)

/-- The last two statements of `setThreshold` (lines 1483-1484):
`this->itsCube.pars().setThreshold(threshold)`. -/
def storeThreshold {F : Type} (st : DuchampParallel F) (threshold : F) : DuchampParallel F :=
  { st with itsCube := { st.itsCube with pars := st.itsCube.pars.setThreshold threshold } }

/-- The master branch of `setThreshold` (lines 1440-1453): the message it broadcasts
and the value left in the local variable `threshold`. -/
def setThresholdMaster {F : Type} (lib : Library F) (st : DuchampParallel F) :
    Blob F × F × DuchampParallel F :=
  let threshold := st.itsCube.stats.getThreshold
  let mean := st.itsCube.stats.getMiddle
  let stddev := st.itsCube.stats.getSpread lib
  (⟨"threshM2W", 1, [.double threshold, .double mean, .double stddev]⟩, threshold,
    { st with trace := st.trace ++ [Event.broadcastBlob 0] })

/-- The worker branch of `setThreshold` (lines 1454-1473); `bs` is the message delivered by
`broadcastBlob`. The result holds the value left in the local variable `threshold`. -/
def setThresholdWorker {F : Type} (lib : Library F) (bs : Blob F) (st : DuchampParallel F) :
    Except (AskapError × DuchampParallel F) (F × DuchampParallel F) :=
  let st := { st with trace := st.trace ++ [Event.broadcastBlob 0] }
  match BlobIStream.getStart bs "threshM2W" with
  | .error e => .error (e, st)
  | .ok (version, s) =>
  match ASKAPASSERT (version == 1) "version == 1" with
  | .error e => .error (e, st)
  | .ok _ =>
  match BlobIStream.getDouble s with
  | .error e => .error (e, st)
  | .ok (threshold, s) =>
  match BlobIStream.getDouble s with
  | .error e => .error (e, st)
  | .ok (mean, s) =>
  match BlobIStream.getDouble s with
  | .error e => .error (e, st)
  | .ok (stddev, s) =>
  match BlobIStream.getEnd s with
  | .error e => .error (e, st)
  | .ok _ =>
    let stats := st.itsCube.stats.setRobust false
    let stats := stats.setMean mean
    let stats := stats.setStddev stddev
    let stats := stats.define stats.getMiddle lib.zero (stats.getSpread lib) lib.one
    let st := { st with itsCube := { st.itsCube with stats := stats } }
    let st :=
      if !st.itsCube.pars.flagUserThreshold then
        let stats := st.itsCube.stats.setThresholdSNR lib st.itsCube.pars.cut
        let pars := st.itsCube.pars.setFlagUserThreshold true
        let pars := pars.setThreshold stats.getThreshold
        { st with itsCube := { st.itsCube with stats := stats, pars := pars } }
      else st
    .ok (threshold, st)

/-- The function `DuchampParallel::setThreshold`; `delivered` is the message that `broadcastBlob` delivers
to this process when it is a worker. -/
def setThreshold {F : Type} (lib : Library F) (delivered : Blob F) (st : DuchampParallel F) :
    BroadcastStep F :=
  if !st.itsFlagThresholdPerWorker then
    -- when doing a threshold per worker, have already set the threshold.
    if st.itsComms.isParallel then
      if st.itsComms.isMaster then
        match setThresholdMaster lib st with
        | (bs, threshold, st) => ⟨⟨storeThreshold st threshold, none⟩, some bs⟩
      else if st.itsComms.isWorker then
        match setThresholdWorker lib delivered st with
        | .error (e, st) => ⟨⟨st, some e⟩, none⟩
        | .ok (threshold, st) => ⟨⟨storeThreshold st threshold, none⟩, none⟩
      else ⟨⟨st, some (.askapError "Neither Master nor Worker!")⟩, none⟩
    else
      -- serial case
      let threshold :=
        if st.itsCube.pars.flagUserThreshold then st.itsCube.pars.threshold
        else lib.snrThreshold st.itsCube.stats.getMiddle (st.itsCube.stats.getSpread lib)
          st.itsCube.pars.cut
      ⟨⟨storeThreshold st threshold, none⟩, none⟩
  else ⟨⟨st, none⟩, none⟩

/-! ## The merger -/

/-- Modelled from the spec: `Detection::addDetection` (Duchamp library): the voxels of the
other detection are added to this one, "with their coordinate sets unioned". -/
def Detection.addDetection (a b : Detection) : Detection :=
  { a with pixelSet := a.pixelSet ∪ b.pixelSet }

/-- Two voxel sets touch under the connectivity rule `adj` when a voxel of one is
adjacent to a voxel of the other. -/
def touching (adj : Voxel → Voxel → Bool) (A B : Finset Voxel) : Bool :=
  decide (∃ v ∈ A, ∃ w ∈ B, adj v w = true)

/-- Modelled from the spec: two detections are connected directly when their voxel sets
touch under the connectivity rule `adj`. -/
def Detection.canMerge (adj : Voxel → Voxel → Bool) (a b : Detection) : Bool :=
  touching adj a.pixelSet b.pixelSet

/-- Modelled from the spec: one insertion into the merge set. The detections already held
that touch the new one are fused with it; the others stay as they are. -/
def insertObject (adj : Voxel → Voxel → Bool) (acc : List Detection) (d : Detection) :
    List Detection :=
  acc.filter (fun o => !Detection.canMerge adj d o)
    ++ [(acc.filter (fun o => Detection.canMerge adj d o)).foldl Detection.addDetection d]

/-- Modelled from the spec: the fusion of the Global Merger, "union-find (or equivalent
transitive-closure) over voxel adjacency": the detections are inserted one after the
other, in the order of the list. -/
def mergeList (adj : Voxel → Voxel → Bool) (objs : List Detection) : List Detection :=
  objs.foldl (insertObject adj) []

/-- The insertion of `insertObject`, seen on the voxel sets alone. -/
def insertVoxelSet (adj : Voxel → Voxel → Bool) (acc : List (Finset Voxel)) (d : Finset Voxel) :
    List (Finset Voxel) :=
  acc.filter (fun o => !touching adj d o)
    ++ [(acc.filter (fun o => touching adj d o)).foldl (fun a b => a ∪ b) d]

/-- The fusion of `mergeList`, seen on the voxel sets alone. -/
def mergeVoxelSets (adj : Voxel → Voxel → Bool) (sets : List (Finset Voxel)) :
    List (Finset Voxel) :=
  sets.foldl (insertVoxelSet adj) []

/-- Modelled from the spec: `Cube::ObjectMerger()` (Duchamp library, not among the translated
files): detections whose voxel sets are connected, directly or through a chain of others,
are merged into one; growth is applied afterwards when the growth flag is set. -/
def ObjectMerger {F : Type} (lib : Library F) (pars : Param F) (objs : List Detection) :
    List Detection :=
  let merged := mergeList lib.adjacent objs
  if pars.flagGrowth then lib.grow merged else merged

/-- The call `this->itsCube.ObjectMerger()`, recorded in the trace with the parameters
it runs with. -/
def cubeObjectMerger {F : Type} (lib : Library F) (st : DuchampParallel F) : DuchampParallel F :=
  { st with
    itsCube := { st.itsCube with objectList := ObjectMerger lib st.itsCube.pars st.itsCube.objectList }
    trace := st.trace ++ [Event.objectMerger st.itsCube.pars] }

/-- The setter `Param::setFlagGrowth`. -/
def Param.setFlagGrowth {F : Type} (p : Param F) (b : Bool) : Param F := { p with flagGrowth := b }

/-- The statement `this->itsCube.pars().setFlagGrowth(b)`. -/
def setFlagGrowth {F : Type} (st : DuchampParallel F) (b : Bool) : DuchampParallel F :=
  { st with itsCube := { st.itsCube with pars := st.itsCube.pars.setFlagGrowth b } }

/-! ## findSources and finaliseDetection -/

/-- The first loop of `finaliseDetection` (lines 790-795): every object goes to the back of
`edgelist` when `setAtEdge` flags it, to the back of `goodlist` otherwise. The result is
the pair `(edgelist, goodlist)`. -/
def classifyObjects {F : Type} (lib : Library F) (objs : List Detection) :
    List Detection × List Detection :=
  objs.foldl
    (fun acc obj => if lib.isAtEdge obj then (acc.1 ++ [obj], acc.2) else (acc.1, acc.2 ++ [obj]))
    ([], [])

/-- The function `DuchampParallel::finaliseDetection`. With a variable threshold the source
also updates the peak signal-to-noise of every object, an attribute outside the model. -/
def finaliseDetection {F : Type} (lib : Library F) (st : DuchampParallel F) : DuchampParallel F :=
  -- Remove non-edge sources that are smaller than originally requested
  let lists := classifyObjects lib st.itsCube.objectList
  let edgelist := lists.1
  let goodlist := lib.finaliseList lists.2 st.itsCube.pars
  let ngood := goodlist.length
  let nedge := edgelist.length
  let goodlist := edgelist.foldl (fun g e => g ++ [e]) goodlist
  let objectList := lib.calcObjectWCSparams goodlist
  { st with
    itsCube := { st.itsCube with objectList := objectList }
    trace := st.trace ++ [Event.finaliseList st.itsCube.pars, Event.found objectList.length nedge ngood] }

/-- The three minimum size parameters set together, as in lines 703-705 and 776-778. -/
def setMinSizes {F : Type} (st : DuchampParallel F) (minpix minchan minvox : Int) :
    DuchampParallel F :=
  { st with itsCube := { st.itsCube with
      pars := { st.itsCube.pars with minPix := minpix, minChannels := minchan, minVoxels := minvox } } }

/-- The choice of the search routine in `findSources` (lines 710-725). -/
def searchKind {F : Type} (st : DuchampParallel F) : SearchKind :=
  if st.itsFlagVariableThreshold then .variableThreshold
  else if st.itsWeighterDoScaling then .weightScaling
  else if st.itsCube.pars.flagATrous then .recon
  else if st.itsCube.pars.flagSmooth then .smooth
  else .cubic

/-- The chosen search, run on the cube with its current parameters and recorded in the trace. -/
def runSearch {F : Type} (lib : Library F) (st : DuchampParallel F) : DuchampParallel F :=
  { st with
    itsCube := { st.itsCube with
      objectList := lib.search (searchKind st) st.itsCube.pars st.itsCube.objectList }
    trace := st.trace ++ [Event.search (searchKind st) st.itsCube.pars] }

/-- The mask optimisation of `findSources` (lines 738-772). -/
def optimiseMaskStep {F : Type} (lib : Library F) (st : DuchampParallel F) : DuchampParallel F :=
  let st := { st with itsCube := { st.itsCube with
    objectList := lib.optimiseMask (lib.calcObjectWCSparams st.itsCube.objectList) } }
  let growthflag := st.itsCube.pars.flagGrowth
  -- don't do any further growing in the second lot of merging
  let st := setFlagGrowth st false
  let st := cubeObjectMerger lib st
  setFlagGrowth st growthflag

/-- The function `DuchampParallel::findSources`. The search routines and the merger read
the parameters of the cube and leave the object list; the deletion of the weighter has no
effect on the members of the model. -/
def findSources {F : Type} (lib : Library F) (st : DuchampParallel F) : DuchampParallel F :=
  if st.itsComms.isWorker then
    -- remove mininum size criteria, so we don't miss anything on the borders.
    let minpix := st.itsCube.pars.minPix
    let minchan := st.itsCube.pars.minChannels
    let minvox := st.itsCube.pars.minVoxels
    let st := if st.itsComms.isParallel then setMinSizes st 1 1 1 else st
    let st := if st.itsCube.numPix > 0 then runSearch lib st else st
    -- merge the objects, and grow them if necessary.
    let st := cubeObjectMerger lib st
    let st := if st.itsFlagOptimiseMask then optimiseMaskStep lib st else st
    let st := if st.itsComms.isParallel then setMinSizes st minpix minchan minvox else st
    finaliseDetection lib st
  else st

/-! ## cleanup -/

/-- The setter `Detection::setID`. -/
def RadioSource.setID (s : RadioSource) (i : Int) : RadioSource := { s with id := i }

/-- The setter `RadioSource::setAtEdge(bool)`. -/
def RadioSource.setAtEdge (s : RadioSource) (b : Bool) : RadioSource := { s with atEdge := b }

/-- The method `Detection::addToFlagText`: the text is appended to the flag text. -/
def RadioSource.addToFlagText (s : RadioSource) (t : String) : RadioSource :=
  { s with flagText := s.flagText ++ t }

/-- The merge of the edge sources in `cleanup` (lines 1047-1069): the edge sources are added
to the cube in the order of the edge list, merged with the growth flag off, and the merged
objects become the new edge list. -/
def cleanupMergeEdges {F : Type} (lib : Library F) (st : DuchampParallel F) : DuchampParallel F :=
  let st := { st with itsCube := { st.itsCube with objectList := [] } }
  if st.itsEdgeSourceList.length > 0 then
    -- if there are edge sources
    let st := { st with itsCube := { st.itsCube with
      objectList := st.itsEdgeSourceList.foldl (fun objs src => objs ++ [src.toDetection])
        st.itsCube.objectList } }
    let growthflag := st.itsCube.pars.flagGrowth
    -- can't grow as don't have flux array in itsCube
    let st := setFlagGrowth st false
    let st := cubeObjectMerger lib st
    let st := setFlagGrowth st growthflag
    { st with itsEdgeSourceList :=
        st.itsCube.objectList.foldl (fun l obj => l ++ [RadioSource.ofDetection obj]) [] }
  else st

/-- The last loop of `cleanup` (lines 1091-1099) from the position `k` of the iterator on:
the source at position `k` gets the identifier `k + 1`, its edge flag and its flag text. -/
def assignIDs {F : Type} (lib : Library F) : Nat → List RadioSource → List RadioSource
  | _, [] => []
  | k, src :: rest =>
    let src := src.setID ((k : Int) + 1)
    let src := src.setAtEdge (lib.isAtEdge src.toDetection)
    let src := if src.atEdge then src.addToFlagText "E" else src.addToFlagText "-"
    src :: assignIDs lib (k + 1) rest

/-- The part of `cleanup` run on the master, or in serial mode (lines 1040-1103). -/
def cleanupMaster {F : Type} (lib : Library F) (st : DuchampParallel F) : DuchampParallel F :=
  let st := cleanupMergeEdges lib st
  let st := { st with itsEdgeSourceList := lib.parameterise st.itsEdgeSourceList }
  let st := { st with
    itsSourceList := st.itsEdgeSourceList.foldl (fun l src => l ++ [src]) st.itsSourceList
    itsEdgeSourceList := [] }
  let st := { st with
    itsSourceList := lib.SortDetections st.itsSourceList st.itsCube.pars.sortingParam }
  let st := { st with itsSourceList := assignIDs lib 0 st.itsSourceList }
  { st with itsCube := { st.itsCube with
      objectList := st.itsSourceList.map (fun src => src.toDetection) } }

/-- The function `DuchampParallel::cleanup`. On a worker of a parallel run only the distributed
parameterisation takes part, which leaves the members of the model as they are. -/
def cleanup {F : Type} (lib : Library F) (st : DuchampParallel F) : DuchampParallel F :=
  if !st.itsComms.isParallel || st.itsComms.isMaster then cleanupMaster lib st else st

/-! ## Reading the trace -/

/-- The events that a step added to the trace: those of `after` beyond the length of the
trace of `before`. -/
def newEvents {F : Type} (before after : DuchampParallel F) : List (Event F) :=
  after.trace.drop before.trace.length

/-- The three minimum size parameters `(minPix, minChannels, minVoxels)`. -/
def Param.minSizes {F : Type} (p : Param F) : Int × Int × Int :=
  (p.minPix, p.minChannels, p.minVoxels)

/-! ## A small instance, used to evaluate the definitions -/

/-- Corner adjacency: two voxels differ by at most one along every axis. -/
def Voxel.neighbour (v w : Voxel) : Bool :=
  decide (|v.x - w.x| ≤ 1 ∧ |v.y - w.y| ≤ 1 ∧ |v.z - w.z| ≤ 1)

/-- A detection with the given voxels, found in a subimage without offset. -/
def demoDetection (voxels : List Voxel) : Detection :=
  { pixelSet := voxels.toFinset, xSubOffset := 0, ySubOffset := 0, zSubOffset := 0, id := 0,
    flagText := "" }

/-- An instance of the library functions: sizes are counted on the voxel set, an object is
at the edge when it has a voxel in column 50 or beyond, and the lists are otherwise left
as they are. -/
def demoLibrary : Library Int :=
  { hasEnoughChannels := fun d m => decide (m ≤ ((d.pixelSet.image (fun v => v.z)).card : Int))
    getSpatialSize := fun d => ((d.pixelSet.image (fun v => (v.x, v.y))).card : Int)
    isAtEdge := fun d => decide (∃ v ∈ d.pixelSet, 50 ≤ v.x)
    finaliseList := fun l pars => l.filter (fun d => decide (pars.minPix ≤ (d.pixelSet.card : Int)))
    calcObjectWCSparams := fun l => l
    search := fun _ _ _ =>
      [demoDetection [⟨3, 3, 0⟩], demoDetection [⟨50, 7, 0⟩, ⟨51, 7, 0⟩],
        demoDetection [⟨20, 20, 0⟩, ⟨21, 20, 0⟩]]
    adjacent := Voxel.neighbour
    grow := fun l => l
    optimiseMask := fun l => l
    parameterise := fun l => l
    SortDetections := fun l _ => l.reverse
    snrThreshold := fun middle spread snr => middle + snr * spread
    madfmToSigma := fun m => m
    zero := 0
    one := 1 }

/-- Parameters asking for at least two pixels, for a cube at offset (1, 1, 0) of its parent. -/
def demoParam : Param Int :=
  { minPix := 2, minChannels := 1, minVoxels := 2, flagGrowth := true, flagUserThreshold := false,
    threshold := 0, cut := 3, flagATrous := false, flagSmooth := false, xOffset := 1, yOffset := 1,
    zOffset := 0, sortingParam := "xvalue" }

/-- Statistics with mean 10 and standard deviation 2. -/
def demoStats : StatsContainer Int :=
  { mean := 10, stddev := 2, median := 9, madfm := 1, threshold := 16, robust := false,
    defined := true }

/-- The state of the process of the given rank in a run of three processes. -/
def demoProcess (rank : Nat) : DuchampParallel Int :=
  { itsComms :=
      { isParallel := true, isMaster := decide (rank = 0), isWorker := decide (0 < rank),
        rank := rank, nProcs := 3 }
    itsCube :=
      { pars := demoParam, stats := demoStats, objectList := [], dim := [100, 100, 1], numPix := 10000,
        canUseThirdAxis := true }
    itsFitParams := { doFit := false, boxPadSize := 3 }
    itsFlagThresholdPerWorker := false
    itsFlagVariableThreshold := false
    itsFlagOptimiseMask := false
    itsWeighterDoScaling := false
    itsSourceList := []
    itsEdgeSourceList := []
    trace := [] }

/-- Two sources as a worker sends them: an edge object of one voxel and an interior
object of two voxels. -/
def demoSources : List RadioSource :=
  [{ toDetection := demoDetection [⟨49, 5, 0⟩], atEdge := true },
    { toDetection := demoDetection [⟨2, 2, 0⟩, ⟨3, 2, 0⟩], atEdge := false }]

/-- The messages of the workers: rank 1 sends `demoSources` from a subimage starting at
(11, 21, 0); rank 2 sends a message of version 2. -/
def demoInbox (i : Nat) : Blob Int :=
  if i = 1 then
    ⟨"detW2M", 1, .int16 1 :: .int32 2 :: .int 11 :: .int 21 :: .int 0 :: demoSources.map BlobItem.source⟩
  else ⟨"detW2M", 2, []⟩

/-- Three sources as a worker sends them: an edge object of one voxel, an interior object
of two voxels, and an interior object of one voxel, which is below `minPix = 2`. -/
def demoSizedSources : List RadioSource :=
  [{ toDetection := demoDetection [⟨49, 5, 0⟩], atEdge := true },
    { toDetection := demoDetection [⟨2, 2, 0⟩, ⟨3, 2, 0⟩], atEdge := false },
    { toDetection := demoDetection [⟨7, 7, 0⟩], atEdge := false }]

/-- The message of rank 1 carrying `demoSizedSources` from a subimage starting at (11, 21, 0). -/
def demoSizedInbox (_i : Nat) : Blob Int :=
  ⟨"detW2M", 1, .int16 1 :: .int32 3 :: .int 11 :: .int 21 :: .int 0
    :: demoSizedSources.map BlobItem.source⟩

/-- The left part of an object split at the boundary between columns 49 and 50. -/
def demoEdgeLeft : RadioSource := RadioSource.ofDetection (demoDetection [⟨48, 5, 0⟩, ⟨49, 5, 0⟩])

/-- The right part of the object split at the boundary between columns 49 and 50. -/
def demoEdgeRight : RadioSource :=
  RadioSource.ofDetection (demoDetection [⟨50, 5, 0⟩, ⟨51, 5, 0⟩, ⟨52, 5, 0⟩])

/-- An edge source far from the other two. -/
def demoEdgeFar : RadioSource := RadioSource.ofDetection (demoDetection [⟨80, 80, 0⟩])

/-- Three edge sources on the master: two that touch across column 49/50 and one far away. -/
def demoEdgeSources : List RadioSource := [demoEdgeLeft, demoEdgeFar, demoEdgeRight]

/-- The master of the small instance holding the given edge sources and one interior source. -/
def demoMaster (edges : List RadioSource) : DuchampParallel Int :=
  { demoProcess 0 with
    itsEdgeSourceList := edges
    itsSourceList := [RadioSource.ofDetection (demoDetection [⟨10, 10, 0⟩, ⟨11, 10, 0⟩])] }

/-! ## fitSources and sendObjects -/

/-- Reduction of an integer to the range of a 16-bit two's complement integer (`int16`). -/
def wrapInt16 (v : Int) : Int := (v + 2 ^ 15) % 2 ^ 16 - 2 ^ 15

/-- The body of the loop of `fitSources` (lines 849-862): a source is made from the object,
flagged when it lies at the edge of the subimage (never with a single process) and pushed
on the source list. The box, the fit parameters and the fit itself write attributes
outside the model. -/
def fitSourcesStep {F : Type} (lib : Library F) (st : DuchampParallel F) (obj : Detection) :
    DuchampParallel F :=
  let src := RadioSource.ofDetection obj
  -- Only do fit if object is not next to boundary
  let src := src.setAtEdge (lib.isAtEdge src.toDetection)
  let src := if st.itsComms.nProcs == 1 then src.setAtEdge false else src
  { st with itsSourceList := st.itsSourceList ++ [src] }

/-- The function `DuchampParallel::fitSources`: on a worker, one source per object of the
cube is pushed on the source list, in the order of the object list. -/
def fitSources {F : Type} (lib : Library F) (st : DuchampParallel F) : DuchampParallel F :=
  if st.itsComms.isWorker then
    -- don't do fit if we have a spectral axis.
    let st := receiveObjectsFitFlag st
    st.itsCube.objectList.foldl (fitSourcesStep lib) st
  else st

/-- The result of `sendObjects`: the state reached and, when a message was sent, its
destination and the message. -/
structure SendStep (F : Type) where
  state : DuchampParallel F
  sent : Option (Nat × Blob F)

/-- The function `DuchampParallel::sendObjects`. The arguments `xstart`, `ystart` and `zstart`
are the values of `section().getStart(0)`, `section().getStart(1)` and
`section().getStart(spec)` of the parameters of the cube, of type `int`. -/
def sendObjects {F : Type} (xstart ystart zstart : Int) (st : DuchampParallel F) : SendStep F :=
  if st.itsComms.isWorker then
    let num := wrapInt32 st.itsCube.objectList.length
    let rank := wrapInt16 st.itsComms.rank
    if st.itsComms.isParallel then
      let out : List (BlobItem F) := [.int16 rank, .int32 num]
      -- send the start positions of the subimage
      let out := out ++ [.int xstart, .int ystart, .int zstart]
      -- for each RadioSource object, send to master
      let out := st.itsSourceList.foldl (fun out src => out ++ [.source src]) out
      { state := { st with trace := st.trace ++ [Event.sendBlob 0] }
        sent := some (0, ⟨"detW2M", 1, out⟩) }
    else { state := st, sent := none }
  else { state := st, sent := none }

/-- The header of a message of detections, as `receiveObjects` reads it. -/
structure Envelope (F : Type) where
  version : Int
  rank : Int
  numObj : Int
  xstart : Int
  ystart : Int
  zstart : Int
  rest : List (BlobItem F)

/-- Lines 963-969 of `receiveObjects`: the reads that precede the loop over the objects:
the type tag and the version, then the rank as `int16`, the count as `int32` and the three
starts as `int`. -/
def decodeEnvelope {F : Type} (bs : Blob F) : Except AskapError (Envelope F) :=
  match BlobIStream.getStart bs "detW2M" with
  | .error e => .error e
  | .ok (version, s) =>
  match ASKAPASSERT (version == 1) "version == 1" with
  | .error e => .error e
  | .ok _ =>
  match BlobIStream.getInt16 s with
  | .error e => .error e
  | .ok (rank, s) =>
  match BlobIStream.getInt32 s with
  | .error e => .error e
  | .ok (numObj, s) =>
  match BlobIStream.getInt s with
  | .error e => .error e
  | .ok (xstart, s) =>
  match BlobIStream.getInt s with
  | .error e => .error e
  | .ok (ystart, s) =>
  match BlobIStream.getInt s with
  | .error e => .error e
  | .ok (zstart, s) => .ok ⟨version, rank, numObj, xstart, ystart, zstart, s⟩

/-- What `receiveObjects` does with a message once its header is read (lines 972-1003):
the loop over the objects and the check that the message is read to its end. -/
def receiveBody {F : Type} (lib : Library F) (env : Envelope F) (st : DuchampParallel F) :
    Outcome (DuchampParallel F) :=
  match readSources lib env.xstart env.ystart env.zstart env.numObj.toNat st env.rest with
  | ⟨(st, _), some e⟩ => ⟨st, some e⟩
  | ⟨(st, s), none⟩ =>
  match BlobIStream.getEnd s with
  | .error e => ⟨st, some e⟩
  | .ok _ => ⟨st, none⟩

/-- Lines 1459-1462 of `setThreshold`: the reads of the worker: the type tag and the version,
then the threshold, the mean and the standard deviation as `double`, and the end of the
message. -/
def decodeThreshold {F : Type} (bs : Blob F) : Except AskapError (F × F × F) :=
  match BlobIStream.getStart bs "threshM2W" with
  | .error e => .error e
  | .ok (version, s) =>
  match ASKAPASSERT (version == 1) "version == 1" with
  | .error e => .error e
  | .ok _ =>
  match BlobIStream.getDouble s with
  | .error e => .error e
  | .ok (threshold, s) =>
  match BlobIStream.getDouble s with
  | .error e => .error e
  | .ok (mean, s) =>
  match BlobIStream.getDouble s with
  | .error e => .error e
  | .ok (stddev, s) =>
  match BlobIStream.getEnd s with
  | .error e => .error e
  | .ok _ => .ok (threshold, mean, stddev)

/-- The count field of a message of detections: the second value written, when it is an `int32`. -/
def Blob.count {F : Type} (bs : Blob F) : Option Int :=
  match bs.items with
  | _ :: .int32 n :: _ => some n
  | _ => none

/-- The number of sources serialised in a message. -/
def Blob.numSources {F : Type} (bs : Blob F) : Nat :=
  bs.items.countP (fun item => match item with
    | .source _ => true
    | _ => false)

/-- The state of the worker of the given rank in the small instance after `findSources` and
`fitSources`. -/
def demoWorkerFitted (rank : Nat) : DuchampParallel Int :=
  fitSources demoLibrary (findSources demoLibrary (demoProcess rank))

/-- The messages that the workers of the small instance build with `sendObjects`, from
subimages that start at (11, 21, 0). -/
def demoSentInbox (i : Nat) : Blob Int :=
  match (sendObjects 11 21 0 (demoWorkerFitted i)).sent with
  | some (_, bs) => bs
  | none => ⟨"", 0, []⟩

/-! ## gatherStats -/

/-- Modelled from the spec: the setter `StatsContainer::setThreshold` (Duchamp library). -/
def StatsContainer.setThreshold {F : Type} (s : StatsContainer F) (t : F) : StatsContainer F :=
  { s with threshold := t }

/-- The method `ParameterSet::getString(key)`: the value bound to the key; an exception
when the key is not defined. -/
def ParameterSet.getString (ps : ParameterSet) (key : String) : Except AskapError String :=
  match ps key with
  | some value => .ok value
  | none => .error (.askapError ("Key " ++ key ++ " unknown"))

/-- The function `DuchampParallel::checkAndWarn`, acting on the member `itsParset`. The three
warnings it writes to the log are not part of the model. -/
def checkAndWarn (oldParam newParam : String) (itsParset : ParameterSet) :
    Except AskapError ParameterSet :=
  if itsParset.isDefined oldParam then
    if newParam == "" then
      -- there is no equivalent anymore
      .ok itsParset
    else
      if !itsParset.isDefined newParam then
        match itsParset.getString oldParam with
        | .error e => .error e
        | .ok val => .ok (itsParset.replace newParam val)
      else .ok itsParset
  else .ok itsParset

/-- The function `DuchampParallel::deprecatedParameters`: the eleven calls of `checkAndWarn`,
in order. -/
def deprecatedParameters (itsParset : ParameterSet) : Except AskapError ParameterSet := do
  let ps ← checkAndWarn "doFit" "Fitter.doFit" itsParset
  let ps ← checkAndWarn "fitJustDetection" "Fitter.fitJustDetection" ps
  let ps ← checkAndWarn "doMedianSearch" "VariableThreshold" ps
  let ps ← checkAndWarn "medianBoxWidth" "VariableThreshold.boxSize" ps
  let ps ← checkAndWarn "flagWriteSNRimage" "" ps
  let ps ← checkAndWarn "SNRimageName" "VariableThreshold.SNRimageName" ps
  let ps ← checkAndWarn "flagWriteThresholdImage" "" ps
  let ps ← checkAndWarn "ThresholdImageName" "VariableThreshold.ThresholdImageName" ps
  let ps ← checkAndWarn "flagWriteNoiseImage" "" ps
  let ps ← checkAndWarn "NoiseImageName" "VariableThreshold.NoiseImageName" ps
  checkAndWarn "weightsimage" "Weights.weightsImage" ps

/-- A parset with the deprecated key `doFit` and no key `Fitter.doFit`. -/
def demoOldParset : ParameterSet := fun k =>
  if k = "doFit" then some "true" else if k = "image" then some "a.taylor.0" else none

/-- Whether the pattern stands in the text at the given position. A `std::string` is seen
as the list of its characters. -/
def occursAt (s pat : List Char) (pos : Nat) : Bool := (s.drop pos).take pat.length == pat

/-- Modelled from the spec: `std::string::rfind(pat)` (C++ standard library): the position
of the last occurrence of the pattern in the text, `none` for `std::string::npos`. -/
def rfind (s pat : List Char) : Option Nat :=
  (List.range (s.length + 1)).reverse.find? (occursAt s pat)

/-- Modelled from the spec: `std::string::replace(pos, len, t)` (C++ standard library) for a
position inside the text: the `len` characters from `pos` on (or those there are) give way
to `t`. -/
def replaceAt (s : List Char) (pos len : Nat) (t : List Char) : List Char :=
  s.take pos ++ t ++ s.drop (pos + len)

/-- The members `itsFlagFindSpectralTerms` and `itsSpectralTermImages`, arrays indexed by the
term. -/
structure SpectralTerms where
  itsFlagFindSpectralTerms : Nat → Bool
  itsSpectralTermImages : Nat → List Char

/-- The local array `termname` of `checkSpectralTermImages`: three strings of which the
first two are given. -/
def termname : Nat → List Char
  | 0 => ".taylor.1".toList
  | 1 => ".taylor.2".toList
  | _ => []

/-- The body of the loop over the terms in `checkSpectralTermImages`; `imageFile` is the value
of `itsCube.pars().getImageFile()`. -/
def checkSpectralTermStep (imageFile : List Char) (st : SpectralTerms) (i : Nat) :
    SpectralTerms :=
  if st.itsFlagFindSpectralTerms i then
    if st.itsSpectralTermImages i = [] then
      -- if it hasn't been specified, set it to the .taylor.n image, but only if the input
      -- is a .taylor.0 image
      match rfind imageFile ".taylor.0".toList with
      | none =>
        -- set flag for this and higher terms to false
        let flags := (List.range' i (2 - i)).foldl (fun flags j => Function.update flags j false)
          st.itsFlagFindSpectralTerms
        { st with itsFlagFindSpectralTerms := flags }
      | some pos =>
        -- it is a taylor.0 image, so set current term's image appropriately
        let image := replaceAt imageFile pos 9 (termname i)
        { st with itsSpectralTermImages := Function.update st.itsSpectralTermImages i image }
    else st
  else st

/-- The function `DuchampParallel::checkSpectralTermImages`: the loop over the terms 0 and 1. -/
def checkSpectralTermImages (imageFile : List Char) (st : SpectralTerms) : SpectralTerms :=
  (List.range 2).foldl (checkSpectralTermStep imageFile) st

/-- Both terms asked for, neither image given. -/
def demoTerms : SpectralTerms :=
  { itsFlagFindSpectralTerms := fun _ => true, itsSpectralTermImages := fun _ => [] }

/-! ## SimulationUtilities: locationString -/

/-- Modelled from the spec: a parsed `duchamp::Section` (Duchamp library), seen through the
list of the 0-based starting coordinates of its axes, `getStartList()`. -/
structure Section where
  starts : List Int
deriving DecidableEq, Repr

/-- Modelled from the spec: `Section::getStartList()`. -/
def Section.getStartList (s : Section) : List Int := s.starts

/-- Modelled from the spec: `Section::getStart(i)`, the element `i` of the list of starts. -/
def Section.getStart (s : Section) (i : Nat) : Int := s.starts.getD i 0

/-- Modelled from the spec: the result of `Section::parse` for a subsection given by the
1-based range `lo:hi` of each axis: the start of an axis is `lo - 1`. -/
def Section.ofRanges (ranges : List (Int × Int)) : Section := ⟨ranges.map (fun r => r.1 - 1)⟩

/-- The function `locationString`. Writing an `int` to the stream gives its decimal text. -/
def locationString (subsection : Section) : String :=
  let locationString := "_"
  let locationString := (List.range subsection.getStartList.length).foldl
    (fun out i => out ++ "_" ++ toString (subsection.getStart i)) locationString
  locationString ++ "__"

/-! ## SimulationUtilities: doAddGaussian and addGaussian -/

/-- Modelled from the spec: `lround` (C library): the nearest integer, halfway cases away
from zero. A floating point value is seen as the rational it denotes. -/
def lround (x : ℚ) : Int := if 0 ≤ x then ⌊x + 1 / 2⌋ else -⌊-x + 1 / 2⌋

/-- The parameters of a `casa::Gaussian2D<casa::Double>` read by the translated functions. -/
structure Gaussian2D where
  height : ℚ
  xCenter : ℚ
  yCenter : ℚ
  majorAxis : ℚ
  minorAxis : ℚ
  PA : ℚ
deriving DecidableEq

/-- The answers of a `FluxGenerator`: the numbers of Stokes planes and of channels and the
flux of each. -/
structure FluxGenerator (F : Type) where
  nStokes : Nat
  nChan : Nat
  getFlux : Nat → Nat → F

/-- Arithmetic and routines that `doAddGaussian`, `addGaussian` and `addPointSource` call and that
are left arbitrary.

* `zeroPoint fwhm height`: the `float` value of
  `FWHMtoSIGMA(fwhm) * sqrt(-2.*log(1. / (MAXFLOAT * height)))`;
* `delta fwhm`: the `float` value of
  `std::min(1. / 32., pow(10., floor(log10(FWHMtoSIGMA(fwhm) / 5.) / log10(2.)) * log10(2.)))`;
* `add1DGaussian`: the effect of `add1DGaussian` on the array;
* `addPixels`: the effect on the array of the loop of `addGaussian` over the pixels of the
  box `xmin..xmax`, `ymin..ymax`;
* `addFloat`: the sum of two `float` values. -/
structure SimLibrary (F : Type) where
  zeroPoint : ℚ → ℚ → ℚ
  delta : ℚ → ℚ
  add1DGaussian : (Nat → F) → List Nat → Gaussian2D → FluxGenerator F → (Nat → F)
  addPixels : (Nat → F) → List Nat → Gaussian2D → FluxGenerator F → Bool →
    Int → Int → Int → Int → (Nat → F)
  addFloat : F → F → F

/-- The value of `long(axes[i] - 1)`: the subtraction is done on `unsigned int`. -/
def lastPixel (axes : List Nat) (i : Nat) : Int := ((axes.getD i 0 : Int) - 1) % 2 ^ 32

/-- The function `doAddGaussian`. -/
def doAddGaussian {F : Type} (lib : SimLibrary F) (axes : List Nat) (gauss : Gaussian2D) : Bool :=
  let zeroPoint := lib.zeroPoint gauss.majorAxis gauss.height
  let xmin := wrapInt32 (max (lround (gauss.xCenter - zeroPoint)) 0)
  let xmax := wrapInt32 (min (lround (gauss.xCenter + zeroPoint)) (lastPixel axes 0))
  let ymin := wrapInt32 (max (lround (gauss.yCenter - zeroPoint)) 0)
  let ymax := wrapInt32 (min (lround (gauss.yCenter + zeroPoint)) (lastPixel axes 1))
  decide (xmax ≥ xmin) && decide (ymax ≥ ymin)

/-- The index `loc` of `addPointSource`: the first sum is done on `unsigned int`, the rest on
`size_t`. -/
def pointSourceLoc (axes : List Nat) (xpix ypix : Int) (z istokes : Nat) : Nat :=
  (((xpix + axes.getD 0 0 * ypix) % 2 ^ 32).toNat + z * axes.getD 0 0 * axes.getD 1 0
    + istokes * axes.getD 0 0 * axes.getD 1 0 * axes.getD 2 0) % 2 ^ 64

/-- The function `addPointSource`: the result and the array afterwards. -/
def addPointSource {F : Type} (lib : SimLibrary F) (array : Nat → F) (axes : List Nat)
    (pix0 pix1 : ℚ) (fluxGen : FluxGenerator F) : Bool × (Nat → F) :=
  let xpix := wrapInt32 (lround pix0)
  let ypix := wrapInt32 (lround pix1)
  let addSource := decide (xpix ≥ 0) && decide (xpix < wrapInt32 (axes.getD 0 0))
    && decide (ypix ≥ 0) && decide (ypix < wrapInt32 (axes.getD 1 0))
  if addSource then
    let array := (List.range fluxGen.nStokes).foldl (fun array istokes =>
      (List.range fluxGen.nChan).foldl (fun array z =>
        let loc := pointSourceLoc axes xpix ypix z istokes
        Function.update array loc (lib.addFloat (array loc) (fluxGen.getFlux z istokes)))
        array) array
    (addSource, array)
  else (addSource, array)

/-- The function `addGaussian`: the result and the array afterwards. -/
def addGaussian {F : Type} (lib : SimLibrary F) (array : Nat → F) (axes : List Nat)
    (gauss : Gaussian2D) (fluxGen : FluxGenerator F) (integrate : Bool) : Bool × (Nat → F) :=
  let zeroPointMax := lib.zeroPoint gauss.majorAxis gauss.height
  -- Assume a round-number in pixel location is the *centre* of the pixel
  let xmin := wrapInt32 (max (lround (gauss.xCenter - zeroPointMax)) 0)
  let xmax := wrapInt32 (min (lround (gauss.xCenter + zeroPointMax)) (lastPixel axes 0))
  let ymin := wrapInt32 (max (lround (gauss.yCenter - zeroPointMax)) 0)
  let ymax := wrapInt32 (min (lround (gauss.yCenter + zeroPointMax)) (lastPixel axes 1))
  let addSource := decide (xmax ≥ xmin) && decide (ymax ≥ ymin)
  if addSource then
    -- Test to see whether this should be treated as a point source
    let delta := lib.delta (min gauss.majorAxis gauss.minorAxis)
    if xmax == xmin && ymax == ymin then
      -- single pixel only - add as point source
      addPointSource lib array axes gauss.xCenter gauss.yCenter fluxGen
    else if decide (delta < 1 / 10000) && integrate then
      (addSource, lib.add1DGaussian array axes gauss fluxGen)
    else
      (addSource, lib.addPixels array axes gauss fluxGen integrate xmin xmax ymin ymax)
  else (addSource, array)

/-- A library for the evaluation below: for a Gaussian of height 1 the zero point is 5.657
times the full width at half maximum, to four digits. The other routines are not reached. -/
def demoSimLibrary : SimLibrary ℚ :=
  { zeroPoint := fun fwhm _ => fwhm * 5657 / 1000
    delta := fun _ => 1 / 32
    add1DGaussian := fun array _ _ _ => array
    addPixels := fun array _ _ _ _ _ _ _ _ => array
    addFloat := fun a b => a + b }

/-- A narrow Gaussian of height 1 centred two pixels outside the corner of the array. -/
def demoGaussian : Gaussian2D :=
  { height := 1, xCenter := -2, yCenter := -2, majorAxis := 53 / 125, minorAxis := 53 / 125, PA := 0 }

/-- One Stokes plane and one channel of flux 1. -/
def demoFluxGenerator : FluxGenerator ℚ := { nStokes := 1, nChan := 1, getFlux := fun _ _ => 1 }

/-! ## Triangle: trimTriList -/

/-- Modelled from the spec: the class `Point` (`patternmatching/Point.h`, not among the
translated files), seen through its answers `x()`, `y()` and `ID()`. -/
structure Point where
  x : ℚ
  y : ℚ
  ID : String
deriving DecidableEq, Inhabited

/-- The members of a `Triangle` read by the translated functions. The fields `perimeter` and
`isClockwise` are the answers of `perimeter()` (the logarithm of the perimeter) and
`isClockwise()`; `itsPts` is the vector of the three points. The default values are those
set by `Triangle::initialise`. A `double` is seen as the rational it denotes. -/
structure Triangle where
  perimeter : ℚ := 0
  isClockwise : Bool := true
  itsPts : Point × Point × Point := (default, default, default)
  itsRatio : ℚ := 0
  itsRatioTolerance : ℚ := 0
  itsAngle : ℚ := 0
  itsAngleTolerance : ℚ := 0
deriving DecidableEq

/-- The test `trilist[i].first.isClockwise() == trilist[i].second.isClockwise()`. -/
def sameSense (p : Triangle × Triangle) : Bool := p.1.isClockwise == p.2.isClockwise

/-- The magnification `trilist[i].first.perimeter() - trilist[i].second.perimeter()`. -/
def magnification (p : Triangle × Triangle) : ℚ := p.1.perimeter - p.2.perimeter

/-- The loops that count the senses: `nSame++` or `nOpp++` for each match, on
`unsigned int` counters that are never reset. -/
def countSenses (trilist : List (Triangle × Triangle)) (nSame nOpp : Nat) : Nat × Nat :=
  trilist.foldl (fun n p =>
    if sameSense p then ((n.1 + 1) % 2 ^ 32, n.2) else (n.1, (n.2 + 1) % 2 ^ 32)) (nSame, nOpp)

/-- The value of `scale` (lines 360-365). With `m_t = abs(nSame - nOpp)` and
`m_f = nSame + nOpp - m_t`, the quotient `m_t / m_f` of two doubles is compared with 1 and
with 10; for `m_f = 0` it is infinite (scale 3) or not a number (scale 2). -/
def trimScale (nSame nOpp : Nat) : ℚ :=
  let mTrue : Int := |wrapInt32 (((nSame : Int) - nOpp) % 2 ^ 32)|
  let mFalse : Int := ((nSame : Int) + nOpp - mTrue) % 2 ^ 32
  if mFalse = 0 then (if mTrue = 0 then 2 else 3)
  else if mTrue < mFalse then 1
  else if mTrue > 10 * mFalse then 3
  else 2

/-- The body of the loop `do ... while` of `trimTriList` (lines 346-377): the list and the
counters afterwards. The test `fabs((mag - mean) / rms) < scale`, with `rms` the square
root of `variance`, is taken over the reals: it holds when the variance is positive and
`(mag - mean)^2 < scale^2 * variance`, and fails when `rms` is zero. -/
def trimIteration (trilist : List (Triangle × Triangle)) (nSame nOpp : Nat) :
    List (Triangle × Triangle) × Nat × Nat :=
  let size : ℚ := trilist.length
  let sumx := trilist.foldl (fun sum p => sum + magnification p) 0
  let sumxx := trilist.foldl (fun sum p => sum + magnification p * magnification p) 0
  let n := countSenses trilist nSame nOpp
  let mean := sumx / size
  let variance := sumxx / size - mean * mean
  let scale := trimScale n.1 n.2
  let newlist := trilist.filter (fun p =>
    decide (0 < variance)
      && decide ((magnification p - mean) * (magnification p - mean) < scale * scale * variance))
  (newlist, n.1, n.2)

/-- The loop `do ... while (nIter < maxIter && trilist.size() > 0)`; the first argument is
`maxIter - nIter`. -/
def trimLoop : Nat → List (Triangle × Triangle) → Nat → Nat →
    List (Triangle × Triangle) × Nat × Nat
  | 0, trilist, nSame, nOpp => (trilist, nSame, nOpp)
  | remaining + 1, trilist, nSame, nOpp =>
    let r := trimIteration trilist nSame nOpp
    if remaining > 0 && r.1.length > 0 then trimLoop remaining r.1 r.2.1 r.2.2 else r

/-- The last loop of `trimTriList` (lines 387-392). -/
def trimSenses (trilist : List (Triangle × Triangle)) (nSame nOpp : Nat) :
    List (Triangle × Triangle) :=
  trilist.filter (fun p =>
    (decide (nSame ≤ nOpp) || sameSense p) && (decide (nOpp ≤ nSame) || !sameSense p))

/-- The function `trimTriList`: the list afterwards. -/
def trimTriList (trilist : List (Triangle × Triangle)) : List (Triangle × Triangle) :=
  let maxIter := 5
  let r := trimLoop maxIter trilist 0 0
  let n := countSenses r.1 r.2.1 r.2.2
  trimSenses r.1 n.1 n.2

/-- A match of magnification `m / 100`; the senses agree when `same` is true. -/
def demoMatch (m : Int) (same : Bool) : Triangle × Triangle :=
  ({ perimeter := 2 + m / 100, isClockwise := true }, { perimeter := 2, isClockwise := same })

/-- Twelve matches: magnifications 0, 0.01, 0.03, 0.09, 0.27 and 0.81 with the same sense and
0, -0.01, -0.03, -0.09, -0.27 and -0.81 with opposite senses. -/
def demoTriList : List (Triangle × Triangle) :=
  [demoMatch 0 true, demoMatch 0 false, demoMatch 1 true, demoMatch (-1) false,
    demoMatch 3 true, demoMatch (-3) false, demoMatch 9 true, demoMatch (-9) false,
    demoMatch 27 true, demoMatch (-27) false, demoMatch 81 true, demoMatch (-81) false]

/-! ## Triangle: vote -/

/-- The method `Triangle::getPtList`: the vector of the three points. -/
def Triangle.getPtList (t : Triangle) : List Point := [t.itsPts.1, t.itsPts.2.1, t.itsPts.2.2]

/-- The body of the loop over the three points in `vote` (lines 421-439). The vectors `votes`
and `pts`, which grow together, are seen as one list of entries `(votes[i], pts[i])`. The
first entry with the same two IDs gets one more vote; when there is none an entry with one
vote is pushed at the end. -/
def countVote : List (Int × (Point × Point)) → Point → Point → List (Int × (Point × Point))
  | [], p1, p2 => [(1, (p1, p2))]
  | e :: rest, p1, p2 =>
    if e.2.1.ID == p1.ID && e.2.2.ID == p2.ID then (e.1 + 1, e.2) :: rest
    else e :: countVote rest p1 p2

/-- The first loop of `vote` (lines 417-440): the votes of the pairs of points, in the order
in which the pairs were first met. -/
def voteEntries (trilist : List (Triangle × Triangle)) : List (Int × (Point × Point)) :=
  trilist.foldl (fun entries tri =>
    let ptlist1 := tri.1.getPtList
    let ptlist2 := tri.2.getPtList
    (List.range 3).foldl (fun entries p =>
      countVote entries (ptlist1.getD p default) (ptlist2.getD p default)) entries) []

/-- Modelled from the spec: `std::multimap::insert` (C++ standard library): the entries are kept
in increasing order of the key, and an entry goes after the entries of the same key. -/
def multimapInsert {α : Type} : List (Int × α) → Int × α → List (Int × α)
  | [], e => [e]
  | h :: rest, e => if e.1 < h.1 then e :: h :: rest else h :: multimapInsert rest e

/-- The loop over `voteList` from the largest vote down (lines 452-463); `isBegin` tells
whether `rvote` is `voteList.rbegin()`, and the list holds the entries from `rvote` on. The
comparison `rvote->first < 0.5 * prevVote` of an `int` with a `double` is exact: it holds when
`2 * rvote->first < prevVote`. -/
def voteLoop : Bool → List (Int × (Point × Point)) → List (Point × Point) → Int →
    List (Point × Point)
  | _, [], outlist, _ => outlist
  | isBegin, rvote :: rest, outlist, prevVote =>
    let stop := outlist.any (fun o => rvote.2.1.ID == o.1.ID)
    let stop := if !isBegin then stop || decide (2 * rvote.1 < prevVote) else stop
    if !stop then voteLoop false rest (outlist ++ [rvote.2]) rvote.1 else outlist

/-- The function `vote`. The result is `none` when `voteList.rbegin()` is dereferenced on an
empty multimap, which has no defined behaviour. -/
def vote (trilist : List (Triangle × Triangle)) : Option (List (Point × Point)) :=
  let entries := voteEntries trilist
  let voteList := entries.foldl multimapInsert []
  match voteList.reverse with
  | [] => none
  | rbegin :: rest =>
    if rbegin.1 == 1 then
      -- largest vote was 1 -- no match
      some []
    else some (voteLoop true (rbegin :: rest) [] rbegin.1)

/-- A triangle with the three named points. -/
def demoTriangle (a b c : String) : Triangle :=
  { itsPts := (⟨0, 0, a⟩, ⟨0, 0, b⟩, ⟨0, 0, c⟩) }

/-- Four matches: two triangles through the points A and C of the first list matched to two
triangles through X and Y of the second list, and two triangles through B and E
matched to two triangles through X and U. -/
def demoVoteList : List (Triangle × Triangle) :=
  [(demoTriangle "A" "C" "D", demoTriangle "X" "Y" "Z"),
    (demoTriangle "A" "C" "G", demoTriangle "X" "Y" "W"),
    (demoTriangle "B" "E" "F", demoTriangle "X" "U" "V"),
    (demoTriangle "B" "E" "H", demoTriangle "X" "U" "P")]

/-- One match: every pair of points gets one vote. -/
def demoSingleMatch : List (Triangle × Triangle) :=
  [(demoTriangle "A" "C" "D", demoTriangle "X" "Y" "Z")]

/-- The pairs of points that `vote` returns for `demoVoteList`, by their IDs. -/
def demoVoteResult : List (Point × Point) :=
  [(⟨0, 0, "E"⟩, ⟨0, 0, "U"⟩), (⟨0, 0, "B"⟩, ⟨0, 0, "X"⟩), (⟨0, 0, "C"⟩, ⟨0, 0, "Y"⟩),
    (⟨0, 0, "A"⟩, ⟨0, 0, "X"⟩), (⟨0, 0, "H"⟩, ⟨0, 0, "P"⟩), (⟨0, 0, "F"⟩, ⟨0, 0, "V"⟩),
    (⟨0, 0, "G"⟩, ⟨0, 0, "W"⟩), (⟨0, 0, "D"⟩, ⟨0, 0, "Z"⟩)]

/-! ## Params (scimath/fitting) -/

/-- Modelled from the spec: a `std::map<std::string, T>` (C++ standard library), seen as the
list of its entries in the order of the keys. -/
structure StdMap (T : Type) where
  entries : List (String × T)
deriving DecidableEq

/-- The keys of the map in iteration order. -/
def StdMap.keys {T : Type} (m : StdMap T) : List String := m.entries.map Prod.fst

/-- Modelled from the spec: `m.find(name)`: the value of the entry with that key, `none` for
`m.end()`. -/
def StdMap.find {T : Type} (m : StdMap T) (name : String) : Option T := m.entries.lookup name

/-- Modelled from the spec: `m.count(name)`. -/
def StdMap.count {T : Type} (m : StdMap T) (name : String) : Nat :=
  if (m.find name).isSome then 1 else 0

/-- The character codes of a key. -/
def keyCode (s : String) : List Nat := s.data.map Char.toNat

/-- Modelled from the spec: the order `<` of `std::string`, the order of the keys of a map: the
lexicographic order of the character codes. -/
def keyLt (a b : String) : Bool := decide (keyCode a < keyCode b)

/-- The entries after `m[name] = value`. -/
def StdMap.setEntries {T : Type} : List (String × T) → String → T → List (String × T)
  | [], name, value => [(name, value)]
  | e :: rest, name, value =>
    if keyLt name e.1 then (name, value) :: e :: rest
    else if name = e.1 then (name, value) :: rest
    else e :: StdMap.setEntries rest name value

/-- Modelled from the spec: the assignment `m[name] = value`: the entry with that key is
replaced, or a new entry is put at its place in the order of the keys. -/
def StdMap.set {T : Type} (m : StdMap T) (name : String) (value : T) : StdMap T :=
  ⟨StdMap.setEntries m.entries name value⟩

/-- Modelled from the spec: the class `Axes` (`fitting/Axes.h`, not among the translated
files): the named axes with their start and end; `Axes()` has none. -/
structure Axes where
  axes : List (String × ℚ × ℚ)
deriving DecidableEq

/-- The exceptions of the C++ standard library that `Params` throws. -/
inductive StdError where
  | invalid_argument (what : String)
deriving DecidableEq

/-- The members of `Params`. A `casa::Array<double>` is seen as the list of its elements, a
`double` as the rational it denotes. -/
structure Params where
  itsArrays : StdMap (List ℚ)
  itsAxes : StdMap Axes
  itsFree : StdMap Bool
  itsCounts : StdMap Int
deriving DecidableEq

/-- The constructor `Params::Params()`. -/
def Params.empty : Params := ⟨⟨[]⟩, ⟨[]⟩, ⟨[]⟩, ⟨[]⟩⟩

/-- The method `Params::has`. -/
def Params.has (p : Params) (name : String) : Bool := decide (p.itsArrays.count name > 0)

/-- The method `Params::isFree`: `itsFree.find(name)->second`, which has no defined value
when the name is not a key of `itsFree`. -/
def Params.isFree (p : Params) (name : String) : Option Bool := p.itsFree.find name

/-- The method `Params::free`. -/
def Params.free (p : Params) (name : String) : Params :=
  { p with itsFree := p.itsFree.set name true }

/-- The method `Params::fix`. -/
def Params.fix (p : Params) (name : String) : Params :=
  { p with itsFree := p.itsFree.set name false }

/-- The overload `Params::add(name, ip, axes)` for an array: the object afterwards and the
exception thrown, if any. -/
def Params.addArrayAxes (p : Params) (name : String) (ip : List ℚ) (axes : Axes) :
    Params × Option StdError :=
  if p.has name then
    (p, some (.invalid_argument ("Parameter " ++ name ++ " already exists")))
  else
    let p := { p with itsArrays := p.itsArrays.set name ip }
    let p := { p with itsFree := p.itsFree.set name true }
    let p := { p with itsAxes := p.itsAxes.set name axes }
    let p := { p with itsCounts := p.itsCounts.set name 0 }
    (p, none)

/-- The overload `Params::add(name, ip)` for an array. -/
def Params.addArray (p : Params) (name : String) (ip : List ℚ) : Params × Option StdError :=
  if p.has name then
    (p, some (.invalid_argument ("Parameter " ++ name ++ " already exists")))
  else
    let p := { p with itsArrays := p.itsArrays.set name ip }
    let p := { p with itsFree := p.itsFree.set name true }
    let p := { p with itsAxes := p.itsAxes.set name ⟨[]⟩ }
    let p := { p with itsCounts := p.itsCounts.set name 0 }
    (p, none)

/-- The overload `Params::add(name, ip)` for a `double`: the value is an array of one
element. -/
def Params.add (p : Params) (name : String) (ip : ℚ) : Params × Option StdError :=
  if p.has name then
    (p, some (.invalid_argument ("Parameter " ++ name ++ " already exists")))
  else
    let ipArray := [ip]
    let p := { p with itsArrays := p.itsArrays.set name ipArray }
    let p := { p with itsFree := p.itsFree.set name true }
    let p := { p with itsAxes := p.itsAxes.set name ⟨[]⟩ }
    let p := { p with itsCounts := p.itsCounts.set name 0 }
    (p, none)

/-- The overload `Params::add(name, ip, axes)` for a `double`. -/
def Params.addAxes (p : Params) (name : String) (ip : ℚ) (axes : Axes) :
    Params × Option StdError :=
  if p.has name then
    (p, some (.invalid_argument ("Parameter " ++ name ++ " already exists")))
  else
    let ipArray := [ip]
    let p := { p with itsArrays := p.itsArrays.set name ipArray }
    let p := { p with itsFree := p.itsFree.set name true }
    let p := { p with itsAxes := p.itsAxes.set name axes }
    let p := { p with itsCounts := p.itsCounts.set name 0 }
    (p, none)

/-- The statement `itsCounts[name]++`: a missing entry is created with the value 0 first;
the counter is an `int`. -/
def StdMap.increment (m : StdMap Int) (name : String) : StdMap Int :=
  m.set name (wrapInt32 ((m.find name).getD 0 + 1))

/-- The overload `Params::update(name, ip)` for an array. -/
def Params.updateArray (p : Params) (name : String) (ip : List ℚ) : Params × Option StdError :=
  if !p.has name then
    (p, some (.invalid_argument ("Parameter " ++ name ++ " does not already exist")))
  else
    let p := { p with itsArrays := p.itsArrays.set name ip }
    let p := { p with itsFree := p.itsFree.set name true }
    let p := { p with itsAxes := p.itsAxes.set name ⟨[]⟩ }
    let p := { p with itsCounts := p.itsCounts.increment name }
    (p, none)

/-- The overload `Params::update(name, ip)` for a `double`. -/
def Params.update (p : Params) (name : String) (ip : ℚ) : Params × Option StdError :=
  if !p.has name then
    (p, some (.invalid_argument ("Parameter " ++ name ++ " does not already exist")))
  else
    let ipArray := [ip]
    let p := { p with itsArrays := p.itsArrays.set name ipArray }
    let p := { p with itsFree := p.itsFree.set name true }
    let p := { p with itsAxes := p.itsAxes.set name ⟨[]⟩ }
    let p := { p with itsCounts := p.itsCounts.increment name }
    (p, none)

/-- The method `Params::size`. -/
def Params.size (p : Params) : Nat := p.itsFree.entries.length % 2 ^ 32

/-- The const method `Params::value`: `itsArrays.find(name)->second`. -/
def Params.value (p : Params) (name : String) : Option (List ℚ) := p.itsArrays.find name

/-- The method `Params::count`: `itsCounts[name]`, which creates a missing entry with the value
0; the result and the object afterwards. -/
def Params.count (p : Params) (name : String) : Int × Params :=
  match p.itsCounts.find name with
  | some c => (c, p)
  | none => (0, { p with itsCounts := p.itsCounts.set name 0 })

/-- The method `Params::names`. -/
def Params.names (p : Params) : List String := p.itsFree.entries.map Prod.fst

/-- The method `Params::freeNames`; `isFree` is asked for keys of `itsFree` only. -/
def Params.freeNames (p : Params) : List String :=
  (p.itsFree.entries.filter (fun e => p.isFree e.1 == some true)).map Prod.fst

/-- The method `Params::fixedNames`. -/
def Params.fixedNames (p : Params) : List String :=
  (p.itsFree.entries.filter (fun e => p.isFree e.1 == some false)).map Prod.fst

/-- The body of the loop of `Params::merge` for one name of `other`; `none` when one of
`other.itsArrays.find(name)`, `other.itsFree.find(name)` and `other.itsAxes.find(name)` is the
end of its map. -/
def Params.mergeName (other : Params) (p : Params) (name : String) : Option Params :=
  if !p.has name then
    match other.itsArrays.find name, other.itsFree.find name, other.itsAxes.find name with
    | some array, some isfree, some axes =>
      let p := { p with itsArrays := p.itsArrays.set name array }
      let p := { p with itsFree := p.itsFree.set name isfree }
      let p := { p with itsAxes := p.itsAxes.set name axes }
      let p := { p with itsCounts := p.itsCounts.increment name }
      some p
    | _, _, _ => none
  else some p

/-- The method `Params::merge`. -/
def Params.merge (p other : Params) : Option Params :=
  other.names.foldlM (Params.mergeName other) p

/-- The method `Params::reset`. -/
def Params.reset (_p : Params) : Params := ⟨⟨[]⟩, ⟨[]⟩, ⟨[]⟩, ⟨[]⟩⟩

/-- Whether the four maps of a `Params` have the same keys and the keys of `itsFree` are in
strictly increasing order. -/
def Params.sameKeys (p : Params) : Prop :=
  p.itsFree.keys.Pairwise (fun a b => keyLt a b = true)
  ∧ ∀ name, (name ∈ p.itsArrays.keys ↔ name ∈ p.itsFree.keys)
    ∧ (name ∈ p.itsAxes.keys ↔ name ∈ p.itsFree.keys)
    ∧ (name ∈ p.itsCounts.keys ↔ name ∈ p.itsFree.keys)

/-- A call of one of the methods that change a `Params`. -/
inductive ParamsCall where
  | add (name : String) (ip : List ℚ) (axes : Axes)
  | update (name : String) (ip : List ℚ)
  | fix (name : String)
  | free (name : String)
  | merge (other : Params)
  | reset

/-- The object after a call; an exception thrown by `add` or `update` is caught by the caller
and leaves the object as it was. The result is `none` when `merge` has no defined
behaviour. -/
def Params.call (p : Params) : ParamsCall → Option Params
  | .add name ip axes => some (p.addArrayAxes name ip axes).1
  | .update name ip => some (p.updateArray name ip).1
  | .fix name => some (p.fix name)
  | .free name => some (p.free name)
  | .merge other => p.merge other
  | .reset => some p.reset

/-- The object after a sequence of calls. -/
def Params.run (calls : List ParamsCall) (p : Params) : Option Params :=
  calls.foldlM Params.call p

/-- The calls of a sequence that `fix` or `free` a name name a parameter that exists at that
point, and the objects merged in have the same keys in their four maps. -/
def Params.guarded : Params → List ParamsCall → Prop
  | _, [] => True
  | p, c :: rest =>
    (match c with
      | .fix name => p.has name = true
      | .free name => p.has name = true
      | .merge other => other.sameKeys
      | _ => True)
    ∧ ∀ q, p.call c = some q → Params.guarded q rest

/-- The axes of the image of the test `ImageDFTEquationTest`, in units of an arc second. -/
def demoAxes : Axes := ⟨[("RA", -120, 120), ("DEC", -120, 120)]⟩

/-- The parameters of the test `ImageDFTEquationTest::setUp`, with an image of two pixels. -/
def demoParams : Params := (Params.empty.addArrayAxes "image.i.cena" [1, 7 / 10] demoAxes).1

/-! ## Triangle: isMatch and matchLists -/

/-- The operations on `double` that `defineTolerances`, `isMatch` and `matchLists` use. A
finite `double` is seen as the rational number it denotes, and each field gives the `double`
that the operation returns, that is the rounded result. Comparisons of finite doubles are
exact: they are those of the rationals. Infinities and values that are not a number are
outside the model. -/
structure DoubleArith where
  /-- The sum `x + y` of two doubles. -/
  add : ℚ → ℚ → ℚ
  /-- The difference `x - y` of two doubles. -/
  sub : ℚ → ℚ → ℚ
  /-- The product `x * y` of two doubles. -/
  mul : ℚ → ℚ → ℚ
  /-- The quotient `x / y` of two doubles. -/
  div : ℚ → ℚ → ℚ
  /-- The function `sqrt` of `<cmath>`. -/
  sqrt : ℚ → ℚ
  /-- The function `pow` of `<cmath>` at an integer exponent. -/
  pow : ℚ → Nat → ℚ

/-- The getter `Triangle::ratio`. -/
def Triangle.ratio (t : Triangle) : ℚ := t.itsRatio

/-- The getter `Triangle::ratioTol`. -/
def Triangle.ratioTol (t : Triangle) : ℚ := t.itsRatioTolerance

/-- The getter `Triangle::angle`. -/
def Triangle.angle (t : Triangle) : ℚ := t.itsAngle

/-- The getter `Triangle::angleTol`. -/
def Triangle.angleTol (t : Triangle) : ℚ := t.itsAngleTolerance

/-- The method `Triangle::defineTolerances` (lines 184-191), every operation rounded as `dbl`
says, the products taken from left to right. The argument `sideLength run rise` is the value
of `Side(run, rise).length()` (`patternmatching/Side.h`, not among the translated files). -/
def Triangle.defineTolerances (dbl : DoubleArith) (sideLength : ℚ → ℚ → ℚ) (t : Triangle)
    (epsilon : ℚ) : Triangle :=
  let r2 := sideLength (dbl.sub t.itsPts.1.x t.itsPts.2.1.x) (dbl.sub t.itsPts.1.y t.itsPts.2.1.y)
  let r3 := sideLength (dbl.sub t.itsPts.1.x t.itsPts.2.2.x) (dbl.sub t.itsPts.1.y t.itsPts.2.2.y)
  let sinthetaSqd := dbl.sub 1 (dbl.mul t.itsAngle t.itsAngle)
  let factor := dbl.add
    (dbl.sub (dbl.div 1 (dbl.mul r3 r3)) (dbl.div t.itsAngle (dbl.mul r3 r2)))
    (dbl.div 1 (dbl.mul r2 r2))
  { t with
    itsRatioTolerance :=
      dbl.mul (dbl.mul (dbl.mul (dbl.mul (dbl.mul 2 t.itsRatio) t.itsRatio) epsilon) epsilon) factor
    itsAngleTolerance := dbl.add
      (dbl.mul (dbl.mul (dbl.mul (dbl.mul 2 sinthetaSqd) epsilon) epsilon) factor)
      (dbl.mul (dbl.mul (dbl.mul (dbl.mul (dbl.mul 3 t.itsAngle) t.itsAngle) (dbl.pow epsilon 4))
        factor) factor) }

/-- The method `Triangle::isMatch` (lines 206-216): the result, and the two triangles
afterwards (the tolerances of both are defined anew). -/
def Triangle.isMatch (dbl : DoubleArith) (sideLength : ℚ → ℚ → ℚ) (t comp : Triangle)
    (epsilon : ℚ) : Bool × Triangle × Triangle :=
  let t := t.defineTolerances dbl sideLength epsilon
  let comp := comp.defineTolerances dbl sideLength epsilon
  let ratioSep := dbl.sub t.itsRatio comp.ratio
  let ratioSep := dbl.mul ratioSep ratioSep
  let ratioTol := dbl.add t.itsRatioTolerance comp.ratioTol
  let angleSep := dbl.sub t.itsAngle comp.angle
  let angleSep := dbl.mul angleSep angleSep
  let angleTol := dbl.add t.itsAngleTolerance comp.angleTol
  (decide (ratioSep < ratioTol) && decide (angleSep < angleTol), t, comp)

/-- Modelled from the spec: the order `operator<` of `Triangle` (`patternmatching/Triangle.h`,
not among the translated files): triangles are ordered by increasing ratio. -/
def Triangle.lt (a b : Triangle) : Bool := decide (a.ratio < b.ratio)

/-- Modelled from the spec: `std::stable_sort` (C++ standard library) of a vector of triangles
with `operator<`: a sort that keeps the order of triangles neither of which is less than
the other. -/
def stableSort (l : List Triangle) : List Triangle :=
  l.insertionSort (fun a b => Triangle.lt b a = false)

/-- The loops of `matchLists` that find the maximum ratio tolerance of a list (lines 268-280), run
on the list with its tolerances defined: `if (i==0 || ratioTol > maxTol) maxTol = ratioTol`,
starting from 0. -/
def maxRatioTol (l : List Triangle) : ℚ :=
  (l.foldl (fun (st : Bool × ℚ) t =>
    if st.1 || decide (t.ratioTol > st.2) then (false, t.ratioTol) else (false, st.2))
    (true, 0)).2

/-- The loop over `j` of `matchLists` for one triangle of the first list (lines 292-305):
the matches pushed, the triangle and the second list afterwards. The loop runs while
`list2[j].ratio() < maxRatioB` and calls `isMatch` only when `list2[j].ratio() > minRatioB`;
the two bounds are the doubles of lines 288-289. -/
def matchInner (dbl : DoubleArith) (sideLength : ℚ → ℚ → ℚ) (epsilon maxRatioB minRatioB : ℚ) :
    Triangle → List Triangle → List (Triangle × Triangle) × Triangle × List Triangle
  | a, [] => ([], a, [])
  | a, b :: rest =>
    if b.ratio < maxRatioB then
      if b.ratio > minRatioB then
        let r := a.isMatch dbl sideLength b epsilon
        let inner := matchInner dbl sideLength epsilon maxRatioB minRatioB r.2.1 rest
        ((if r.1 then [(r.2.1, r.2.2)] else []) ++ inner.1, inner.2.1, r.2.2 :: inner.2.2)
      else
        let inner := matchInner dbl sideLength epsilon maxRatioB minRatioB a rest
        (inner.1, inner.2.1, b :: inner.2.2)
    else ([], a, b :: rest)

/-- The loop over `i` of `matchLists` (lines 287-307): the matches and the two lists
afterwards. The bounds are computed in doubles for each triangle of the first list:
`maxRatioB = list1[i].ratio() + sqrt(maxTol1 + maxTol2)` and
`minRatioB = list1[i].ratio() - sqrt(maxTol1 + maxTol2)`. -/
def matchOuter (dbl : DoubleArith) (sideLength : ℚ → ℚ → ℚ) (epsilon maxTol1 maxTol2 : ℚ) :
    List Triangle → List Triangle → List (Triangle × Triangle) × List Triangle × List Triangle
  | [], list2 => ([], [], list2)
  | a :: rest, list2 =>
    let maxRatioB := dbl.add a.ratio (dbl.sqrt (dbl.add maxTol1 maxTol2))
    let minRatioB := dbl.sub a.ratio (dbl.sqrt (dbl.add maxTol1 maxTol2))
    let inner := matchInner dbl sideLength epsilon maxRatioB minRatioB a list2
    let outer := matchOuter dbl sideLength epsilon maxTol1 maxTol2 rest inner.2.2
    (inner.1 ++ outer.1, inner.2.1 :: outer.2.1, outer.2.2)

/-- The function `matchLists`: the list of matches returned and the two lists afterwards, which
the function sorts and whose tolerances it defines. -/
def matchLists (dbl : DoubleArith) (sideLength : ℚ → ℚ → ℚ) (list1 list2 : List Triangle)
    (epsilon : ℚ) : List (Triangle × Triangle) × List Triangle × List Triangle :=
  -- sort in order of increasing ratio
  let list1 := stableSort list1
  let list2 := stableSort list2
  -- find maximum ratio tolerances for each list
  let list1 := list1.map (fun t => t.defineTolerances dbl sideLength epsilon)
  let maxTol1 := maxRatioTol list1
  let list2 := list2.map (fun t => t.defineTolerances dbl sideLength epsilon)
  let maxTol2 := maxRatioTol list2
  -- loop over the lists, finding matches
  matchOuter dbl sideLength epsilon maxTol1 maxTol2 list1 list2

/-- The search over all pairs: for each triangle of the first list, in order, its matches in
the second list, in order. -/
def matchAllPairs (dbl : DoubleArith) (sideLength : ℚ → ℚ → ℚ) (list1 list2 : List Triangle)
    (epsilon : ℚ) : List (Triangle × Triangle) :=
  list1.flatMap (fun a =>
    (list2.filter (fun b => (a.isMatch dbl sideLength b epsilon).1)).map (fun b => (a, b)))

/-! ## The arithmetic of binary64 -/

/-- The quotient `n / d` of two natural numbers rounded to the nearest natural number, a tie
going to the even one. -/
def roundHalfEven (n d : Nat) : Nat :=
  let q := n / d
  let r := n % d
  if 2 * r < d then q else if d < 2 * r then q + 1 else if q % 2 = 0 then q else q + 1

/-- The loop of `bitLength`, with a bound on the number of steps as first argument. -/
def bitLengthLoop : Nat → Nat → Nat
  | 0, _ => 0
  | fuel + 1, n => if n = 0 then 0 else bitLengthLoop fuel (n / 2) + 1

/-- The number of binary digits of a natural number: `bitLength 0 = 0`, and for `n > 0` the
`k` with `2 ^ (k - 1) ≤ n < 2 ^ k`. -/
def bitLength (n : Nat) : Nat := bitLengthLoop n n

/-- The binary exponent of the positive rational `n / d`: the integer `e` with
`2 ^ e ≤ n / d < 2 ^ (e + 1)`. -/
def binade (n d : Nat) : Int :=
  let e : Int := (bitLength n : Int) - (bitLength d : Int)
  if 0 ≤ e then (if n < d * 2 ^ e.toNat then e - 1 else e)
  else (if n * 2 ^ (-e).toNat < d then e - 1 else e)

/-- The product `m * 2 ^ k` for an integer `k`. -/
def scaleTwo (m : ℚ) (k : Int) : ℚ :=
  if 0 ≤ k then m * ((2 ^ k.toNat : Nat) : ℚ) else m / ((2 ^ (-k).toNat : Nat) : ℚ)

/-- The rounding of IEEE 754 binary64 in the default mode: the nearest number with a
significand of 53 bits, a tie going to the even significand. The exponent is not bounded:
overflow and subnormal numbers are outside the model. -/
def roundDouble (q : ℚ) : ℚ :=
  if q = 0 then 0
  else
    let n := q.num.natAbs
    let d := q.den
    let s := 52 - binade n d
    let m := if 0 ≤ s then roundHalfEven (n * 2 ^ s.toNat) d else roundHalfEven n (d * 2 ^ (-s).toNat)
    let r := scaleTwo (m : ℚ) (-s)
    if q < 0 then -r else r

/-- The loop of `isqrt`: the bits of the root from the highest one down. -/
def isqrtBits (n : Nat) : Nat → Nat → Nat
  | 0, r => r
  | k + 1, r =>
    if (r + 2 ^ k) * (r + 2 ^ k) ≤ n then isqrtBits n k (r + 2 ^ k) else isqrtBits n k r

/-- The integer square root: the largest `r` with `r * r ≤ n`. -/
def isqrt (n : Nat) : Nat := isqrtBits n (bitLength n / 2 + 1) 0

/-- The square root of IEEE 754 binary64: the square root of a positive number rounded to a
significand of 53 bits (a square root never falls on a tie between two doubles). The square
root of a negative number is not a number and is outside the model. -/
def sqrtDouble (q : ℚ) : ℚ :=
  if q ≤ 0 then 0
  else
    let k := 52 - binade q.num.natAbs q.den / 2
    let x := scaleTwo q (2 * k)
    let s := isqrt (x.num.natAbs / x.den)
    let m := if ((2 * s + 1) ^ 2 : ℚ) ≤ 4 * x then s + 1 else s
    scaleTwo (m : ℚ) (-k)

/-- The arithmetic of IEEE 754 binary64, which is that of `double` on the machines the
program is built for: every operation returns its exact result rounded by `roundDouble`.
The function `pow` is taken to round correctly as well. -/
def binary64 : DoubleArith :=
  { add := fun x y => roundDouble (x + y)
    sub := fun x y => roundDouble (x - y)
    mul := fun x y => roundDouble (x * y)
    div := fun x y => roundDouble (x / y)
    sqrt := sqrtDouble
    pow := fun x n => roundDouble (x ^ n) }

/-- The length of a side with the given run and rise, `sqrt(run * run + rise * rise)` in doubles,
standing for `Side::length` in the evaluation below. -/
def demoSideLength (run rise : ℚ) : ℚ :=
  binary64.sqrt (binary64.add (binary64.mul run run) (binary64.mul rise rise))

/-- The triangle that `Triangle::define` builds from the points (0, 0), (1, 0) and (3, 4): the
shortest side, of length 1, joins the first two points and the longest, of length 5, the first and
the third, so that the points are kept in this order, `itsRatio` is 5 / 1 and `itsAngle` is
-3 / 5 in doubles. The perimeter and the sense, which `matchLists` does not read, are left as
`initialise` sets them. -/
def demoTriangleA : Triangle :=
  { itsPts := (⟨0, 0, "a"⟩, ⟨1, 0, "b"⟩, ⟨3, 4, "c"⟩)
    itsRatio := binary64.div 5 1
    itsAngle := binary64.div (binary64.add (binary64.mul 3 (-1)) (binary64.mul 4 0))
      (binary64.mul 5 1) }

/-- The triangle that `Triangle::define` builds from the points (0, 0), (1, 0) and
(3.0003662109375, 4.00048828125), the third point of `demoTriangleA` moved away from the first
by one part in 8192: the longest side has length 5.0006103515625, which is `itsRatio`, and
`itsAngle` is again -3 / 5 in doubles. -/
def demoTriangleB : Triangle :=
  { itsPts := (⟨0, 0, "a"⟩, ⟨1, 0, "b"⟩, ⟨3 + 3 / 8192, 4 + 4 / 8192, "c"⟩)
    itsRatio := binary64.div (5 + 5 / 8192) 1
    itsAngle := binary64.div
      (binary64.add (binary64.mul (3 + 3 / 8192) (-1)) (binary64.mul (4 + 4 / 8192) 0))
      (binary64.mul (5 + 5 / 8192) 1) }

/-- The double `0x1.db5a826fe739dp-15`, about 5.6667e-5. -/
def demoEpsilon : ℚ := 8362508137952157 / 2 ^ 67

/-! ## Theorems -/

theorem wrapInt32_of_range (v : Int) (h1 : -(2 : Int) ^ 31 ≤ v) (h2 : v < 2 ^ 31) :
    wrapInt32 v = v := by
  unfold wrapInt32
  have h : (v + 2 ^ 31) % 2 ^ 32 = v + 2 ^ 31 := by
    apply Int.emod_eq_of_lt <;> omega
  omega

theorem foldl_max_ge_init (l : List Int) (a : Int) : a ≤ l.foldl max a := by
  induction l generalizing a with
  | nil => simp
  | cons b t ih => exact le_trans (le_max_left a b) (ih (max a b))

theorem foldl_max_ge_mem (l : List Int) (a : Int) : ∀ P ∈ l, P ≤ l.foldl max a := by
  induction l generalizing a with
  | nil => simp
  | cons b t ih =>
    intro P hP
    rcases List.mem_cons.mp hP with h | h
    · subst h
      exact le_trans (le_max_right a P) (foldl_max_ge_init t (max a P))
    · exact ih (max a b) P h

/-- C1. In parallel mode the overlap left in the subimage definition by the constructor is,
on every axis, the largest of the requested overlap and the enabled padding requirements
when the axis has more than one subdivision, and the requested overlap when it has exactly
one; so every padding requirement on a subdivided axis is at most the overlap on it. The
box size is one whose doubling fits a C++ `int`. -/
theorem setupOverlaps_effective (ps : ParameterSet) (sd dflt : SubimageDef)
    (fit : FittingParameters) (fv : Bool) (searchType : String) (boxSize : Int)
    (hlo : -(2 : Int) ^ 30 ≤ boxSize) (hhi : boxSize < 2 ^ 30) :
    ((setupOverlaps true ps sd dflt fit fv searchType boxSize).itsSubimageDef.overlapx
        = effectiveOverlap sd.nsubx sd.overlapx (paddingXY fit fv searchType boxSize)
      ∧ (setupOverlaps true ps sd dflt fit fv searchType boxSize).itsSubimageDef.overlapy
        = effectiveOverlap sd.nsuby sd.overlapy (paddingXY fit fv searchType boxSize)
      ∧ (setupOverlaps true ps sd dflt fit fv searchType boxSize).itsSubimageDef.overlapz
        = effectiveOverlap sd.nsubz sd.overlapz (paddingZ fv searchType boxSize))
    ∧ ((sd.nsubx = 1 →
          (setupOverlaps true ps sd dflt fit fv searchType boxSize).itsSubimageDef.overlapx = sd.overlapx)
      ∧ (sd.nsuby = 1 →
          (setupOverlaps true ps sd dflt fit fv searchType boxSize).itsSubimageDef.overlapy = sd.overlapy)
      ∧ (sd.nsubz = 1 →
          (setupOverlaps true ps sd dflt fit fv searchType boxSize).itsSubimageDef.overlapz = sd.overlapz))
    ∧ ((∀ P ∈ paddingXY fit fv searchType boxSize, sd.nsubx > 1 →
          P ≤ (setupOverlaps true ps sd dflt fit fv searchType boxSize).itsSubimageDef.overlapx)
      ∧ (∀ P ∈ paddingXY fit fv searchType boxSize, sd.nsuby > 1 →
          P ≤ (setupOverlaps true ps sd dflt fit fv searchType boxSize).itsSubimageDef.overlapy)
      ∧ (∀ P ∈ paddingZ fv searchType boxSize, sd.nsubz > 1 →
          P ≤ (setupOverlaps true ps sd dflt fit fv searchType boxSize).itsSubimageDef.overlapz)) := by
  have w1 : wrapInt32 (2 * boxSize + 1) = 2 * boxSize + 1 :=
    wrapInt32_of_range _ (by omega) (by omega)
  have w0 : wrapInt32 (2 * boxSize) = 2 * boxSize :=
    wrapInt32_of_range _ (by omega) (by omega)
  have key :
      (setupOverlaps true ps sd dflt fit fv searchType boxSize).itsSubimageDef.overlapx
        = effectiveOverlap sd.nsubx sd.overlapx (paddingXY fit fv searchType boxSize)
      ∧ (setupOverlaps true ps sd dflt fit fv searchType boxSize).itsSubimageDef.overlapy
        = effectiveOverlap sd.nsuby sd.overlapy (paddingXY fit fv searchType boxSize)
      ∧ (setupOverlaps true ps sd dflt fit fv searchType boxSize).itsSubimageDef.overlapz
        = effectiveOverlap sd.nsubz sd.overlapz (paddingZ fv searchType boxSize) := by
    simp only [setupOverlaps, effectiveOverlap, paddingXY, paddingZ, w1, w0,
      SubimageDef.setOverlapX, SubimageDef.setOverlapY, SubimageDef.setOverlapZ]
    cases hfit : fit.doFit <;> cases fv <;> by_cases hs : searchType = "spatial" <;>
      by_cases hx : sd.nsubx > 1 <;> by_cases hy : sd.nsuby > 1 <;>
      by_cases hz : sd.nsubz > 1 <;>
      simp [hs, hx, hy, hz, apply_ite]
  obtain ⟨kx, ky, kz⟩ := key
  refine ⟨⟨kx, ky, kz⟩, ⟨?_, ?_, ?_⟩, ⟨?_, ?_, ?_⟩⟩
  · intro h; rw [kx]; simp [effectiveOverlap, h]
  · intro h; rw [ky]; simp [effectiveOverlap, h]
  · intro h; rw [kz]; simp [effectiveOverlap, h]
  · intro P hP h; rw [kx]; simp only [effectiveOverlap, h, if_true]; exact foldl_max_ge_mem _ _ P hP
  · intro P hP h; rw [ky]; simp only [effectiveOverlap, h, if_true]; exact foldl_max_ge_mem _ _ P hP
  · intro P hP h; rw [kz]; simp only [effectiveOverlap, h, if_true]; exact foldl_max_ge_mem _ _ P hP

/-- Witness of C1: two subdivisions in x, one in y, three in z, fitting with pad 4,
variable threshold with a spatial search and box size 3. -/
theorem setupOverlaps_effective_witness :
    (-(2 : Int) ^ 30 ≤ 3 ∧ (3 : Int) < 2 ^ 30)
    ∧ effectiveOverlap 2 0 (paddingXY ⟨true, 4⟩ true "spatial" 3) = 7
    ∧ (setupOverlaps true (fun _ => none) ⟨2, 1, 3, 0, 5, 1⟩ ⟨1, 1, 1, 0, 0, 0⟩ ⟨true, 4⟩ true
        "spatial" 3).itsSubimageDef.overlapx
      = effectiveOverlap 2 0 (paddingXY ⟨true, 4⟩ true "spatial" 3) :=
  ⟨⟨by norm_num, by norm_num⟩, by decide,
    (setupOverlaps_effective (fun _ => none) ⟨2, 1, 3, 0, 5, 1⟩ ⟨1, 1, 1, 0, 0, 0⟩ ⟨true, 4⟩ true
      "spatial" 3 (by norm_num) (by norm_num)).1.1⟩

/-- C2. In parallel mode, when the overlap left by the constructor differs from the requested
one on some axis, the keys `overlapx`, `overlapy` and `overlapz` of the parset hold the
effective overlaps, every other key is as before and the change is logged; when no overlap
differs the parset is unchanged and nothing is logged. -/
theorem setupOverlaps_reports (ps : ParameterSet) (sd dflt : SubimageDef)
    (fit : FittingParameters) (fv : Bool) (searchType : String) (boxSize : Int) :
    (((setupOverlaps true ps sd dflt fit fv searchType boxSize).itsSubimageDef.overlapx ≠ sd.overlapx
        ∨ (setupOverlaps true ps sd dflt fit fv searchType boxSize).itsSubimageDef.overlapy ≠ sd.overlapy
        ∨ (setupOverlaps true ps sd dflt fit fv searchType boxSize).itsSubimageDef.overlapz ≠ sd.overlapz) →
      (setupOverlaps true ps sd dflt fit fv searchType boxSize).itsParset "overlapx"
          = some (toString (setupOverlaps true ps sd dflt fit fv searchType boxSize).itsSubimageDef.overlapx)
        ∧ (setupOverlaps true ps sd dflt fit fv searchType boxSize).itsParset "overlapy"
          = some (toString (setupOverlaps true ps sd dflt fit fv searchType boxSize).itsSubimageDef.overlapy)
        ∧ (setupOverlaps true ps sd dflt fit fv searchType boxSize).itsParset "overlapz"
          = some (toString (setupOverlaps true ps sd dflt fit fv searchType boxSize).itsSubimageDef.overlapz)
        ∧ (∀ k, k ≠ "overlapx" → k ≠ "overlapy" → k ≠ "overlapz" →
            (setupOverlaps true ps sd dflt fit fv searchType boxSize).itsParset k = ps k)
        ∧ (setupOverlaps true ps sd dflt fit fv searchType boxSize).log
          = [LogMsg.changedOverlaps
              (setupOverlaps true ps sd dflt fit fv searchType boxSize).itsSubimageDef.overlapx
              (setupOverlaps true ps sd dflt fit fv searchType boxSize).itsSubimageDef.overlapy
              (setupOverlaps true ps sd dflt fit fv searchType boxSize).itsSubimageDef.overlapz])
    ∧ (((setupOverlaps true ps sd dflt fit fv searchType boxSize).itsSubimageDef.overlapx = sd.overlapx
        ∧ (setupOverlaps true ps sd dflt fit fv searchType boxSize).itsSubimageDef.overlapy = sd.overlapy
        ∧ (setupOverlaps true ps sd dflt fit fv searchType boxSize).itsSubimageDef.overlapz = sd.overlapz) →
      (setupOverlaps true ps sd dflt fit fv searchType boxSize).itsParset = ps
        ∧ (setupOverlaps true ps sd dflt fit fv searchType boxSize).log = []) := by
  have hxy : ("overlapx" : String) ≠ "overlapy" := by decide
  have hxz : ("overlapx" : String) ≠ "overlapz" := by decide
  have hyz : ("overlapy" : String) ≠ "overlapz" := by decide
  obtain ⟨sd1, hsd⟩ : ∃ sd1 : SubimageDef,
      setupOverlaps true ps sd dflt fit fv searchType boxSize =
        if sd1.overlapx ≠ sd.overlapx ∨ sd1.overlapy ≠ sd.overlapy ∨ sd1.overlapz ≠ sd.overlapz then
          { itsParset :=
              ((ps.replaceInt "overlapx" sd1.overlapx).replaceInt "overlapy" sd1.overlapy).replaceInt
                "overlapz" sd1.overlapz
            itsSubimageDef := sd1
            log := [LogMsg.changedOverlaps sd1.overlapx sd1.overlapy sd1.overlapz] }
        else { itsParset := ps, itsSubimageDef := sd1, log := [] } := ⟨_, rfl⟩
  rw [hsd]
  split
  · rename_i hch
    refine ⟨fun _ => ⟨?_, ?_, ?_, ?_, rfl⟩, fun h => absurd hch ?_⟩
    · simp [ParameterSet.replaceInt, ParameterSet.replace, hxy, hxz]
    · simp [ParameterSet.replaceInt, ParameterSet.replace, hyz]
    · simp [ParameterSet.replaceInt, ParameterSet.replace]
    · intro k h1 h2 h3
      simp [ParameterSet.replaceInt, ParameterSet.replace, h1, h2, h3]
    · simp only [ne_eq, not_or, not_not]
      exact h
  · rename_i hch
    refine ⟨fun h => absurd h hch, fun _ => ⟨rfl, rfl⟩⟩

/-- Witness of C2: the overlap in x is raised from 0 to 4. -/
theorem setupOverlaps_reports_witness :
    (setupOverlaps true (fun _ => none) ⟨2, 1, 1, 0, 0, 0⟩ ⟨1, 1, 1, 0, 0, 0⟩ ⟨true, 4⟩ false
        "spectral" 3).itsSubimageDef.overlapx = 4
    ∧ (setupOverlaps true (fun _ => none) ⟨2, 1, 1, 0, 0, 0⟩ ⟨1, 1, 1, 0, 0, 0⟩ ⟨true, 4⟩ false
        "spectral" 3).itsParset "overlapx"
      = some (toString (setupOverlaps true (fun _ => none) ⟨2, 1, 1, 0, 0, 0⟩ ⟨1, 1, 1, 0, 0, 0⟩
          ⟨true, 4⟩ false "spectral" 3).itsSubimageDef.overlapx) :=
  ⟨by decide,
    ((setupOverlaps_reports (fun _ => none) ⟨2, 1, 1, 0, 0, 0⟩ ⟨1, 1, 1, 0, 0, 0⟩ ⟨true, 4⟩ false
      "spectral" 3).1 (Or.inl (by decide))).1⟩

/-! ### receiveObjects -/

theorem forEachRank_append {σ : Type} (body : Nat → σ → Outcome σ) (l1 l2 : List Nat) (st : σ) :
    forEachRank body (l1 ++ l2) st =
      match forEachRank body l1 st with
      | ⟨s, some e⟩ => ⟨s, some e⟩
      | ⟨s, none⟩ => forEachRank body l2 s := by
  induction l1 generalizing st with
  | nil => simp [forEachRank]
  | cons a t ih =>
    simp only [List.cons_append, forEachRank]
    rcases h : body a st with ⟨s, _ | e⟩
    · exact ih s
    · rfl

theorem forEachRank_congr {σ : Type} (body1 body2 : Nat → σ → Outcome σ) (l : List Nat)
    (h : ∀ i ∈ l, ∀ st, body1 i st = body2 i st) (st : σ) :
    forEachRank body1 l st = forEachRank body2 l st := by
  induction l generalizing st with
  | nil => simp [forEachRank]
  | cons a t ih =>
    simp only [forEachRank]
    rw [h a (List.mem_cons_self a t) st]
    rcases body2 a st with ⟨s, _ | e⟩
    · exact ih (fun i hi => h i (List.mem_cons_of_mem a hi)) s
    · rfl

theorem receiveFromWorker_bad_version {F : Type} (lib : Library F) (receiveBlob : Nat → Blob F)
    (i : Nat) (st : DuchampParallel F) (hv : (receiveBlob i).version ≠ 1) :
    ∃ e, receiveFromWorker lib receiveBlob i st =
      ⟨{ st with trace := st.trace ++ [Event.receiveBlob i] }, some e⟩
      ∧ (e = AskapError.assertError "version == 1" ∨ (receiveBlob i).objectType ≠ "detW2M") := by
  by_cases ht : (receiveBlob i).objectType = "detW2M"
  · refine ⟨AskapError.assertError "version == 1", ?_, Or.inl rfl⟩
    simp [receiveFromWorker, BlobIStream.getStart, ht, ASKAPASSERT, hv]
  · refine ⟨AskapError.blobError "wrong object type", ?_, Or.inr ht⟩
    simp [receiveFromWorker, BlobIStream.getStart, ht]

theorem receiveFromWorker_update_of_ne {F : Type} (lib : Library F) (receiveBlob : Nat → Blob F)
    (k : Nat) (b : Blob F) (i : Nat) (hi : i ≠ k) (st : DuchampParallel F) :
    receiveFromWorker lib (Function.update receiveBlob k b) i st
      = receiveFromWorker lib receiveBlob i st := by
  simp [receiveFromWorker, Function.update_noteq hi]

theorem range'_split (k n : Nat) (hk1 : 1 ≤ k) (hk2 : k < n) :
    List.range' 1 (n - 1) = List.range' 1 (k - 1) ++ k :: List.range' (k + 1) (n - 1 - k) := by
  have h1 : n - 1 = (n - 1 - k + 1) + (k - 1) := by omega
  have h2 : 1 + (k - 1) = k := by omega
  have h3 := List.range'_append_1 1 (k - 1) (n - 1 - k + 1)
  rw [h2, List.range'_succ] at h3
  rw [h3, ← h1]

/-- C3. On the master of a parallel run, a message from worker `k` whose envelope declares a
version other than 1 makes `receiveObjects` end with an exception: the source list and the
edge list are those left by the messages of the ranks before `k`, the outcome does not
depend on what follows the envelope in the message (rank, count, detections), and when the
earlier messages were read without error the exception is the failed assertion
`version == 1` (or the rejection of a wrong type tag). -/
theorem receiveObjects_rejects_version {F : Type} (lib : Library F) (receiveBlob : Nat → Blob F)
    (st : DuchampParallel F) (k : Nat)
    (hpar : st.itsComms.isParallel = true) (hmaster : st.itsComms.isMaster = true)
    (hk1 : 1 ≤ k) (hk2 : k < st.itsComms.nProcs) (hv : (receiveBlob k).version ≠ 1) :
    (receiveObjects lib receiveBlob st).error ≠ none
    ∧ (receiveObjects lib receiveBlob st).state.itsSourceList
        = (forEachRank (receiveFromWorker lib receiveBlob) (List.range' 1 (k - 1))
            (receiveObjectsFitFlag st)).state.itsSourceList
    ∧ (receiveObjects lib receiveBlob st).state.itsEdgeSourceList
        = (forEachRank (receiveFromWorker lib receiveBlob) (List.range' 1 (k - 1))
            (receiveObjectsFitFlag st)).state.itsEdgeSourceList
    ∧ (∀ items : List (BlobItem F),
        receiveObjects lib (Function.update receiveBlob k { receiveBlob k with items := items }) st
          = receiveObjects lib receiveBlob st)
    ∧ ((forEachRank (receiveFromWorker lib receiveBlob) (List.range' 1 (k - 1))
            (receiveObjectsFitFlag st)).error = none →
        (receiveObjects lib receiveBlob st).error = some (AskapError.assertError "version == 1")
          ∨ (receiveBlob k).objectType ≠ "detW2M") := by
  have hro : ∀ rb : Nat → Blob F, receiveObjects lib rb st =
      forEachRank (receiveFromWorker lib rb)
        (List.range' 1 (k - 1) ++ k :: List.range' (k + 1) (st.itsComms.nProcs - 1 - k))
        (receiveObjectsFitFlag st) := by
    intro rb
    simp only [receiveObjects, hpar, hmaster, Bool.not_true, Bool.or_true, if_true]
    rw [range'_split k st.itsComms.nProcs hk1 hk2]
  have hbad : ∀ s : DuchampParallel F, ∃ e, forEachRank (receiveFromWorker lib receiveBlob)
      (k :: List.range' (k + 1) (st.itsComms.nProcs - 1 - k)) s =
        ⟨{ s with trace := s.trace ++ [Event.receiveBlob k] }, some e⟩
      ∧ (e = AskapError.assertError "version == 1" ∨ (receiveBlob k).objectType ≠ "detW2M") := by
    intro s
    obtain ⟨e, he, hkind⟩ := receiveFromWorker_bad_version lib receiveBlob k s hv
    exact ⟨e, by simp only [forEachRank, he], hkind⟩
  have hmain : (receiveObjects lib receiveBlob st).error ≠ none
      ∧ (receiveObjects lib receiveBlob st).state.itsSourceList
          = (forEachRank (receiveFromWorker lib receiveBlob) (List.range' 1 (k - 1))
              (receiveObjectsFitFlag st)).state.itsSourceList
      ∧ (receiveObjects lib receiveBlob st).state.itsEdgeSourceList
          = (forEachRank (receiveFromWorker lib receiveBlob) (List.range' 1 (k - 1))
              (receiveObjectsFitFlag st)).state.itsEdgeSourceList
      ∧ ((forEachRank (receiveFromWorker lib receiveBlob) (List.range' 1 (k - 1))
              (receiveObjectsFitFlag st)).error = none →
          (receiveObjects lib receiveBlob st).error = some (AskapError.assertError "version == 1")
            ∨ (receiveBlob k).objectType ≠ "detW2M") := by
    rw [hro receiveBlob, forEachRank_append]
    rcases hp : forEachRank (receiveFromWorker lib receiveBlob) (List.range' 1 (k - 1))
        (receiveObjectsFitFlag st) with ⟨s, _ | e⟩
    · obtain ⟨e, he, hkind⟩ := hbad s
      simp only [he]
      refine ⟨by simp, trivial, trivial, fun _ => ?_⟩
      rcases hkind with h | h
      · exact Or.inl (by rw [h])
      · exact Or.inr h
    · exact ⟨by simp, rfl, rfl, fun h => by simp at h⟩
  refine ⟨hmain.1, hmain.2.1, hmain.2.2.1, ?_, hmain.2.2.2⟩
  intro items
  have hv2 : ((Function.update receiveBlob k { receiveBlob k with items := items }) k).version ≠ 1 := by
    simpa using hv
  rw [hro, hro, forEachRank_append, forEachRank_append]
  have hpre : forEachRank (receiveFromWorker lib
        (Function.update receiveBlob k { receiveBlob k with items := items }))
      (List.range' 1 (k - 1)) (receiveObjectsFitFlag st)
      = forEachRank (receiveFromWorker lib receiveBlob) (List.range' 1 (k - 1))
          (receiveObjectsFitFlag st) := by
    apply forEachRank_congr
    intro i hi s
    have hik : i ≠ k := by
      have := (List.mem_range'_1.mp hi).2
      omega
    exact receiveFromWorker_update_of_ne lib receiveBlob k _ i hik s
  rw [hpre]
  rcases forEachRank (receiveFromWorker lib receiveBlob) (List.range' 1 (k - 1))
      (receiveObjectsFitFlag st) with ⟨s, _ | e⟩
  · simp only [forEachRank]
    by_cases ht : (receiveBlob k).objectType = "detW2M"
    · simp [receiveFromWorker, BlobIStream.getStart, ht, ASKAPASSERT, hv]
    · simp [receiveFromWorker, BlobIStream.getStart, ht]
  · rfl

theorem storeSource_cube {F : Type} (lib : Library F) (xs ys zs : Int) (st : DuchampParallel F)
    (src : RadioSource) : (storeSource lib xs ys zs st src).itsCube = st.itsCube := by
  unfold storeSource
  dsimp only
  split
  · rfl
  · split <;> rfl

theorem storeSource_edge {F : Type} (lib : Library F) (xs ys zs : Int) (st : DuchampParallel F)
    (src : RadioSource) :
    (storeSource lib xs ys zs st src).itsEdgeSourceList
      = st.itsEdgeSourceList ++ [correctOffsets st.itsCube.pars xs ys zs src].filter (fun s => s.atEdge) := by
  unfold storeSource
  dsimp only
  split
  · rename_i h; simp [h]
  · rename_i h
    split <;> simp [h]

theorem storeSource_good {F : Type} (lib : Library F) (xs ys zs : Int) (st : DuchampParallel F)
    (src : RadioSource) :
    (storeSource lib xs ys zs st src).itsSourceList
      = st.itsSourceList ++ [correctOffsets st.itsCube.pars xs ys zs src].filter
          (fun s => !s.atEdge && meetsSizeCriteria lib st.itsCube.pars s) := by
  unfold storeSource
  dsimp only
  split
  · rename_i h; simp [h]
  · rename_i h
    split
    · rename_i h2; simp [h, h2]
    · rename_i h2; simp [h, h2]

theorem foldl_storeSource {F : Type} (lib : Library F) (xs ys zs : Int) (srcs : List RadioSource)
    (st : DuchampParallel F) :
    (srcs.foldl (storeSource lib xs ys zs) st).itsCube = st.itsCube
    ∧ (srcs.foldl (storeSource lib xs ys zs) st).itsEdgeSourceList
        = st.itsEdgeSourceList
          ++ (srcs.map (correctOffsets st.itsCube.pars xs ys zs)).filter (fun s => s.atEdge)
    ∧ (srcs.foldl (storeSource lib xs ys zs) st).itsSourceList
        = st.itsSourceList
          ++ (srcs.map (correctOffsets st.itsCube.pars xs ys zs)).filter
              (fun s => !s.atEdge && meetsSizeCriteria lib st.itsCube.pars s) := by
  induction srcs generalizing st with
  | nil => simp
  | cons a t ih =>
    obtain ⟨h1, h2, h3⟩ := ih (storeSource lib xs ys zs st a)
    simp only [List.foldl_cons]
    rw [h1, h2, h3, storeSource_cube, storeSource_edge, storeSource_good]
    refine ⟨rfl, ?_, ?_⟩
    · simp only [List.map_cons, List.filter_cons, List.filter_nil, List.append_assoc]
      split <;> simp
    · simp only [List.map_cons, List.filter_cons, List.filter_nil, List.append_assoc]
      split <;> simp

theorem readSources_sources {F : Type} (lib : Library F) (xs ys zs : Int) (srcs : List RadioSource)
    (rest : List (BlobItem F)) (st : DuchampParallel F) :
    readSources lib xs ys zs srcs.length st (srcs.map BlobItem.source ++ rest)
      = ⟨(srcs.foldl (storeSource lib xs ys zs) st, rest), none⟩ := by
  induction srcs generalizing st with
  | nil => simp [readSources]
  | cons a t ih =>
    simp only [List.length_cons, List.map_cons, List.cons_append, readSources,
      BlobIStream.getSource, List.foldl_cons]
    exact ih (storeSource lib xs ys zs st a)

theorem receiveFromWorker_wellFormed {F : Type} (lib : Library F) (receiveBlob : Nat → Blob F)
    (i : Nat) (st : DuchampParallel F) (rank xs ys zs : Int) (srcs : List RadioSource)
    (hmsg : receiveBlob i = ⟨"detW2M", 1,
      .int16 rank :: .int32 srcs.length :: .int xs :: .int ys :: .int zs
        :: srcs.map BlobItem.source⟩) :
    receiveFromWorker lib receiveBlob i st
      = ⟨srcs.foldl (storeSource lib xs ys zs)
          { st with trace := st.trace ++ [Event.receiveBlob i] }, none⟩ := by
  have h := readSources_sources lib xs ys zs srcs []
    { st with trace := st.trace ++ [Event.receiveBlob i] }
  rw [List.append_nil] at h
  simp only [receiveFromWorker, hmsg, BlobIStream.getStart, if_true, ASKAPASSERT,
    BlobIStream.getInt16, BlobIStream.getInt32, BlobIStream.getInt, Int.toNat_ofNat,
    beq_self_eq_true, h, BlobIStream.getEnd]

/-- Witness of C3: the message of rank 2 declares version 2; the master has then stored the
two sources of rank 1 and nothing else. -/
theorem receiveObjects_rejects_version_witness :
    (receiveObjects demoLibrary demoInbox (demoProcess 0)).error
        = some (AskapError.assertError "version == 1")
    ∧ (receiveObjects demoLibrary demoInbox (demoProcess 0)).state.itsSourceList.length = 1
    ∧ (receiveObjects demoLibrary demoInbox (demoProcess 0)).state.itsEdgeSourceList.length = 1
    ∧ (receiveObjects demoLibrary demoInbox (demoProcess 0)).error ≠ none :=
  ⟨by decide, by decide, by decide,
    (receiveObjects_rejects_version demoLibrary demoInbox (demoProcess 0) 2 rfl rfl (by decide)
      (by decide) (by decide)).1⟩

theorem correctOffsets_pixelSet {F : Type} (pars : Param F) (xs ys zs : Int) (src : RadioSource) :
    (correctOffsets pars xs ys zs src).pixelSet
      = src.pixelSet.image
          (fun v => ⟨v.x + xs - pars.xOffset, v.y + ys - pars.yOffset, v.z + zs - pars.zOffset⟩) := by
  simp only [correctOffsets, RadioSource.setOffsets, RadioSource.addOffsets,
    RadioSource.setXOffset, RadioSource.setYOffset, RadioSource.setZOffset, Voxel.translate]
  apply Finset.image_congr
  intro v _
  simp only [Voxel.mk.injEq]
  refine ⟨?_, ?_, ?_⟩ <;> omega

theorem correctOffsets_atEdge {F : Type} (pars : Param F) (xs ys zs : Int) (src : RadioSource) :
    (correctOffsets pars xs ys zs src).atEdge = src.atEdge := rfl

/-- C7. A message from a worker with origin `(xstart, ystart, zstart)` is read without error,
and every source it adds to the edge list or to the source list of the master comes from a
source of the message by moving each voxel `(x, y, z)` to
`(x + xstart - X0, y + ystart - Y0, z + zstart - Z0)`, where `(X0, Y0, Z0)` are the offsets of
the master cube; the offsets of the stored source are `(X0, Y0, Z0)`. The same holds for
each single source read, whatever the rest of the message: what the loop body adds to the
lists is the source moved in that way. -/
theorem receiveFromWorker_translates {F : Type} (lib : Library F) (receiveBlob : Nat → Blob F)
    (i : Nat) (st : DuchampParallel F) (rank xstart ystart zstart : Int) (srcs : List RadioSource)
    (hmsg : receiveBlob i = ⟨"detW2M", 1,
      .int16 rank :: .int32 srcs.length :: .int xstart :: .int ystart :: .int zstart
        :: srcs.map BlobItem.source⟩) :
    ((receiveFromWorker lib receiveBlob i st).error = none
    ∧ ∃ newEdge newGood : List RadioSource,
      (receiveFromWorker lib receiveBlob i st).state.itsEdgeSourceList
          = st.itsEdgeSourceList ++ newEdge
      ∧ (receiveFromWorker lib receiveBlob i st).state.itsSourceList = st.itsSourceList ++ newGood
      ∧ ∀ s ∈ newEdge ++ newGood, ∃ src ∈ srcs,
          s.pixelSet = src.pixelSet.image
              (fun v => ⟨v.x + xstart - st.itsCube.pars.xOffset,
                v.y + ystart - st.itsCube.pars.yOffset, v.z + zstart - st.itsCube.pars.zOffset⟩)
          ∧ s.xSubOffset = st.itsCube.pars.xOffset
          ∧ s.ySubOffset = st.itsCube.pars.yOffset
          ∧ s.zSubOffset = st.itsCube.pars.zOffset)
    ∧ ∀ (st1 : DuchampParallel F) (src s : RadioSource),
        s ∈ (storeSource lib xstart ystart zstart st1 src).itsEdgeSourceList
            ++ (storeSource lib xstart ystart zstart st1 src).itsSourceList →
        s ∈ st1.itsEdgeSourceList ++ st1.itsSourceList
        ∨ (s.pixelSet = src.pixelSet.image
              (fun v => ⟨v.x + xstart - st1.itsCube.pars.xOffset,
                v.y + ystart - st1.itsCube.pars.yOffset, v.z + zstart - st1.itsCube.pars.zOffset⟩)
          ∧ s.xSubOffset = st1.itsCube.pars.xOffset
          ∧ s.ySubOffset = st1.itsCube.pars.yOffset
          ∧ s.zSubOffset = st1.itsCube.pars.zOffset) := by
  refine ⟨?_, ?_⟩
  swap
  · intro st1 src s hs
    rw [storeSource_edge, storeSource_good] at hs
    simp only [List.mem_append, List.mem_filter, List.mem_singleton] at hs
    rcases hs with (h | ⟨h, _⟩) | (h | ⟨h, _⟩)
    · exact Or.inl (List.mem_append.mpr (Or.inl h))
    · exact Or.inr ⟨by rw [h]; exact correctOffsets_pixelSet _ _ _ _ src, by rw [h]; rfl,
        by rw [h]; rfl, by rw [h]; rfl⟩
    · exact Or.inl (List.mem_append.mpr (Or.inr h))
    · exact Or.inr ⟨by rw [h]; exact correctOffsets_pixelSet _ _ _ _ src, by rw [h]; rfl,
        by rw [h]; rfl, by rw [h]; rfl⟩
  rw [receiveFromWorker_wellFormed lib receiveBlob i st rank xstart ystart zstart srcs hmsg]
  obtain ⟨_, h2, h3⟩ := foldl_storeSource lib xstart ystart zstart srcs
    { st with trace := st.trace ++ [Event.receiveBlob i] }
  refine ⟨rfl, _, _, h2, h3, ?_⟩
  intro s hs
  have hmem : s ∈ srcs.map (correctOffsets st.itsCube.pars xstart ystart zstart) := by
    rcases List.mem_append.mp hs with h | h
    · exact (List.mem_filter.mp h).1
    · exact (List.mem_filter.mp h).1
  obtain ⟨src, hsrc, rfl⟩ := List.mem_map.mp hmem
  exact ⟨src, hsrc, correctOffsets_pixelSet _ _ _ _ src, rfl, rfl, rfl⟩

/-- Witness of C7: the message of rank 1 in the small instance, sent from the origin
(11, 21, 0) to a master at offset (1, 1, 0): the voxel (49, 5, 0) is stored as (59, 25, 0). -/
theorem receiveFromWorker_translates_witness :
    (receiveFromWorker demoLibrary demoInbox 1 (demoProcess 0)).state.itsEdgeSourceList.map
        (fun s => s.pixelSet) = [{⟨59, 25, 0⟩}]
    ∧ (receiveFromWorker demoLibrary demoInbox 1 (demoProcess 0)).state.itsSourceList.map
        (fun s => s.pixelSet) = [{⟨12, 22, 0⟩, ⟨13, 22, 0⟩}]
    ∧ (receiveFromWorker demoLibrary demoInbox 1 (demoProcess 0)).error = none :=
  ⟨by decide, by decide,
    (receiveFromWorker_translates demoLibrary demoInbox 1 (demoProcess 0) 1 11 21 0 demoSources
      rfl).1.1⟩

/-- C8. Every source read from a well-formed message goes to at most one of the two lists of
the master: to the edge list exactly when its edge flag is set, whatever its size, and to
the source list exactly when its edge flag is unset and the source, in the frame of the
master, has enough channels for `minChannels` and a spatial size of at least `minPix`; a
source that is not at the edge and fails either of the two size tests goes to neither.
The edge flag is the one the worker sent. -/
theorem receiveFromWorker_classifies {F : Type} (lib : Library F) (receiveBlob : Nat → Blob F)
    (i : Nat) (st : DuchampParallel F) (rank xstart ystart zstart : Int) (srcs : List RadioSource)
    (hmsg : receiveBlob i = ⟨"detW2M", 1,
      .int16 rank :: .int32 srcs.length :: .int xstart :: .int ystart :: .int zstart
        :: srcs.map BlobItem.source⟩) :
    ((receiveFromWorker lib receiveBlob i st).state.itsEdgeSourceList
        = st.itsEdgeSourceList
          ++ (srcs.filter (fun s => s.atEdge)).map (correctOffsets st.itsCube.pars xstart ystart zstart)
      ∧ (receiveFromWorker lib receiveBlob i st).state.itsSourceList
        = st.itsSourceList
          ++ (srcs.filter (fun s => !s.atEdge
                && (lib.hasEnoughChannels
                      (correctOffsets st.itsCube.pars xstart ystart zstart s).toDetection
                      st.itsCube.pars.minChannels
                    && decide (lib.getSpatialSize
                      (correctOffsets st.itsCube.pars xstart ystart zstart s).toDetection
                        ≥ st.itsCube.pars.minPix)))).map
              (correctOffsets st.itsCube.pars xstart ystart zstart))
    ∧ ∀ (st1 : DuchampParallel F) (src : RadioSource),
        (src.atEdge = true →
          (storeSource lib xstart ystart zstart st1 src).itsEdgeSourceList
              = st1.itsEdgeSourceList ++ [correctOffsets st1.itsCube.pars xstart ystart zstart src]
            ∧ (storeSource lib xstart ystart zstart st1 src).itsSourceList = st1.itsSourceList)
        ∧ (src.atEdge = false →
            lib.hasEnoughChannels
              (correctOffsets st1.itsCube.pars xstart ystart zstart src).toDetection
              st1.itsCube.pars.minChannels = true →
            lib.getSpatialSize (correctOffsets st1.itsCube.pars xstart ystart zstart src).toDetection
              ≥ st1.itsCube.pars.minPix →
          (storeSource lib xstart ystart zstart st1 src).itsSourceList
              = st1.itsSourceList ++ [correctOffsets st1.itsCube.pars xstart ystart zstart src]
            ∧ (storeSource lib xstart ystart zstart st1 src).itsEdgeSourceList
              = st1.itsEdgeSourceList)
        ∧ (src.atEdge = false →
            (lib.hasEnoughChannels
                (correctOffsets st1.itsCube.pars xstart ystart zstart src).toDetection
                st1.itsCube.pars.minChannels = false
              ∨ lib.getSpatialSize
                  (correctOffsets st1.itsCube.pars xstart ystart zstart src).toDetection
                < st1.itsCube.pars.minPix) →
          (storeSource lib xstart ystart zstart st1 src).itsSourceList = st1.itsSourceList
            ∧ (storeSource lib xstart ystart zstart st1 src).itsEdgeSourceList
              = st1.itsEdgeSourceList) := by
  refine ⟨?_, ?_⟩
  · rw [receiveFromWorker_wellFormed lib receiveBlob i st rank xstart ystart zstart srcs hmsg]
    obtain ⟨_, h2, h3⟩ := foldl_storeSource lib xstart ystart zstart srcs
      { st with trace := st.trace ++ [Event.receiveBlob i] }
    refine ⟨?_, ?_⟩
    · rw [h2, List.filter_map]; rfl
    · rw [h3, List.filter_map]; rfl
  · intro st1 src
    have he := storeSource_edge lib xstart ystart zstart st1 src
    have hg := storeSource_good lib xstart ystart zstart st1 src
    rw [he, hg]
    refine ⟨fun h => ?_, fun h hc hp => ?_, fun h hm => ?_⟩
    · simp [correctOffsets_atEdge, h]
    · simp [correctOffsets_atEdge, h, meetsSizeCriteria, hc, hp]
    · rcases hm with hc | hp
      · simp [correctOffsets_atEdge, h, meetsSizeCriteria, hc]
      · simp [correctOffsets_atEdge, h, meetsSizeCriteria, hp]

/-- Witness of C8: a message of rank 1 with three objects: the edge object of one voxel
goes to the edge list, the interior object of two voxels to the source list, and the
interior object of one voxel, below `minPix = 2`, to neither. -/
theorem receiveFromWorker_classifies_witness :
    (receiveFromWorker demoLibrary demoSizedInbox 1 (demoProcess 0)).state.itsEdgeSourceList.map
        (fun s => s.pixelSet) = [{⟨59, 25, 0⟩}]
    ∧ (receiveFromWorker demoLibrary demoSizedInbox 1 (demoProcess 0)).state.itsSourceList.map
        (fun s => s.pixelSet) = [{⟨12, 22, 0⟩, ⟨13, 22, 0⟩}]
    ∧ (receiveFromWorker demoLibrary demoSizedInbox 1 (demoProcess 0)).state.itsSourceList
      = (demoProcess 0).itsSourceList
        ++ (demoSizedSources.filter (fun s => !s.atEdge
              && (demoLibrary.hasEnoughChannels
                    (correctOffsets (demoProcess 0).itsCube.pars 11 21 0 s).toDetection
                    (demoProcess 0).itsCube.pars.minChannels
                  && decide (demoLibrary.getSpatialSize
                    (correctOffsets (demoProcess 0).itsCube.pars 11 21 0 s).toDetection
                      ≥ (demoProcess 0).itsCube.pars.minPix)))).map
            (correctOffsets (demoProcess 0).itsCube.pars 11 21 0) :=
  ⟨by decide, by decide,
    (receiveFromWorker_classifies demoLibrary demoSizedInbox 1 (demoProcess 0) 1 11 21 0
      demoSizedSources rfl).1.2⟩

/-! ### setThreshold -/

theorem setThreshold_master_sent {F : Type} (lib : Library F) (delivered : Blob F)
    (m : DuchampParallel F) (hpar : m.itsComms.isParallel = true)
    (hmaster : m.itsComms.isMaster = true) (hflag : m.itsFlagThresholdPerWorker = false) :
    (setThreshold lib delivered m).sent
      = some ⟨"threshM2W", 1, [.double m.itsCube.stats.getThreshold,
          .double m.itsCube.stats.getMiddle, .double (m.itsCube.stats.getSpread lib)]⟩ := by
  simp [setThreshold, hpar, hmaster, hflag, setThresholdMaster]

theorem setThreshold_worker_result {F : Type} (lib : Library F) (w : DuchampParallel F)
    (threshold mean stddev : F) (hpar : w.itsComms.isParallel = true)
    (hmaster : w.itsComms.isMaster = false) (hworker : w.itsComms.isWorker = true)
    (hflag : w.itsFlagThresholdPerWorker = false) :
    (setThreshold lib ⟨"threshM2W", 1, [.double threshold, .double mean, .double stddev]⟩
        w).outcome.error = none
    ∧ (setThreshold lib ⟨"threshM2W", 1, [.double threshold, .double mean, .double stddev]⟩
        w).outcome.state.itsCube.pars.threshold = threshold
    ∧ (setThreshold lib ⟨"threshM2W", 1, [.double threshold, .double mean, .double stddev]⟩
        w).outcome.state.itsCube.stats.mean = mean
    ∧ (setThreshold lib ⟨"threshM2W", 1, [.double threshold, .double mean, .double stddev]⟩
        w).outcome.state.itsCube.stats.stddev = stddev := by
  cases hu : w.itsCube.pars.flagUserThreshold <;>
    simp [setThreshold, hpar, hmaster, hworker, hflag, setThresholdWorker, BlobIStream.getStart,
      ASKAPASSERT, BlobIStream.getDouble, BlobIStream.getEnd, storeThreshold, Param.setThreshold,
      Param.setFlagUserThreshold, StatsContainer.setThresholdSNR, StatsContainer.define,
      StatsContainer.setMean, StatsContainer.setStddev, StatsContainer.setRobust,
      StatsContainer.getMiddle, StatsContainer.getSpread, StatsContainer.getThreshold, hu]

/-- C4. In a parallel run without a threshold per worker, the message the master broadcasts
in `setThreshold` carries the threshold, the middle and the spread of its statistics; a
worker that receives it ends without error with that threshold in its parameters and that
mean and standard deviation in its statistics, whatever its own flags and statistics were.
Two workers therefore hold the same threshold. -/
theorem setThreshold_workers_agree {F : Type} (lib : Library F) (delivered : Blob F)
    (m w1 w2 : DuchampParallel F)
    (hpar : m.itsComms.isParallel = true) (hmaster : m.itsComms.isMaster = true)
    (hflag : m.itsFlagThresholdPerWorker = false)
    (hpar1 : w1.itsComms.isParallel = true) (hmaster1 : w1.itsComms.isMaster = false)
    (hworker1 : w1.itsComms.isWorker = true) (hflag1 : w1.itsFlagThresholdPerWorker = false)
    (hpar2 : w2.itsComms.isParallel = true) (hmaster2 : w2.itsComms.isMaster = false)
    (hworker2 : w2.itsComms.isWorker = true) (hflag2 : w2.itsFlagThresholdPerWorker = false) :
    ∃ bs : Blob F, (setThreshold lib delivered m).sent = some bs
      ∧ (setThreshold lib bs w1).outcome.error = none
      ∧ (setThreshold lib bs w1).outcome.state.itsCube.pars.threshold
          = m.itsCube.stats.getThreshold
      ∧ (setThreshold lib bs w1).outcome.state.itsCube.stats.mean = m.itsCube.stats.getMiddle
      ∧ (setThreshold lib bs w1).outcome.state.itsCube.stats.stddev
          = m.itsCube.stats.getSpread lib
      ∧ (setThreshold lib bs w1).outcome.state.itsCube.pars.threshold
          = (setThreshold lib bs w2).outcome.state.itsCube.pars.threshold
      ∧ (setThreshold lib delivered m).outcome.state.itsCube.pars.threshold
          = m.itsCube.stats.getThreshold := by
  refine ⟨_, setThreshold_master_sent lib delivered m hpar hmaster hflag, ?_⟩
  obtain ⟨h1, h2, h3, h4⟩ := setThreshold_worker_result lib w1 m.itsCube.stats.getThreshold
    m.itsCube.stats.getMiddle (m.itsCube.stats.getSpread lib) hpar1 hmaster1 hworker1 hflag1
  obtain ⟨_, k2, _, _⟩ := setThreshold_worker_result lib w2 m.itsCube.stats.getThreshold
    m.itsCube.stats.getMiddle (m.itsCube.stats.getSpread lib) hpar2 hmaster2 hworker2 hflag2
  refine ⟨h1, h2, h3, h4, by rw [h2, k2], ?_⟩
  simp [setThreshold, hpar, hmaster, hflag, setThresholdMaster, storeThreshold,
    Param.setThreshold]

/-- Witness of C4: the master of the small instance broadcasts the threshold 16; a worker
that had a threshold of its own ends with 16 as well. -/
theorem setThreshold_workers_agree_witness :
    (setThreshold demoLibrary
        ⟨"threshM2W", 1, [.double 16, .double 10, .double 2]⟩
        { demoProcess 2 with itsCube := { (demoProcess 2).itsCube with
            pars := { demoParam with flagUserThreshold := true, threshold := 99 } } }
      ).outcome.state.itsCube.pars.threshold = 16
    ∧ ∃ bs : Blob Int, (setThreshold demoLibrary ⟨"", 0, []⟩ (demoProcess 0)).sent = some bs
      ∧ (setThreshold demoLibrary bs (demoProcess 1)).outcome.state.itsCube.pars.threshold
        = (demoProcess 0).itsCube.stats.getThreshold
      ∧ (setThreshold demoLibrary bs (demoProcess 1)).outcome.state.itsCube.pars.threshold
        = (setThreshold demoLibrary bs
            { demoProcess 2 with itsCube := { (demoProcess 2).itsCube with
                pars := { demoParam with flagUserThreshold := true, threshold := 99 } } }
          ).outcome.state.itsCube.pars.threshold :=
  ⟨by decide,
    (setThreshold_workers_agree demoLibrary ⟨"", 0, []⟩ (demoProcess 0) (demoProcess 1)
      { demoProcess 2 with itsCube := { (demoProcess 2).itsCube with
          pars := { demoParam with flagUserThreshold := true, threshold := 99 } } }
      rfl rfl rfl rfl rfl rfl rfl rfl rfl rfl rfl).imp
      (fun _ h => ⟨h.1, h.2.2.1, h.2.2.2.2.2.1⟩)⟩

/-! ### finaliseDetection and findSources -/

theorem foldl_push {α : Type} (l init : List α) :
    l.foldl (fun g e => g ++ [e]) init = init ++ l := by
  induction l generalizing init with
  | nil => simp
  | cons a t ih => simp [ih]

theorem classifyObjects_aux {F : Type} (lib : Library F) (objs e g : List Detection) :
    objs.foldl
        (fun acc obj => if lib.isAtEdge obj then (acc.1 ++ [obj], acc.2) else (acc.1, acc.2 ++ [obj]))
        (e, g)
      = (e ++ objs.filter (fun o => lib.isAtEdge o), g ++ objs.filter (fun o => !lib.isAtEdge o)) := by
  induction objs generalizing e g with
  | nil => simp
  | cons a t ih =>
    simp only [List.foldl_cons]
    cases h : lib.isAtEdge a
    · simp [ih, h]
    · simp [ih, h]

theorem classifyObjects_eq {F : Type} (lib : Library F) (objs : List Detection) :
    classifyObjects lib objs
      = (objs.filter (fun o => lib.isAtEdge o), objs.filter (fun o => !lib.isAtEdge o)) := by
  unfold classifyObjects
  rw [classifyObjects_aux]
  simp

/-- C9. After `finaliseDetection` the object list of the cube is made of `finaliseList` applied
to the objects that are not at the edge, in their order, followed by all the objects at the
edge, unchanged and in their order (the parameter calculation of the cube is then applied
to that list). Every object is in exactly one of the two groups, and when the parameter
calculation keeps the number of objects, the number of objects reported is `ngood + nedge`. -/
theorem finaliseDetection_keeps_edges {F : Type} (lib : Library F) (st : DuchampParallel F)
    (hlen : ∀ l, (lib.calcObjectWCSparams l).length = l.length) :
    (finaliseDetection lib st).itsCube.objectList
      = lib.calcObjectWCSparams
          (lib.finaliseList (st.itsCube.objectList.filter (fun o => !lib.isAtEdge o)) st.itsCube.pars
            ++ st.itsCube.objectList.filter (fun o => lib.isAtEdge o))
    ∧ (st.itsCube.objectList.filter (fun o => !lib.isAtEdge o)
        ++ st.itsCube.objectList.filter (fun o => lib.isAtEdge o)).Perm st.itsCube.objectList
    ∧ (∀ o, ¬ (o ∈ st.itsCube.objectList.filter (fun o => !lib.isAtEdge o)
        ∧ o ∈ st.itsCube.objectList.filter (fun o => lib.isAtEdge o)))
    ∧ newEvents st (finaliseDetection lib st)
      = [Event.finaliseList st.itsCube.pars,
          Event.found
            ((lib.finaliseList (st.itsCube.objectList.filter (fun o => !lib.isAtEdge o))
                st.itsCube.pars).length
              + (st.itsCube.objectList.filter (fun o => lib.isAtEdge o)).length)
            (st.itsCube.objectList.filter (fun o => lib.isAtEdge o)).length
            (lib.finaliseList (st.itsCube.objectList.filter (fun o => !lib.isAtEdge o))
              st.itsCube.pars).length]
    ∧ (finaliseDetection lib st).itsCube.objectList.length
      = (lib.finaliseList (st.itsCube.objectList.filter (fun o => !lib.isAtEdge o))
            st.itsCube.pars).length
          + (st.itsCube.objectList.filter (fun o => lib.isAtEdge o)).length := by
  have hobj : (finaliseDetection lib st).itsCube.objectList
      = lib.calcObjectWCSparams
          (lib.finaliseList (st.itsCube.objectList.filter (fun o => !lib.isAtEdge o)) st.itsCube.pars
            ++ st.itsCube.objectList.filter (fun o => lib.isAtEdge o)) := by
    simp only [finaliseDetection, classifyObjects_eq, foldl_push]
  refine ⟨hobj, ?_, ?_, ?_, ?_⟩
  · have h := List.filter_append_perm (fun o => lib.isAtEdge o) st.itsCube.objectList
    refine List.Perm.trans List.perm_append_comm ?_
    simpa using h
  · intro o ⟨h1, h2⟩
    have a1 := (List.mem_filter.mp h1).2
    have a2 := (List.mem_filter.mp h2).2
    simp [a2] at a1
  · simp only [newEvents, finaliseDetection, classifyObjects_eq, foldl_push, List.drop_left, hlen,
      List.length_append]
  · rw [hobj, hlen, List.length_append]

/-- Witness of C9: a worker holding one small interior object, one edge object and one
interior object of two pixels keeps the last two, the edge object last. -/
theorem finaliseDetection_keeps_edges_witness :
    (finaliseDetection demoLibrary
        { demoProcess 1 with itsCube := { (demoProcess 1).itsCube with
            objectList := demoLibrary.search .cubic demoParam [] } }).itsCube.objectList
      = [demoDetection [⟨20, 20, 0⟩, ⟨21, 20, 0⟩], demoDetection [⟨50, 7, 0⟩, ⟨51, 7, 0⟩]]
    ∧ (finaliseDetection demoLibrary
        { demoProcess 1 with itsCube := { (demoProcess 1).itsCube with
            objectList := demoLibrary.search .cubic demoParam [] } }).itsCube.objectList.length
      = (demoLibrary.finaliseList
            ((demoLibrary.search .cubic demoParam []).filter (fun o => !demoLibrary.isAtEdge o))
            demoParam).length
          + ((demoLibrary.search .cubic demoParam []).filter
              (fun o => demoLibrary.isAtEdge o)).length :=
  ⟨by decide,
    (finaliseDetection_keeps_edges demoLibrary
      { demoProcess 1 with itsCube := { (demoProcess 1).itsCube with
          objectList := demoLibrary.search .cubic demoParam [] } }
      (fun _ => rfl)).2.2.2.2⟩

/-- C10. In `findSources` every search and every object merge runs with
`minPix = minChannels = minVoxels = 1` on a process of a parallel run, and with the values
of the caller in serial mode; `finaliseList` (inside `finaliseDetection`) runs with the
values of the caller, and the parameters after `findSources` are those before it. On a
worker the merge and the final filter do run. -/
theorem findSources_minSizes {F : Type} (lib : Library F) (st : DuchampParallel F) :
    (∀ k p, Event.search k p ∈ newEvents st (findSources lib st) →
        (st.itsComms.isParallel = true → p.minSizes = (1, 1, 1))
        ∧ (st.itsComms.isParallel = false → p.minSizes = st.itsCube.pars.minSizes))
    ∧ (∀ p, Event.objectMerger p ∈ newEvents st (findSources lib st) →
        (st.itsComms.isParallel = true → p.minSizes = (1, 1, 1))
        ∧ (st.itsComms.isParallel = false → p.minSizes = st.itsCube.pars.minSizes))
    ∧ (∀ p, Event.finaliseList p ∈ newEvents st (findSources lib st) →
        p.minSizes = st.itsCube.pars.minSizes)
    ∧ (st.itsComms.isWorker = true →
        (∃ p, Event.objectMerger p ∈ newEvents st (findSources lib st))
        ∧ (∃ p, Event.finaliseList p ∈ newEvents st (findSources lib st))
        ∧ (st.itsCube.numPix > 0 → ∃ k p, Event.search k p ∈ newEvents st (findSources lib st)))
    ∧ (findSources lib st).itsCube.pars.minSizes = st.itsCube.pars.minSizes
    ∧ (findSources lib st).trace = st.trace ++ newEvents st (findSources lib st) := by
  obtain ⟨comms, cube, fit, fpw, fvt, fom, wds, sl, el, tr⟩ := st
  obtain ⟨pars, stats, objs, dim, numPix, third⟩ := cube
  obtain ⟨mp, mc, mv, fg, fut, th, cut, fat, fsm, xo, yo, zo, sp⟩ := pars
  obtain ⟨isPar, isMas, isWor, rank, nProcs⟩ := comms
  cases isWor <;> cases isPar <;> cases fom <;> by_cases hn : numPix > 0 <;>
    simp [findSources, newEvents, hn, setMinSizes, runSearch, cubeObjectMerger, optimiseMaskStep,
      setFlagGrowth, Param.setFlagGrowth, finaliseDetection, Param.minSizes]

/-- Witness of C10: worker 1 of the small instance searches and merges with the three sizes
set to 1, filters with the sizes of the caller and ends with its parameters unchanged. -/
theorem findSources_minSizes_witness :
    newEvents (demoProcess 1) (findSources demoLibrary (demoProcess 1))
      = [Event.search .cubic { demoParam with minPix := 1, minChannels := 1, minVoxels := 1 },
          Event.objectMerger { demoParam with minPix := 1, minChannels := 1, minVoxels := 1 },
          Event.finaliseList demoParam, Event.found 2 1 1]
    ∧ (findSources demoLibrary (demoProcess 1)).itsCube.pars.minSizes = (2, 1, 2)
    ∧ (findSources demoLibrary (demoProcess 1)).itsCube.pars.minSizes
      = (demoProcess 1).itsCube.pars.minSizes :=
  ⟨by decide, by decide, (findSources_minSizes demoLibrary (demoProcess 1)).2.2.2.2.1⟩

/-! ### cleanup: identifiers -/

theorem assignIDs_length {F : Type} (lib : Library F) (k : Nat) (l : List RadioSource) :
    (assignIDs lib k l).length = l.length := by
  induction l generalizing k with
  | nil => simp [assignIDs]
  | cons a t ih => simp [assignIDs, ih]

theorem assignIDs_ids {F : Type} (lib : Library F) (k : Nat) (l : List RadioSource) :
    (assignIDs lib k l).map (fun s => s.id) = (List.range' (k + 1) l.length).map (fun n : Nat => (n : Int)) := by
  induction l generalizing k with
  | nil => simp [assignIDs]
  | cons a t ih =>
    simp only [assignIDs, List.map_cons, List.length_cons, List.range'_succ, ih]
    congr 1
    split <;> simp [RadioSource.addToFlagText, RadioSource.setAtEdge, RadioSource.setID]

theorem assignIDs_pixelSets {F : Type} (lib : Library F) (k : Nat) (l : List RadioSource) :
    (assignIDs lib k l).map (fun s => s.pixelSet) = l.map (fun s => s.pixelSet) := by
  induction l generalizing k with
  | nil => simp [assignIDs]
  | cons a t ih =>
    simp only [assignIDs, List.map_cons, ih]
    congr 1
    split <;> simp [RadioSource.addToFlagText, RadioSource.setAtEdge, RadioSource.setID]

theorem cleanupMergeEdges_sourceList {F : Type} (lib : Library F) (st : DuchampParallel F) :
    (cleanupMergeEdges lib st).itsSourceList = st.itsSourceList := by
  unfold cleanupMergeEdges
  dsimp only
  split <;> rfl

theorem cleanupMergeEdges_pars {F : Type} (lib : Library F) (st : DuchampParallel F) :
    (cleanupMergeEdges lib st).itsCube.pars = st.itsCube.pars := by
  unfold cleanupMergeEdges
  dsimp only
  split
  · simp [setFlagGrowth, cubeObjectMerger, Param.setFlagGrowth]
  · rfl

/-- C6. After `cleanup` on the master (or in serial mode) the source list is the output of
`SortDetections` with identifiers assigned to it: the sources are those of the sorted list,
in its order, the identifiers read along the list are `1, 2, ..., N` with `N` the length
of the list, so the source at position `k` (counted from 1) carries `k` and no identifier
is used twice; the detections added to the cube carry the same identifiers. -/
theorem cleanup_ids {F : Type} (lib : Library F) (st : DuchampParallel F)
    (hrun : (!st.itsComms.isParallel || st.itsComms.isMaster) = true) :
    (cleanup lib st).itsSourceList
      = assignIDs lib 0
          (lib.SortDetections
            (st.itsSourceList ++ lib.parameterise (cleanupMergeEdges lib st).itsEdgeSourceList)
            st.itsCube.pars.sortingParam)
    ∧ (cleanup lib st).itsSourceList.map (fun s => s.pixelSet)
      = (lib.SortDetections
            (st.itsSourceList ++ lib.parameterise (cleanupMergeEdges lib st).itsEdgeSourceList)
            st.itsCube.pars.sortingParam).map (fun s => s.pixelSet)
    ∧ (cleanup lib st).itsSourceList.map (fun s => s.id)
      = (List.range' 1 (cleanup lib st).itsSourceList.length).map (fun n : Nat => (n : Int))
    ∧ (∀ k, k < (cleanup lib st).itsSourceList.length →
        ((cleanup lib st).itsSourceList.map (fun s => s.id))[k]? = some ((k : Int) + 1))
    ∧ ((cleanup lib st).itsSourceList.map (fun s => s.id)).Nodup
    ∧ (cleanup lib st).itsCube.objectList.map (fun d => d.id)
      = (List.range' 1 (cleanup lib st).itsSourceList.length).map (fun n : Nat => (n : Int)) := by
  have h0 : (cleanup lib st).itsSourceList
      = assignIDs lib 0
          (lib.SortDetections
            (st.itsSourceList ++ lib.parameterise (cleanupMergeEdges lib st).itsEdgeSourceList)
            st.itsCube.pars.sortingParam) := by
    simp only [cleanup, hrun, if_true, cleanupMaster, foldl_push, cleanupMergeEdges_sourceList,
      cleanupMergeEdges_pars]
  have hids : (cleanup lib st).itsSourceList.map (fun s => s.id)
      = (List.range' 1 (cleanup lib st).itsSourceList.length).map (fun n : Nat => (n : Int)) := by
    rw [h0, assignIDs_ids, assignIDs_length]
  refine ⟨h0, ?_, hids, ?_, ?_, ?_⟩
  · rw [h0, assignIDs_pixelSets]
  · intro k hk
    rw [hids, List.getElem?_map, List.getElem?_range' _ _ hk]
    simp [Nat.add_comm]
  · rw [hids]
    refine List.Nodup.map ?_ (List.nodup_range' 1 _)
    intro a b h
    exact Int.ofNat_inj.mp h
  · have hobj : (cleanup lib st).itsCube.objectList
        = (cleanup lib st).itsSourceList.map (fun src => src.toDetection) := by
      simp only [cleanup, hrun, if_true, cleanupMaster]
    rw [hobj, List.map_map]
    exact hids

/-! ### The merger -/

theorem touching_symm (adj : Voxel → Voxel → Bool) (hsym : ∀ v w, adj v w = adj w v)
    (A B : Finset Voxel) : touching adj A B = touching adj B A := by
  unfold touching
  apply decide_eq_decide.mpr
  constructor
  · rintro ⟨v, hv, w, hw, h⟩
    exact ⟨w, hw, v, hv, by rw [hsym]; exact h⟩
  · rintro ⟨v, hv, w, hw, h⟩
    exact ⟨w, hw, v, hv, by rw [hsym]; exact h⟩

theorem touching_iff (adj : Voxel → Voxel → Bool) (A B : Finset Voxel) :
    touching adj A B = true ↔ ∃ v ∈ A, ∃ w ∈ B, adj v w = true := by
  simp [touching]

theorem mem_foldl_union (l : List (Finset Voxel)) (d : Finset Voxel) (v : Voxel) :
    v ∈ l.foldl (fun a b => a ∪ b) d ↔ v ∈ d ∨ ∃ o ∈ l, v ∈ o := by
  induction l generalizing d with
  | nil => simp
  | cons a t ih =>
    simp only [List.foldl_cons, ih, Finset.mem_union, List.mem_cons]
    constructor
    · rintro ((h | h) | ⟨o, ho, h⟩)
      · exact Or.inl h
      · exact Or.inr ⟨a, Or.inl rfl, h⟩
      · exact Or.inr ⟨o, Or.inr ho, h⟩
    · rintro (h | ⟨o, rfl | ho, h⟩)
      · exact Or.inl (Or.inl h)
      · exact Or.inl (Or.inr h)
      · exact Or.inr ⟨o, ho, h⟩

theorem touching_foldl_union (adj : Voxel → Voxel → Bool) (l : List (Finset Voxel))
    (d b : Finset Voxel) :
    touching adj b (l.foldl (fun a b => a ∪ b) d) = true
      ↔ touching adj b d = true ∨ ∃ o ∈ l, touching adj b o = true := by
  simp only [touching_iff, mem_foldl_union]
  constructor
  · rintro ⟨v, hv, w, hw | ⟨o, ho, hw⟩, h⟩
    · exact Or.inl ⟨v, hv, w, hw, h⟩
    · exact Or.inr ⟨o, ho, v, hv, w, hw, h⟩
  · rintro (⟨v, hv, w, hw, h⟩ | ⟨o, ho, v, hv, w, hw, h⟩)
    · exact ⟨v, hv, w, Or.inl hw, h⟩
    · exact ⟨v, hv, w, Or.inr ⟨o, ho, hw⟩, h⟩

theorem foldl_union_perm {l1 l2 : List (Finset Voxel)} (h : l1.Perm l2) (d : Finset Voxel) :
    l1.foldl (fun a b => a ∪ b) d = l2.foldl (fun a b => a ∪ b) d := by
  apply h.foldl_eq'
  intro x _ y _ z
  exact Finset.union_right_comm z x y

theorem insertVoxelSet_perm (adj : Voxel → Voxel → Bool) {acc1 acc2 : List (Finset Voxel)}
    (h : acc1.Perm acc2) (d : Finset Voxel) :
    (insertVoxelSet adj acc1 d).Perm (insertVoxelSet adj acc2 d) := by
  unfold insertVoxelSet
  rw [foldl_union_perm (h.filter (fun o => touching adj d o)) d]
  exact List.Perm.append_right _ (h.filter _)

theorem insertVoxelSet_snoc (adj : Voxel → Voxel → Bool) (N : List (Finset Voxel))
    (x b : Finset Voxel) :
    insertVoxelSet adj (N ++ [x]) b =
      if touching adj b x then
        N.filter (fun o => !touching adj b o)
          ++ [(N.filter (fun o => touching adj b o) ++ [x]).foldl (fun a b => a ∪ b) b]
      else
        N.filter (fun o => !touching adj b o)
          ++ [x, (N.filter (fun o => touching adj b o)).foldl (fun a b => a ∪ b) b] := by
  unfold insertVoxelSet
  cases h : touching adj b x <;> simp [List.filter_append, h]

theorem touching_fused (adj : Voxel → Voxel → Bool) (acc : List (Finset Voxel))
    (a b : Finset Voxel) :
    touching adj b ((acc.filter (fun o => touching adj a o)).foldl (fun a b => a ∪ b) a) = true
      ↔ touching adj b a = true
        ∨ ∃ o ∈ acc, touching adj a o = true ∧ touching adj b o = true := by
  rw [touching_foldl_union]
  simp only [List.mem_filter]
  constructor
  · rintro (h | ⟨o, ⟨ho, h1⟩, h2⟩)
    · exact Or.inl h
    · exact Or.inr ⟨o, ho, h1, h2⟩
  · rintro (h | ⟨o, ho, h1, h2⟩)
    · exact Or.inl h
    · exact Or.inr ⟨o, ⟨ho, h1⟩, h2⟩

theorem insertVoxelSet_comm (adj : Voxel → Voxel → Bool) (hsym : ∀ v w, adj v w = adj w v)
    (acc : List (Finset Voxel)) (a b : Finset Voxel) :
    (insertVoxelSet adj (insertVoxelSet adj acc a) b).Perm
      (insertVoxelSet adj (insertVoxelSet adj acc b) a) := by
  have hab : touching adj a b = touching adj b a := touching_symm adj hsym a b
  have hfa := touching_fused adj acc a b
  have hfb := touching_fused adj acc b a
  have hrest : (acc.filter (fun o => !touching adj a o)).filter (fun o => !touching adj b o)
      = (acc.filter (fun o => !touching adj b o)).filter (fun o => !touching adj a o) := by
    rw [List.filter_filter, List.filter_filter]
    exact List.filter_congr (fun o _ => Bool.and_comm _ _)
  conv_lhs => unfold insertVoxelSet; rw [← insertVoxelSet.eq_1]
  conv_rhs => unfold insertVoxelSet; rw [← insertVoxelSet.eq_1]
  rw [insertVoxelSet_snoc, insertVoxelSet_snoc]
  by_cases hc : touching adj b a = true ∨ ∃ o ∈ acc, touching adj a o = true ∧ touching adj b o = true
  · have h1 := hfa.mpr hc
    have h2 := hfb.mpr (by
      rcases hc with h | ⟨o, ho, ha, hb⟩
      · exact Or.inl (by rw [hab]; exact h)
      · exact Or.inr ⟨o, ho, hb, ha⟩)
    rw [if_pos h1, if_pos h2, hrest]
    have hset : ((acc.filter (fun o => !touching adj a o)).filter (fun o => touching adj b o)
          ++ [(acc.filter (fun o => touching adj a o)).foldl (fun a b => a ∪ b) a]).foldl
            (fun a b => a ∪ b) b
        = ((acc.filter (fun o => !touching adj b o)).filter (fun o => touching adj a o)
          ++ [(acc.filter (fun o => touching adj b o)).foldl (fun a b => a ∪ b) b]).foldl
            (fun a b => a ∪ b) a := by
      ext v
      simp only [mem_foldl_union, List.mem_append, List.mem_filter, List.mem_singleton,
        Bool.not_eq_true']
      constructor
      · rintro (h | ⟨o, ⟨⟨ho, hna⟩, hb⟩ | rfl, hv⟩)
        · exact Or.inr ⟨_, Or.inr rfl, (mem_foldl_union _ _ _).mpr (Or.inl h)⟩
        · exact Or.inr ⟨_, Or.inr rfl, (mem_foldl_union _ _ _).mpr
            (Or.inr ⟨o, List.mem_filter.mpr ⟨ho, hb⟩, hv⟩)⟩
        · rcases (mem_foldl_union _ _ _).mp hv with h | ⟨o, ho, hv⟩
          · exact Or.inl h
          · obtain ⟨ho, hta⟩ := List.mem_filter.mp ho
            cases hb : touching adj b o
            · exact Or.inr ⟨o, Or.inl ⟨⟨ho, hb⟩, hta⟩, hv⟩
            · exact Or.inr ⟨_, Or.inr rfl, (mem_foldl_union _ _ _).mpr
                (Or.inr ⟨o, List.mem_filter.mpr ⟨ho, hb⟩, hv⟩)⟩
      · rintro (h | ⟨o, ⟨⟨ho, hnb⟩, ha⟩ | rfl, hv⟩)
        · exact Or.inr ⟨_, Or.inr rfl, (mem_foldl_union _ _ _).mpr (Or.inl h)⟩
        · exact Or.inr ⟨_, Or.inr rfl, (mem_foldl_union _ _ _).mpr
            (Or.inr ⟨o, List.mem_filter.mpr ⟨ho, ha⟩, hv⟩)⟩
        · rcases (mem_foldl_union _ _ _).mp hv with h | ⟨o, ho, hv⟩
          · exact Or.inl h
          · obtain ⟨ho, htb⟩ := List.mem_filter.mp ho
            cases ha : touching adj a o
            · exact Or.inr ⟨o, Or.inl ⟨⟨ho, ha⟩, htb⟩, hv⟩
            · exact Or.inr ⟨_, Or.inr rfl, (mem_foldl_union _ _ _).mpr
                (Or.inr ⟨o, List.mem_filter.mpr ⟨ho, ha⟩, hv⟩)⟩
    rw [hset]
  · have h1 : ¬ touching adj b
        ((acc.filter (fun o => touching adj a o)).foldl (fun a b => a ∪ b) a) = true :=
      fun h => hc (hfa.mp h)
    have h2 : ¬ touching adj a
        ((acc.filter (fun o => touching adj b o)).foldl (fun a b => a ∪ b) b) = true := by
      intro h
      rcases hfb.mp h with h | ⟨o, ho, hb, ha⟩
      · exact hc (Or.inl (by rw [← hab]; exact h))
      · exact hc (Or.inr ⟨o, ho, ha, hb⟩)
    rw [if_neg h1, if_neg h2, hrest]
    have hfb' : (acc.filter (fun o => !touching adj a o)).filter (fun o => touching adj b o)
        = acc.filter (fun o => touching adj b o) := by
      rw [List.filter_filter]
      apply List.filter_congr
      intro o ho
      cases hb : touching adj b o
      · rfl
      · cases ha : touching adj a o
        · rfl
        · exact absurd (Or.inr ⟨o, ho, ha, hb⟩) hc
    have hfa' : (acc.filter (fun o => !touching adj b o)).filter (fun o => touching adj a o)
        = acc.filter (fun o => touching adj a o) := by
      rw [List.filter_filter]
      apply List.filter_congr
      intro o ho
      cases ha : touching adj a o
      · rfl
      · cases hb : touching adj b o
        · rfl
        · exact absurd (Or.inr ⟨o, ho, ha, hb⟩) hc
    rw [hfb', hfa']
    exact List.Perm.append_left _ (List.Perm.swap _ _ _)

theorem foldl_insertVoxelSet_perm_acc (adj : Voxel → Voxel → Bool) (l : List (Finset Voxel))
    {acc1 acc2 : List (Finset Voxel)} (h : acc1.Perm acc2) :
    (l.foldl (insertVoxelSet adj) acc1).Perm (l.foldl (insertVoxelSet adj) acc2) := by
  induction l generalizing acc1 acc2 with
  | nil => exact h
  | cons a t ih => exact ih (insertVoxelSet_perm adj h a)

theorem foldl_insertVoxelSet_perm (adj : Voxel → Voxel → Bool) (hsym : ∀ v w, adj v w = adj w v)
    {l1 l2 : List (Finset Voxel)} (h : l1.Perm l2) (acc : List (Finset Voxel)) :
    (l1.foldl (insertVoxelSet adj) acc).Perm (l2.foldl (insertVoxelSet adj) acc) := by
  induction h generalizing acc with
  | nil => exact List.Perm.refl _
  | cons a _ ih => exact ih (insertVoxelSet adj acc a)
  | swap a b l =>
    simp only [List.foldl_cons]
    exact foldl_insertVoxelSet_perm_acc adj l (insertVoxelSet_comm adj hsym acc b a)
  | trans _ _ ih1 ih2 => exact (ih1 acc).trans (ih2 acc)

theorem mergeVoxelSets_perm (adj : Voxel → Voxel → Bool) (hsym : ∀ v w, adj v w = adj w v)
    {l1 l2 : List (Finset Voxel)} (h : l1.Perm l2) :
    (mergeVoxelSets adj l1).Perm (mergeVoxelSets adj l2) :=
  foldl_insertVoxelSet_perm adj hsym h []

theorem insertVoxelSet_pairwise (adj : Voxel → Voxel → Bool) (hsym : ∀ v w, adj v w = adj w v)
    (acc : List (Finset Voxel)) (d : Finset Voxel)
    (hacc : acc.Pairwise (fun a b => touching adj a b = false)) :
    (insertVoxelSet adj acc d).Pairwise (fun a b => touching adj a b = false) := by
  unfold insertVoxelSet
  rw [List.pairwise_append]
  refine ⟨hacc.filter _, List.pairwise_singleton _ _, ?_⟩
  intro o ho x hx
  rw [List.mem_singleton] at hx
  subst hx
  obtain ⟨hoacc, hod⟩ := List.mem_filter.mp ho
  have hod' : touching adj d o = false := by simpa using hod
  by_contra hcon
  have htrue : touching adj o
      ((acc.filter (fun o => touching adj d o)).foldl (fun a b => a ∪ b) d) = true := by
    simpa using hcon
  rcases (touching_foldl_union adj _ d o).mp htrue with h | ⟨o2, ho2, h⟩
  · rw [touching_symm adj hsym o d, hod'] at h
    exact Bool.false_ne_true h
  · obtain ⟨ho2acc, ho2d⟩ := List.mem_filter.mp ho2
    have hne : o ≠ o2 := by
      intro heq
      rw [heq, ho2d] at hod'
      exact Bool.false_ne_true hod'.symm
    have hsymR : Symmetric (fun a b : Finset Voxel => touching adj a b = false) := by
      intro a b hab
      rw [touching_symm adj hsym b a]
      exact hab
    have := hacc.forall hsymR hoacc ho2acc hne
    rw [this] at h
    exact Bool.false_ne_true h

theorem foldl_insertVoxelSet_pairwise (adj : Voxel → Voxel → Bool)
    (hsym : ∀ v w, adj v w = adj w v) (l acc : List (Finset Voxel))
    (hacc : acc.Pairwise (fun a b => touching adj a b = false)) :
    (l.foldl (insertVoxelSet adj) acc).Pairwise (fun a b => touching adj a b = false) := by
  induction l generalizing acc with
  | nil => exact hacc
  | cons a t ih => exact ih _ (insertVoxelSet_pairwise adj hsym acc a hacc)

theorem mergeVoxelSets_pairwise (adj : Voxel → Voxel → Bool) (hsym : ∀ v w, adj v w = adj w v)
    (l : List (Finset Voxel)) :
    (mergeVoxelSets adj l).Pairwise (fun a b => touching adj a b = false) :=
  foldl_insertVoxelSet_pairwise adj hsym l [] List.Pairwise.nil

theorem pixelSet_foldl_addDetection (l : List Detection) (d : Detection) :
    (l.foldl Detection.addDetection d).pixelSet
      = (l.map (fun o => o.pixelSet)).foldl (fun a b => a ∪ b) d.pixelSet := by
  induction l generalizing d with
  | nil => rfl
  | cons a t ih => simp only [List.foldl_cons, List.map_cons, ih, Detection.addDetection]

theorem insertObject_pixelSets (adj : Voxel → Voxel → Bool) (acc : List Detection)
    (d : Detection) :
    (insertObject adj acc d).map (fun o => o.pixelSet)
      = insertVoxelSet adj (acc.map (fun o => o.pixelSet)) d.pixelSet := by
  unfold insertObject insertVoxelSet
  simp only [List.map_append, List.map_cons, List.map_nil, pixelSet_foldl_addDetection,
    List.filter_map]
  rfl

theorem foldl_insertObject_pixelSets (adj : Voxel → Voxel → Bool) (l acc : List Detection) :
    (l.foldl (insertObject adj) acc).map (fun o => o.pixelSet)
      = (l.map (fun o => o.pixelSet)).foldl (insertVoxelSet adj) (acc.map (fun o => o.pixelSet)) := by
  induction l generalizing acc with
  | nil => rfl
  | cons a t ih => simp only [List.foldl_cons, List.map_cons, ih, insertObject_pixelSets]

theorem mergeList_pixelSets (adj : Voxel → Voxel → Bool) (l : List Detection) :
    (mergeList adj l).map (fun o => o.pixelSet) = mergeVoxelSets adj (l.map (fun o => o.pixelSet)) :=
  foldl_insertObject_pixelSets adj l []

theorem foldl_insertObject_of_pairwise (adj : Voxel → Voxel → Bool)
    (hsym : ∀ v w, adj v w = adj w v) (l acc : List Detection)
    (h : (acc ++ l).Pairwise (fun a b => Detection.canMerge adj a b = false)) :
    l.foldl (insertObject adj) acc = acc ++ l := by
  induction l generalizing acc with
  | nil => simp
  | cons a t ih =>
    have hfar : ∀ o ∈ acc, Detection.canMerge adj a o = false := by
      intro o ho
      have h1 := (List.pairwise_append.mp h).2.2 o ho a (List.mem_cons_self a t)
      unfold Detection.canMerge at h1 ⊢
      rw [touching_symm adj hsym]
      exact h1
    have hins : insertObject adj acc a = acc ++ [a] := by
      unfold insertObject
      have e1 : acc.filter (fun o => !Detection.canMerge adj a o) = acc :=
        List.filter_eq_self.mpr (fun o ho => by simp [hfar o ho])
      have e2 : acc.filter (fun o => Detection.canMerge adj a o) = [] :=
        List.filter_eq_nil_iff.mpr (fun o ho => by simp [hfar o ho])
      rw [e1, e2]
      rfl
    simp only [List.foldl_cons, hins]
    rw [ih (acc ++ [a]) (by simpa using h)]
    simp

theorem mergeList_idempotent (adj : Voxel → Voxel → Bool) (hsym : ∀ v w, adj v w = adj w v)
    (l : List Detection) : mergeList adj (mergeList adj l) = mergeList adj l := by
  have hp := mergeVoxelSets_pairwise adj hsym (l.map (fun o => o.pixelSet))
  rw [← mergeList_pixelSets, List.pairwise_map] at hp
  have := foldl_insertObject_of_pairwise adj hsym (mergeList adj l) [] (by simpa using hp)
  simpa [mergeList] using this

theorem cleanupMergeEdges_edgeList {F : Type} (lib : Library F) (st : DuchampParallel F) :
    (cleanupMergeEdges lib st).itsEdgeSourceList
      = (mergeList lib.adjacent (st.itsEdgeSourceList.map (fun s => s.toDetection))).map
          RadioSource.ofDetection := by
  have hpush : ∀ (l : List Detection) (init : List RadioSource),
      l.foldl (fun acc obj => acc ++ [RadioSource.ofDetection obj]) init
        = init ++ l.map RadioSource.ofDetection := by
    intro l
    induction l with
    | nil => simp
    | cons a t ih => intro init; simp [ih]
  have hadd : ∀ (l : List RadioSource) (init : List Detection),
      l.foldl (fun objs src => objs ++ [src.toDetection]) init
        = init ++ l.map (fun s => s.toDetection) := by
    intro l
    induction l with
    | nil => simp
    | cons a t ih => intro init; simp [ih]
  unfold cleanupMergeEdges
  dsimp only
  split
  · simp [setFlagGrowth, cubeObjectMerger, Param.setFlagGrowth, ObjectMerger, hpush, hadd]
  · rename_i h
    have hnil : st.itsEdgeSourceList = [] := by
      cases hl : st.itsEdgeSourceList with
      | nil => rfl
      | cons a t => simp [hl] at h
    simp [hnil, mergeList]

theorem Voxel.neighbour_symm (v w : Voxel) : Voxel.neighbour v w = Voxel.neighbour w v := by
  unfold Voxel.neighbour
  rw [abs_sub_comm v.x w.x, abs_sub_comm v.y w.y, abs_sub_comm v.z w.z]

/-- C5. With a symmetric connectivity rule, the merge of the edge sources in `cleanup` gives
the same detections, as voxel sets counted with multiplicity, for any two orders of the
edge list, and running the merge again on its own output gives that output back. -/
theorem cleanupMergeEdges_order_independent {F : Type} (lib : Library F)
    (st1 st2 : DuchampParallel F) (hsym : ∀ v w, lib.adjacent v w = lib.adjacent w v)
    (hperm : st1.itsEdgeSourceList.Perm st2.itsEdgeSourceList) :
    ((cleanupMergeEdges lib st1).itsEdgeSourceList.map (fun s => s.pixelSet)).Perm
        ((cleanupMergeEdges lib st2).itsEdgeSourceList.map (fun s => s.pixelSet))
    ∧ (cleanupMergeEdges lib (cleanupMergeEdges lib st1)).itsEdgeSourceList
        = (cleanupMergeEdges lib st1).itsEdgeSourceList := by
  have hsets : ∀ st : DuchampParallel F,
      (cleanupMergeEdges lib st).itsEdgeSourceList.map (fun s => s.pixelSet)
        = mergeVoxelSets lib.adjacent (st.itsEdgeSourceList.map (fun s => s.pixelSet)) := by
    intro st
    rw [cleanupMergeEdges_edgeList, List.map_map]
    have h := mergeList_pixelSets lib.adjacent (st.itsEdgeSourceList.map (fun s => s.toDetection))
    rw [List.map_map] at h
    exact h
  refine ⟨?_, ?_⟩
  · rw [hsets st1, hsets st2]
    exact mergeVoxelSets_perm lib.adjacent hsym (hperm.map _)
  · rw [cleanupMergeEdges_edgeList lib (cleanupMergeEdges lib st1),
      cleanupMergeEdges_edgeList lib st1, List.map_map]
    have hid : ((fun s : RadioSource => s.toDetection) ∘ RadioSource.ofDetection) = id := rfl
    rw [hid, List.map_id, mergeList_idempotent lib.adjacent hsym]

/-- Witness of C5: three edge sources, two of which touch, merged in two different orders. -/
theorem cleanupMergeEdges_order_independent_witness :
    (cleanupMergeEdges demoLibrary (demoMaster demoEdgeSources)).itsEdgeSourceList.map
        (fun s => s.pixelSet)
      = [{⟨80, 80, 0⟩}, {⟨48, 5, 0⟩, ⟨49, 5, 0⟩, ⟨50, 5, 0⟩, ⟨51, 5, 0⟩, ⟨52, 5, 0⟩}]
    ∧ (cleanupMergeEdges demoLibrary
        (demoMaster [demoEdgeLeft, demoEdgeRight, demoEdgeFar])).itsEdgeSourceList.map
        (fun s => s.pixelSet)
      = [{⟨48, 5, 0⟩, ⟨49, 5, 0⟩, ⟨50, 5, 0⟩, ⟨51, 5, 0⟩, ⟨52, 5, 0⟩}, {⟨80, 80, 0⟩}]
    ∧ ((cleanupMergeEdges demoLibrary (demoMaster demoEdgeSources)).itsEdgeSourceList.map
        (fun s => s.pixelSet)).Perm
      ((cleanupMergeEdges demoLibrary
        (demoMaster [demoEdgeLeft, demoEdgeRight, demoEdgeFar])).itsEdgeSourceList.map
        (fun s => s.pixelSet)) :=
  ⟨by decide, by decide,
    (cleanupMergeEdges_order_independent demoLibrary (demoMaster demoEdgeSources)
      (demoMaster [demoEdgeLeft, demoEdgeRight, demoEdgeFar]) Voxel.neighbour_symm
      (List.Perm.cons demoEdgeLeft (List.Perm.swap demoEdgeRight demoEdgeFar []))).1⟩

/-- Witness of C6: the master of the small instance ends with three sources numbered 1, 2, 3. -/
theorem cleanup_ids_witness :
    (cleanup demoLibrary (demoMaster demoEdgeSources)).itsSourceList.map (fun s => s.id) = [1, 2, 3]
    ∧ (cleanup demoLibrary (demoMaster demoEdgeSources)).itsSourceList.map (fun s => s.id)
      = (List.range' 1 (cleanup demoLibrary (demoMaster demoEdgeSources)).itsSourceList.length).map
          (fun n : Nat => (n : Int)) :=
  ⟨by decide, (cleanup_ids demoLibrary (demoMaster demoEdgeSources) rfl).2.2.1⟩

/-! ### cleanup: the growth flag -/

theorem cleanup_trace {F : Type} (lib : Library F) (st : DuchampParallel F) :
    (cleanup lib st).trace
      = st.trace ++
        (if (!st.itsComms.isParallel || st.itsComms.isMaster) = true ∧ st.itsEdgeSourceList ≠ [] then
          [Event.objectMerger (st.itsCube.pars.setFlagGrowth false)]
        else []) := by
  unfold cleanup
  by_cases hrun : (!st.itsComms.isParallel || st.itsComms.isMaster) = true
  · rw [if_pos hrun]
    cases hl : st.itsEdgeSourceList with
    | nil => simp [cleanupMaster, cleanupMergeEdges, hl, hrun]
    | cons a t =>
      simp [cleanupMaster, cleanupMergeEdges, hl, hrun, setFlagGrowth, cubeObjectMerger]
  · rw [if_neg hrun]
    simp [hrun]

/-- C11. In `cleanup` every run of the object merger has the growth flag off, the growth flag
of the parameters after `cleanup` is the one before it, and with an empty edge list no
merge is run (no event is recorded). On the master, or in serial mode, a non-empty edge
list is merged exactly once. -/
theorem cleanup_growth_flag {F : Type} (lib : Library F) (st : DuchampParallel F) :
    (∀ p, Event.objectMerger p ∈ newEvents st (cleanup lib st) → p.flagGrowth = false)
    ∧ (cleanup lib st).itsCube.pars.flagGrowth = st.itsCube.pars.flagGrowth
    ∧ (st.itsEdgeSourceList = [] → newEvents st (cleanup lib st) = [])
    ∧ ((!st.itsComms.isParallel || st.itsComms.isMaster) = true → st.itsEdgeSourceList ≠ [] →
        newEvents st (cleanup lib st) = [Event.objectMerger (st.itsCube.pars.setFlagGrowth false)])
    ∧ (cleanup lib st).trace = st.trace ++ newEvents st (cleanup lib st) := by
  have htr := cleanup_trace lib st
  have hnew : newEvents st (cleanup lib st)
      = (if (!st.itsComms.isParallel || st.itsComms.isMaster) = true ∧ st.itsEdgeSourceList ≠ [] then
          [Event.objectMerger (st.itsCube.pars.setFlagGrowth false)]
        else []) := by
    simp only [newEvents, htr, List.drop_left]
  refine ⟨?_, ?_, ?_, ?_, ?_⟩
  · intro p hp
    rw [hnew] at hp
    split at hp
    · rw [List.mem_singleton] at hp
      cases hp
      rfl
    · simp at hp
  · unfold cleanup
    split
    · simp only [cleanupMaster, cleanupMergeEdges_pars]
    · rfl
  · intro hempty
    rw [hnew, if_neg (by simp [hempty])]
  · intro hrun hne
    rw [hnew, if_pos ⟨hrun, hne⟩]
  · rw [hnew, htr]

/-- Witness of C11: the master of the small instance, with the growth flag on, merges its
three edge sources with the flag off and ends with the flag on. -/
theorem cleanup_growth_flag_witness :
    newEvents (demoMaster demoEdgeSources) (cleanup demoLibrary (demoMaster demoEdgeSources))
      = [Event.objectMerger { demoParam with flagGrowth := false }]
    ∧ (cleanup demoLibrary (demoMaster demoEdgeSources)).itsCube.pars.flagGrowth = true
    ∧ (cleanup demoLibrary (demoMaster demoEdgeSources)).itsCube.pars.flagGrowth
      = (demoMaster demoEdgeSources).itsCube.pars.flagGrowth :=
  ⟨by decide, by decide, (cleanup_growth_flag demoLibrary (demoMaster demoEdgeSources)).2.1⟩

/-! ### sendObjects and the envelope -/

theorem receiveFromWorker_decode {F : Type} (lib : Library F) (receiveBlob : Nat → Blob F)
    (i : Nat) (st : DuchampParallel F) :
    receiveFromWorker lib receiveBlob i st =
      match decodeEnvelope (receiveBlob i) with
      | .error e => ⟨{ st with trace := st.trace ++ [Event.receiveBlob i] }, some e⟩
      | .ok env => receiveBody lib env { st with trace := st.trace ++ [Event.receiveBlob i] } := by
  unfold receiveFromWorker decodeEnvelope receiveBody
  dsimp only
  cases BlobIStream.getStart (receiveBlob i) "detW2M" with
  | error e => rfl
  | ok r1 =>
    obtain ⟨version, s1⟩ := r1
    dsimp only
    cases ASKAPASSERT (version == 1) "version == 1" with
    | error e => rfl
    | ok _ =>
      dsimp only
      cases BlobIStream.getInt16 s1 with
      | error e => rfl
      | ok r2 =>
        obtain ⟨rank, s2⟩ := r2
        dsimp only
        cases BlobIStream.getInt32 s2 with
        | error e => rfl
        | ok r3 =>
          obtain ⟨numObj, s3⟩ := r3
          dsimp only
          cases BlobIStream.getInt s3 with
          | error e => rfl
          | ok r4 =>
            obtain ⟨xs, s4⟩ := r4
            dsimp only
            cases BlobIStream.getInt s4 with
            | error e => rfl
            | ok r5 =>
              obtain ⟨ys, s5⟩ := r5
              dsimp only
              cases BlobIStream.getInt s5 with
              | error e => rfl
              | ok r6 =>
                obtain ⟨zs, s6⟩ := r6
                rfl

theorem setThresholdWorker_decode {F : Type} (lib : Library F) (bs : Blob F)
    (st : DuchampParallel F) :
    (∀ e, decodeThreshold bs = .error e →
      setThresholdWorker lib bs st
        = .error (e, { st with trace := st.trace ++ [Event.broadcastBlob 0] }))
    ∧ (∀ t m s, decodeThreshold bs = .ok (t, m, s) →
      ∃ st1, setThresholdWorker lib bs st = .ok (t, st1)
        ∧ st1.itsCube.stats.mean = m ∧ st1.itsCube.stats.stddev = s) := by
  unfold setThresholdWorker decodeThreshold
  dsimp only
  cases BlobIStream.getStart bs "threshM2W" with
  | error e => exact ⟨fun e h => by cases h; rfl, fun t m s h => by cases h⟩
  | ok r1 =>
    obtain ⟨version, s1⟩ := r1
    dsimp only
    cases ASKAPASSERT (version == 1) "version == 1" with
    | error e => exact ⟨fun e h => by cases h; rfl, fun t m s h => by cases h⟩
    | ok _ =>
      dsimp only
      cases BlobIStream.getDouble s1 with
      | error e => exact ⟨fun e h => by cases h; rfl, fun t m s h => by cases h⟩
      | ok r2 =>
        obtain ⟨t0, s2⟩ := r2
        dsimp only
        cases BlobIStream.getDouble s2 with
        | error e => exact ⟨fun e h => by cases h; rfl, fun t m s h => by cases h⟩
        | ok r3 =>
          obtain ⟨m0, s3⟩ := r3
          dsimp only
          cases BlobIStream.getDouble s3 with
          | error e => exact ⟨fun e h => by cases h; rfl, fun t m s h => by cases h⟩
          | ok r4 =>
            obtain ⟨d0, s4⟩ := r4
            dsimp only
            cases BlobIStream.getEnd s4 with
            | error e => exact ⟨fun e h => by cases h; rfl, fun t m s h => by cases h⟩
            | ok _ =>
              refine ⟨fun e h => (by cases h), fun t m s h => ?_⟩
              cases h
              refine ⟨_, rfl, ?_, ?_⟩
              · cases hu : st.itsCube.pars.flagUserThreshold <;>
                  simp [hu, StatsContainer.setThresholdSNR, StatsContainer.define,
                    StatsContainer.setMean, StatsContainer.setStddev, StatsContainer.setRobust,
                    StatsContainer.getMiddle]
              · cases hu : st.itsCube.pars.flagUserThreshold <;>
                  simp [hu, StatsContainer.setThresholdSNR, StatsContainer.define,
                    StatsContainer.setMean, StatsContainer.setStddev, StatsContainer.setRobust,
                    StatsContainer.getSpread]

theorem foldl_push_source {F : Type} (l : List RadioSource) (init : List (BlobItem F)) :
    l.foldl (fun out src => out ++ [BlobItem.source src]) init
      = init ++ l.map BlobItem.source := by
  induction l generalizing init with
  | nil => simp
  | cons a t ih => simp [ih]

theorem sendObjects_sent {F : Type} (xstart ystart zstart : Int) (st : DuchampParallel F)
    (hworker : st.itsComms.isWorker = true) (hpar : st.itsComms.isParallel = true) :
    (sendObjects xstart ystart zstart st).sent
      = some (0, ⟨"detW2M", 1,
          .int16 (wrapInt16 st.itsComms.rank) :: .int32 (wrapInt32 st.itsCube.objectList.length)
            :: .int xstart :: .int ystart :: .int zstart
            :: st.itsSourceList.map BlobItem.source⟩) := by
  simp [sendObjects, hworker, hpar, foldl_push_source]

theorem wrapInt16_of_range (v : Int) (h1 : -(2 : Int) ^ 15 ≤ v) (h2 : v < 2 ^ 15) :
    wrapInt16 v = v := by
  unfold wrapInt16
  have h : (v + 2 ^ 15) % 2 ^ 16 = v + 2 ^ 15 := by
    apply Int.emod_eq_of_lt <;> omega
  omega

theorem numSources_sources {F : Type} (srcs : List RadioSource) :
    (srcs.map (BlobItem.source : RadioSource → BlobItem F)).countP
      (fun item => match item with
        | .source _ => true
        | _ => false) = srcs.length := by
  induction srcs with
  | nil => rfl
  | cons a t ih => simp [List.countP_cons, ih]

theorem fitSources_length {F : Type} (lib : Library F) (st : DuchampParallel F)
    (hworker : st.itsComms.isWorker = true) :
    (fitSources lib st).itsSourceList.length
        = st.itsSourceList.length + st.itsCube.objectList.length
    ∧ (fitSources lib st).itsCube.objectList = st.itsCube.objectList := by
  have hfold : ∀ (objs : List Detection) (s : DuchampParallel F),
      (objs.foldl (fitSourcesStep lib) s).itsSourceList.length
          = s.itsSourceList.length + objs.length
      ∧ (objs.foldl (fitSourcesStep lib) s).itsCube = s.itsCube := by
    intro objs
    induction objs with
    | nil => intro s; simp
    | cons a t ih =>
      intro s
      obtain ⟨h1, h2⟩ := ih (fitSourcesStep lib s a)
      simp only [List.foldl_cons, h1, h2]
      simp [fitSourcesStep]
      omega
  unfold fitSources
  rw [if_pos hworker]
  obtain ⟨h1, h2⟩ := hfold (receiveObjectsFitFlag st).itsCube.objectList (receiveObjectsFitFlag st)
  refine ⟨?_, ?_⟩
  · rw [h1]; rfl
  · rw [h2]; rfl

/-- Counterexample to C12 as stated: a worker that has run `findSources` but not `fitSources`
holds two objects in its cube and no source in its source list; the message it builds
announces two detections and carries none, and the master fails to read it. -/
theorem sendObjects_count_counterexample :
    ((sendObjects 11 21 0 (findSources demoLibrary (demoProcess 1))).sent.map
        (fun m => (Blob.count m.2, Blob.numSources m.2))) = some (some 2, 0)
    ∧ (receiveFromWorker demoLibrary
        (fun _ => ((sendObjects 11 21 0 (findSources demoLibrary (demoProcess 1))).sent.map
          (fun m => m.2)).getD ⟨"", 0, []⟩) 1 (demoProcess 0)).error
      = some (AskapError.blobError "RadioSource expected") := by
  constructor <;> decide

/-- C12, amended. When the source list of a worker of a parallel run holds as many sources as
its cube holds objects (fewer than 2^31), as it does after `fitSources` run on an empty
source list, the count field of the message built by `sendObjects` is the number of
sources serialised after it, and `receiveObjects` reads the message to its end without
error, storing each of its sources. -/
theorem sendObjects_count {F : Type} (xstart ystart zstart : Int) (st : DuchampParallel F)
    (hworker : st.itsComms.isWorker = true) (hpar : st.itsComms.isParallel = true)
    (hsync : st.itsSourceList.length = st.itsCube.objectList.length)
    (hsmall : (st.itsCube.objectList.length : Int) < 2 ^ 31) :
    (∃ bs : Blob F, (sendObjects xstart ystart zstart st).sent = some (0, bs)
      ∧ Blob.count bs = some (Blob.numSources bs : Int)
      ∧ Blob.numSources bs = st.itsSourceList.length
      ∧ ∀ (lib : Library F) (receiveBlob : Nat → Blob F) (i : Nat) (st1 : DuchampParallel F),
          receiveBlob i = bs →
          receiveFromWorker lib receiveBlob i st1
            = ⟨st.itsSourceList.foldl (storeSource lib xstart ystart zstart)
                { st1 with trace := st1.trace ++ [Event.receiveBlob i] }, none⟩)
    ∧ ∀ (lib : Library F) (st0 : DuchampParallel F), st0.itsComms.isWorker = true →
        st0.itsSourceList = [] →
        (fitSources lib st0).itsSourceList.length = (fitSources lib st0).itsCube.objectList.length := by
  have hwrap : wrapInt32 (st.itsCube.objectList.length : Int) = (st.itsSourceList.length : Int) := by
    rw [wrapInt32_of_range _ (by have := Int.natCast_nonneg st.itsCube.objectList.length; omega)
      hsmall, hsync]
  refine ⟨⟨_, sendObjects_sent xstart ystart zstart st hworker hpar, ?_, ?_, ?_⟩, ?_⟩
  · simp only [Blob.count, Blob.numSources, List.countP_cons, numSources_sources, hwrap]
    simp
  · simp only [Blob.numSources, List.countP_cons, numSources_sources]
    simp
  · intro lib receiveBlob i st1 hmsg
    apply receiveFromWorker_wellFormed lib receiveBlob i st1 (wrapInt16 st.itsComms.rank)
      xstart ystart zstart st.itsSourceList
    rw [hmsg, hwrap]
  · intro lib st0 hw hnil
    obtain ⟨h1, h2⟩ := fitSources_length lib st0 hw
    rw [h1, h2, hnil]
    simp

/-- Witness of C12: worker 1 of the small instance after `findSources` and `fitSources`
announces two detections and serialises two. -/
theorem sendObjects_count_witness :
    ((sendObjects 11 21 0 (demoWorkerFitted 1)).sent.map
        (fun m => (Blob.count m.2, Blob.numSources m.2))) = some (some 2, 2)
    ∧ ∃ bs : Blob Int, (sendObjects 11 21 0 (demoWorkerFitted 1)).sent = some (0, bs)
      ∧ Blob.count bs = some (Blob.numSources bs : Int) :=
  ⟨by decide,
    (sendObjects_count 11 21 0 (demoWorkerFitted 1) (by decide) (by decide) (by decide)
      (by decide)).1.imp (fun _ h => ⟨h.1, h.2.1⟩)⟩


/-- C13. The message a worker of a parallel run builds in `sendObjects` has the type tag
'detW2M' and version 1, and the header that `receiveObjects` reads from it holds the rank
written as `int16`, the count written as `int32` and the three starts written as `int`,
in that order, with the serialised sources left to read; the rank and the count written
are those of the worker when they fit 16 and 32 bits. Likewise the message the master
builds in `setThreshold` has the tag 'threshM2W' and version 1 and the worker side reads
from it the threshold, the mean and the standard deviation the master wrote. -/
theorem sendObjects_envelope_round_trip {F : Type} (lib : Library F) (xstart ystart zstart : Int)
    (st m : DuchampParallel F) (delivered : Blob F)
    (hworker : st.itsComms.isWorker = true) (hpar : st.itsComms.isParallel = true)
    (hparm : m.itsComms.isParallel = true) (hmaster : m.itsComms.isMaster = true)
    (hflag : m.itsFlagThresholdPerWorker = false) :
    (∃ bs : Blob F, (sendObjects xstart ystart zstart st).sent = some (0, bs)
      ∧ bs.objectType = "detW2M" ∧ bs.version = 1
      ∧ decodeEnvelope bs
          = .ok ⟨1, wrapInt16 st.itsComms.rank, wrapInt32 st.itsCube.objectList.length,
              xstart, ystart, zstart, st.itsSourceList.map BlobItem.source⟩
      ∧ ∀ (receiveBlob : Nat → Blob F) (i : Nat) (st1 : DuchampParallel F), receiveBlob i = bs →
          receiveFromWorker lib receiveBlob i st1
            = receiveBody lib
                ⟨1, wrapInt16 st.itsComms.rank, wrapInt32 st.itsCube.objectList.length,
                  xstart, ystart, zstart, st.itsSourceList.map BlobItem.source⟩
                { st1 with trace := st1.trace ++ [Event.receiveBlob i] })
    ∧ ((st.itsComms.rank : Int) < 2 ^ 15 → wrapInt16 st.itsComms.rank = st.itsComms.rank)
    ∧ ((st.itsCube.objectList.length : Int) < 2 ^ 31 →
        wrapInt32 st.itsCube.objectList.length = st.itsCube.objectList.length)
    ∧ ∃ bs : Blob F, (setThreshold lib delivered m).sent = some bs
      ∧ bs.objectType = "threshM2W" ∧ bs.version = 1
      ∧ decodeThreshold bs
          = .ok (m.itsCube.stats.getThreshold, m.itsCube.stats.getMiddle,
              m.itsCube.stats.getSpread lib)
      ∧ ∀ w : DuchampParallel F, ∃ w1 : DuchampParallel F,
          setThresholdWorker lib bs w = .ok (m.itsCube.stats.getThreshold, w1)
          ∧ w1.itsCube.stats.mean = m.itsCube.stats.getMiddle
          ∧ w1.itsCube.stats.stddev = m.itsCube.stats.getSpread lib := by
  have hdec : decodeEnvelope (⟨"detW2M", 1,
        .int16 (wrapInt16 st.itsComms.rank) :: .int32 (wrapInt32 st.itsCube.objectList.length)
          :: .int xstart :: .int ystart :: .int zstart
          :: st.itsSourceList.map BlobItem.source⟩ : Blob F)
      = .ok ⟨1, wrapInt16 st.itsComms.rank, wrapInt32 st.itsCube.objectList.length,
          xstart, ystart, zstart, st.itsSourceList.map BlobItem.source⟩ := by
    simp [decodeEnvelope, BlobIStream.getStart, ASKAPASSERT, BlobIStream.getInt16,
      BlobIStream.getInt32, BlobIStream.getInt]
  have hthr : decodeThreshold (⟨"threshM2W", 1, [.double m.itsCube.stats.getThreshold,
        .double m.itsCube.stats.getMiddle, .double (m.itsCube.stats.getSpread lib)]⟩ : Blob F)
      = .ok (m.itsCube.stats.getThreshold, m.itsCube.stats.getMiddle,
          m.itsCube.stats.getSpread lib) := by
    simp [decodeThreshold, BlobIStream.getStart, ASKAPASSERT, BlobIStream.getDouble,
      BlobIStream.getEnd]
  refine ⟨⟨_, sendObjects_sent xstart ystart zstart st hworker hpar, rfl, rfl, hdec, ?_⟩, ?_, ?_,
    ⟨_, setThreshold_master_sent lib delivered m hparm hmaster hflag, rfl, rfl, hthr, ?_⟩⟩
  · intro receiveBlob i st1 hmsg
    rw [receiveFromWorker_decode, hmsg, hdec]
  · intro h
    exact wrapInt16_of_range _ (by have := Int.natCast_nonneg st.itsComms.rank; omega) h
  · intro h
    exact wrapInt32_of_range _
      (by have := Int.natCast_nonneg st.itsCube.objectList.length; omega) h
  · intro w
    exact (setThresholdWorker_decode lib _ w).2 _ _ _ hthr

/-- Witness of C13: the header of the message of worker 2 of the small instance holds
version 1, rank 2, count 2 and the starts 11, 21, 0, and two sources follow it. -/
theorem sendObjects_envelope_round_trip_witness :
    ((decodeEnvelope (demoSentInbox 2)).toOption.map
        (fun env => [env.version, env.rank, env.numObj, env.xstart, env.ystart, env.zstart,
          (env.rest.length : Int)])) = some [1, 2, 2, 11, 21, 0, 2]
    ∧ ∃ bs : Blob Int, (sendObjects 11 21 0 (demoWorkerFitted 2)).sent = some (0, bs)
      ∧ bs.objectType = "detW2M" ∧ bs.version = 1 :=
  ⟨by decide,
    (sendObjects_envelope_round_trip demoLibrary 11 21 0 (demoWorkerFitted 2) (demoProcess 0)
      ⟨"", 0, []⟩ (by decide) (by decide) rfl rfl rfl).1.imp (fun _ h => ⟨h.1, h.2.1, h.2.2.1⟩)⟩


/-! ### The sends and the receives -/

theorem storeSource_trace {F : Type} (lib : Library F) (xs ys zs : Int) (st : DuchampParallel F)
    (src : RadioSource) : (storeSource lib xs ys zs st src).trace = st.trace := by
  unfold storeSource
  dsimp only
  split
  · rfl
  · split <;> rfl

theorem readSources_trace {F : Type} (lib : Library F) (xs ys zs : Int) (n : Nat)
    (st : DuchampParallel F) (s : List (BlobItem F)) :
    (readSources lib xs ys zs n st s).state.1.trace = st.trace := by
  induction n generalizing st s with
  | zero => rfl
  | succ n ih =>
    unfold readSources
    cases h : BlobIStream.getSource s with
    | error e => rfl
    | ok r =>
      obtain ⟨src, s1⟩ := r
      dsimp only
      rw [ih, storeSource_trace]

theorem receiveFromWorker_trace {F : Type} (lib : Library F) (receiveBlob : Nat → Blob F)
    (i : Nat) (st : DuchampParallel F) :
    (receiveFromWorker lib receiveBlob i st).state.trace = st.trace ++ [Event.receiveBlob i] := by
  rw [receiveFromWorker_decode]
  cases decodeEnvelope (receiveBlob i) with
  | error e => rfl
  | ok env =>
    dsimp only
    unfold receiveBody
    have h := readSources_trace lib env.xstart env.ystart env.zstart env.numObj.toNat
      { st with trace := st.trace ++ [Event.receiveBlob i] } env.rest
    rcases hr : readSources lib env.xstart env.ystart env.zstart env.numObj.toNat
      { st with trace := st.trace ++ [Event.receiveBlob i] } env.rest with ⟨⟨s1, r1⟩, _ | e⟩
    · rw [hr] at h
      dsimp only
      cases BlobIStream.getEnd r1 with
      | error e => exact h
      | ok _ => exact h
    · rw [hr] at h
      exact h

theorem forEachRank_receive_trace {F : Type} (lib : Library F) (receiveBlob : Nat → Blob F)
    (l : List Nat) (st : DuchampParallel F) :
    ∃ k, k ≤ l.length
      ∧ (forEachRank (receiveFromWorker lib receiveBlob) l st).state.trace
          = st.trace ++ (l.take k).map Event.receiveBlob
      ∧ ((forEachRank (receiveFromWorker lib receiveBlob) l st).error = none → k = l.length) := by
  induction l generalizing st with
  | nil => exact ⟨0, le_refl _, by simp [forEachRank], fun _ => rfl⟩
  | cons a t ih =>
    have htr := receiveFromWorker_trace lib receiveBlob a st
    simp only [forEachRank]
    rcases hb : receiveFromWorker lib receiveBlob a st with ⟨s, _ | e⟩
    · rw [hb] at htr
      obtain ⟨k, hk, htrace, hfull⟩ := ih s
      refine ⟨k + 1, by simp [hk], ?_, ?_⟩
      · dsimp only
        rw [htrace, htr]
        simp
      · intro h
        dsimp only at h
        simp [hfull h]
    · rw [hb] at htr
      refine ⟨1, by simp, ?_, ?_⟩
      · dsimp only
        rw [htr]
        simp
      · intro h
        cases h

theorem take_range' (s k n : Nat) (h : k ≤ n) : (List.range' s n).take k = List.range' s k := by
  obtain ⟨d, rfl⟩ := Nat.exists_eq_add_of_le h
  rw [Nat.add_comm k d, ← List.range'_append_1 s k d]
  exact List.take_left' (List.length_range' s 1 k)

theorem forEachRank_no_error {σ : Type} (body : Nat → σ → Outcome σ) (l : List Nat)
    (h : ∀ i ∈ l, ∀ st, (body i st).error = none) (st : σ) :
    (forEachRank body l st).error = none := by
  induction l generalizing st with
  | nil => rfl
  | cons a t ih =>
    simp only [forEachRank]
    have ha := h a (List.mem_cons_self a t) st
    rcases hb : body a st with ⟨s, _ | e⟩
    · exact ih (fun i hi => h i (List.mem_cons_of_mem a hi)) s
    · rw [hb] at ha
      cases ha

theorem receiveFromWorker_sent {F : Type} (lib : Library F) (receiveBlob : Nat → Blob F)
    (i : Nat) (st1 w : DuchampParallel F) (xstart ystart zstart : Int)
    (hworker : w.itsComms.isWorker = true) (hpar : w.itsComms.isParallel = true)
    (hsync : w.itsSourceList.length = w.itsCube.objectList.length)
    (hsmall : (w.itsCube.objectList.length : Int) < 2 ^ 31)
    (hsent : (sendObjects xstart ystart zstart w).sent = some (0, receiveBlob i)) :
    (receiveFromWorker lib receiveBlob i st1).error = none := by
  rw [sendObjects_sent xstart ystart zstart w hworker hpar] at hsent
  have hmsg : receiveBlob i = ⟨"detW2M", 1,
      .int16 (wrapInt16 w.itsComms.rank) :: .int32 (w.itsSourceList.length : Int)
        :: .int xstart :: .int ystart :: .int zstart
        :: w.itsSourceList.map BlobItem.source⟩ := by
    have h := (Prod.mk.inj (Option.some.inj hsent)).2
    rw [← h, wrapInt32_of_range _
      (by have := Int.natCast_nonneg w.itsCube.objectList.length; omega) hsmall, hsync]
  rw [receiveFromWorker_wellFormed lib receiveBlob i st1 (wrapInt16 w.itsComms.rank)
    xstart ystart zstart w.itsSourceList hmsg]

/-- C15. In a parallel run `sendObjects` on a worker performs exactly one send, to rank 0,
and on a process that is not a worker none. `receiveObjects` on the master receives from
the ranks 1, 2, ... in increasing order, one receive per rank: from all of the ranks
1, ..., P - 1 when it ends without an exception, as it does when every message is
one built by `sendObjects` on a worker whose source list matches its cube, and from an
initial run of these ranks when a message is rejected. On a process that is not the
master `receiveObjects` performs none. -/
theorem sendObjects_receiveObjects_counts {F : Type} (lib : Library F)
    (xstart ystart zstart : Int) (receiveBlob : Nat → Blob F) (st : DuchampParallel F)
    (hpar : st.itsComms.isParallel = true) :
    (st.itsComms.isWorker = true →
        newEvents st (sendObjects xstart ystart zstart st).state = [Event.sendBlob 0]
        ∧ ∃ bs, (sendObjects xstart ystart zstart st).sent = some (0, bs))
    ∧ (st.itsComms.isWorker = false →
        newEvents st (sendObjects xstart ystart zstart st).state = []
        ∧ (sendObjects xstart ystart zstart st).sent = none)
    ∧ (st.itsComms.isMaster = true →
        ((∀ i, 1 ≤ i → i < st.itsComms.nProcs →
            ∃ (w : DuchampParallel F) (xs ys zs : Int), w.itsComms.isWorker = true
              ∧ w.itsComms.isParallel = true
              ∧ w.itsSourceList.length = w.itsCube.objectList.length
              ∧ (w.itsCube.objectList.length : Int) < 2 ^ 31
              ∧ (sendObjects xs ys zs w).sent = some (0, receiveBlob i)) →
          (receiveObjects lib receiveBlob st).error = none)
        ∧ ((receiveObjects lib receiveBlob st).error = none →
            newEvents st (receiveObjects lib receiveBlob st).state
              = (List.range' 1 (st.itsComms.nProcs - 1)).map Event.receiveBlob)
        ∧ ∃ k, k ≤ st.itsComms.nProcs - 1
          ∧ newEvents st (receiveObjects lib receiveBlob st).state
              = (List.range' 1 k).map Event.receiveBlob)
    ∧ (st.itsComms.isMaster = false →
        newEvents st (receiveObjects lib receiveBlob st).state = []) := by
  refine ⟨fun hw => ?_, fun hw => ?_, fun hm => ?_, fun hm => ?_⟩
  · refine ⟨?_, _, sendObjects_sent xstart ystart zstart st hw hpar⟩
    simp [sendObjects, hw, hpar, newEvents]
  · simp [sendObjects, hw, newEvents]
  · obtain ⟨k, hk, htrace, hfull⟩ := forEachRank_receive_trace lib receiveBlob
      (List.range' 1 (st.itsComms.nProcs - 1)) (receiveObjectsFitFlag st)
    rw [List.length_range'] at hk hfull
    have hrun : receiveObjects lib receiveBlob st
        = forEachRank (receiveFromWorker lib receiveBlob)
            (List.range' 1 (st.itsComms.nProcs - 1)) (receiveObjectsFitFlag st) := by
      simp [receiveObjects, hpar, hm]
    have hev : newEvents st (receiveObjects lib receiveBlob st).state
        = (List.range' 1 k).map Event.receiveBlob := by
      rw [hrun]
      unfold newEvents
      rw [htrace, take_range' 1 k _ hk]
      simp [receiveObjectsFitFlag]
    refine ⟨fun hall => ?_, fun herr => ?_, ⟨k, hk, hev⟩⟩
    · rw [hrun]
      apply forEachRank_no_error
      intro i hi st1
      rw [List.mem_range'_1] at hi
      obtain ⟨w, xs, ys, zs, hw, hp, hsync, hsmall, hsent⟩ := hall i hi.1 (by omega)
      exact receiveFromWorker_sent lib receiveBlob i st1 w xs ys zs hw hp hsync hsmall hsent
    · rw [hev, hfull (by rw [← hrun]; exact herr)]
  · simp [receiveObjects, hpar, hm, newEvents]

/-- Witness of C15: in the small instance of three processes worker 1 sends once to rank
0, and the master, given the messages the two workers build, receives from rank 1 and then
from rank 2. -/
theorem sendObjects_receiveObjects_counts_witness :
    (receiveObjects demoLibrary demoSentInbox (demoProcess 0)).error = none
    ∧ (receiveObjects demoLibrary demoSentInbox (demoProcess 0)).state.trace
        = [Event.receiveBlob 1, Event.receiveBlob 2]
    ∧ (sendObjects 11 21 0 (demoWorkerFitted 1)).state.trace.getLast?
        = some (Event.sendBlob 0)
    ∧ newEvents (demoWorkerFitted 1) (sendObjects 11 21 0 (demoWorkerFitted 1)).state
        = [Event.sendBlob 0]
    ∧ newEvents (demoProcess 0) (receiveObjects demoLibrary demoSentInbox (demoProcess 0)).state
        = (List.range' 1 ((demoProcess 0).itsComms.nProcs - 1)).map Event.receiveBlob :=
  ⟨by decide, by decide, by decide,
    ((sendObjects_receiveObjects_counts demoLibrary 11 21 0 demoSentInbox (demoWorkerFitted 1)
      (by decide)).1 (by decide)).1,
    ((sendObjects_receiveObjects_counts demoLibrary 11 21 0 demoSentInbox (demoProcess 0)
      rfl).2.2.1 rfl).2.1 (by decide)⟩


/-! ### gatherStats and setThreshold in variable-threshold mode -/

/-- C16. The function `checkAndWarn` always ends normally. When the old parameter is defined, the
new name is not empty and the new parameter is not defined, the new parameter is
afterwards defined with the value of the old one and every other key is as before; in
every other case the parset is unchanged. The old parameter keeps its value in all
cases. -/
theorem checkAndWarn_spec (oldParam newParam : String) (ps : ParameterSet) :
    ∃ ps1 : ParameterSet, checkAndWarn oldParam newParam ps = .ok ps1
      ∧ ((ps.isDefined oldParam = true ∧ newParam ≠ "" ∧ ps.isDefined newParam = false) →
          ps1 newParam = ps oldParam ∧ ps1.isDefined newParam = true
          ∧ ∀ k, k ≠ newParam → ps1 k = ps k)
      ∧ (¬ (ps.isDefined oldParam = true ∧ newParam ≠ "" ∧ ps.isDefined newParam = false) →
          ps1 = ps)
      ∧ ps1 oldParam = ps oldParam := by
  unfold checkAndWarn
  cases hold : ps.isDefined oldParam with
  | false => exact ⟨ps, by simp, by simp, by simp, rfl⟩
  | true =>
    by_cases hnew : newParam = ""
    · exact ⟨ps, by simp [hnew], by simp [hnew], by simp [hnew], rfl⟩
    · cases hdef : ps.isDefined newParam with
      | true => exact ⟨ps, by simp [hnew], by simp, by simp, rfl⟩
      | false =>
        have hne : oldParam ≠ newParam := by
          intro h
          rw [h, hdef] at hold
          cases hold
        obtain ⟨val, hval⟩ : ∃ val, ps oldParam = some val :=
          Option.isSome_iff_exists.mp hold
        refine ⟨ps.replace newParam val, ?_, ?_, ?_, ?_⟩
        · simp [hnew, ParameterSet.getString, hval]
        · intro _
          refine ⟨by simp [ParameterSet.replace, hval], by
            simp [ParameterSet.isDefined, ParameterSet.replace], ?_⟩
          intro k hk
          simp [ParameterSet.replace, hk]
        · intro h
          exact absurd ⟨rfl, hnew, rfl⟩ h
        · simp [ParameterSet.replace, hne]

/-- Witness of C16: a parset that defines `doFit` as true and does not define `Fitter.doFit`:
afterwards `Fitter.doFit` is true, `doFit` is still true, and `deprecatedParameters`
as a whole gives the same two values. -/
theorem checkAndWarn_spec_witness :
    ((checkAndWarn "doFit" "Fitter.doFit" demoOldParset).toOption.map
        (fun ps => (ps "Fitter.doFit", ps "doFit", ps "image")))
      = some (some "true", some "true", some "a.taylor.0")
    ∧ ((deprecatedParameters demoOldParset).toOption.map
        (fun ps => (ps "Fitter.doFit", ps "doFit", ps "weightsimage")))
      = some (some "true", some "true", none)
    ∧ ∃ ps1 : ParameterSet, checkAndWarn "doFit" "Fitter.doFit" demoOldParset = .ok ps1
      ∧ ps1 "doFit" = demoOldParset "doFit" :=
  ⟨by decide, by decide,
    (checkAndWarn_spec "doFit" "Fitter.doFit" demoOldParset).imp
      (fun _ h => ⟨h.1, h.2.2.2⟩)⟩


/-! ### checkSpectralTermImages -/

theorem find_last (P : Nat → Bool) (n : Nat) :
    match (List.range n).reverse.find? P with
    | some p => P p = true ∧ p < n ∧ ∀ q, p < q → q < n → P q = false
    | none => ∀ q, q < n → P q = false := by
  induction n with
  | zero => simp
  | succ n ih =>
    rw [List.range_succ, List.reverse_append, List.reverse_singleton, List.singleton_append,
      List.find?_cons]
    cases hP : P n with
    | true =>
      refine ⟨hP, Nat.lt_succ_self n, fun q h1 h2 => ?_⟩
      omega
    | false =>
      dsimp only
      cases hf : (List.range n).reverse.find? P with
      | some p =>
        rw [hf] at ih
        obtain ⟨h1, h2, h3⟩ := ih
        refine ⟨h1, Nat.lt_succ_of_lt h2, fun q hq1 hq2 => ?_⟩
        by_cases hqn : q = n
        · rw [hqn]; exact hP
        · exact h3 q hq1 (by omega)
      | none =>
        rw [hf] at ih
        intro q hq
        by_cases hqn : q = n
        · rw [hqn]; exact hP
        · exact ih q (by omega)

theorem occursAt_of_split (a pat b : List Char) : occursAt (a ++ pat ++ b) pat a.length = true := by
  simp [occursAt]

theorem split_of_occursAt (s pat : List Char) (p : Nat) (h : occursAt s pat p = true) :
    s = s.take p ++ pat ++ s.drop (p + pat.length) := by
  simp only [occursAt, beq_iff_eq] at h
  have h1 : s.drop p = pat ++ (s.drop p).drop pat.length := by
    conv_lhs => rw [← List.take_append_drop pat.length (s.drop p), h]
  rw [List.drop_drop] at h1
  conv_lhs => rw [← List.take_append_drop p s, h1]
  simp [Nat.add_comm]

theorem rfind_some_spec (s pat : List Char) (p : Nat) (h : rfind s pat = some p) :
    ∃ a b, s = a ++ pat ++ b ∧ a.length = p ∧ replaceAt s p pat.length = (fun t => a ++ t ++ b)
      ∧ ∀ a1 b1, s = a1 ++ pat ++ b1 → a1.length ≤ p := by
  have hl := find_last (occursAt s pat) (s.length + 1)
  unfold rfind at h
  rw [h] at hl
  obtain ⟨h1, h2, h3⟩ := hl
  refine ⟨s.take p, s.drop (p + pat.length), split_of_occursAt s pat p h1, ?_, rfl, ?_⟩
  · simp
    omega
  · intro a1 b1 hs
    by_contra hlt
    have hocc := occursAt_of_split a1 pat b1
    rw [← hs] at hocc
    have hlen : a1.length < s.length + 1 := by
      rw [hs]
      simp
      omega
    rw [h3 a1.length (by omega) hlen] at hocc
    cases hocc

theorem rfind_none_spec (s pat : List Char) (h : rfind s pat = none) :
    ¬ ∃ a b, s = a ++ pat ++ b := by
  have hl := find_last (occursAt s pat) (s.length + 1)
  unfold rfind at h
  rw [h] at hl
  rintro ⟨a, b, hs⟩
  have hocc := occursAt_of_split a pat b
  rw [← hs] at hocc
  have hlen : a.length < s.length + 1 := by
    rw [hs]
    simp
    omega
  rw [hl a.length hlen] at hocc
  cases hocc

theorem checkSpectralTermImages_none (imageFile : List Char) (st : SpectralTerms)
    (h : rfind imageFile ".taylor.0".toList = none) :
    (checkSpectralTermImages imageFile st).itsSpectralTermImages = st.itsSpectralTermImages
    ∧ (∀ j, 2 ≤ j → (checkSpectralTermImages imageFile st).itsFlagFindSpectralTerms j
        = st.itsFlagFindSpectralTerms j)
    ∧ (checkSpectralTermImages imageFile st).itsFlagFindSpectralTerms 0
        = (st.itsFlagFindSpectralTerms 0 && !decide (st.itsSpectralTermImages 0 = []))
    ∧ (checkSpectralTermImages imageFile st).itsFlagFindSpectralTerms 1
        = (st.itsFlagFindSpectralTerms 1 && !decide (st.itsSpectralTermImages 1 = [])
            && !(st.itsFlagFindSpectralTerms 0 && decide (st.itsSpectralTermImages 0 = []))) := by
  have hr : List.range 2 = [0, 1] := rfl
  have hr0 : List.range' 0 (2 - 0) = [0, 1] := rfl
  have hr1 : List.range' 1 (2 - 1) = [1] := rfl
  simp only [checkSpectralTermImages, hr, List.foldl, checkSpectralTermStep, h, hr0, hr1]
  cases h0 : st.itsFlagFindSpectralTerms 0 <;> cases h1 : st.itsFlagFindSpectralTerms 1 <;>
    by_cases e0 : st.itsSpectralTermImages 0 = [] <;>
    by_cases e1 : st.itsSpectralTermImages 1 = [] <;>
    simp [h0, h1, e0, e1, Function.update] <;> intro j hj <;>
    simp [show j ≠ 0 by omega, show j ≠ 1 by omega]

theorem checkSpectralTermImages_some (imageFile : List Char) (st : SpectralTerms) (pos : Nat)
    (h : rfind imageFile ".taylor.0".toList = some pos) :
    (checkSpectralTermImages imageFile st).itsFlagFindSpectralTerms = st.itsFlagFindSpectralTerms
    ∧ (∀ j, 2 ≤ j → (checkSpectralTermImages imageFile st).itsSpectralTermImages j
        = st.itsSpectralTermImages j)
    ∧ ∀ i, i < 2 → (checkSpectralTermImages imageFile st).itsSpectralTermImages i
        = if st.itsFlagFindSpectralTerms i = true ∧ st.itsSpectralTermImages i = [] then
            replaceAt imageFile pos 9 (termname i)
          else st.itsSpectralTermImages i := by
  have hr : List.range 2 = [0, 1] := rfl
  simp only [checkSpectralTermImages, hr, List.foldl, checkSpectralTermStep, h]
  refine ⟨?_, ?_, ?_⟩
  · cases h0 : st.itsFlagFindSpectralTerms 0 <;> cases h1 : st.itsFlagFindSpectralTerms 1 <;>
      by_cases e0 : st.itsSpectralTermImages 0 = [] <;>
      by_cases e1 : st.itsSpectralTermImages 1 = [] <;>
      simp [h0, h1, e0, e1, Function.update]
  · intro j hj
    have hj0 : j ≠ 0 := by omega
    have hj1 : j ≠ 1 := by omega
    cases h0 : st.itsFlagFindSpectralTerms 0 <;> cases h1 : st.itsFlagFindSpectralTerms 1 <;>
      by_cases e0 : st.itsSpectralTermImages 0 = [] <;>
      by_cases e1 : st.itsSpectralTermImages 1 = [] <;>
      simp [h0, h1, e0, e1, Function.update, hj0, hj1]
  · intro i hi
    have hi01 : i = 0 ∨ i = 1 := by omega
    rcases hi01 with rfl | rfl <;>
      cases h0 : st.itsFlagFindSpectralTerms 0 <;> cases h1 : st.itsFlagFindSpectralTerms 1 <;>
      by_cases e0 : st.itsSpectralTermImages 0 = [] <;>
      by_cases e1 : st.itsSpectralTermImages 1 = [] <;>
      simp [h0, h1, e0, e1, Function.update]

/-- C17. For a term i of 0 and 1 whose flag is set and whose image name is empty: when the name
of the input image contains '.taylor.0', the image of the term becomes the name of the
input image with the last occurrence of '.taylor.0' replaced by the name of the term
('.taylor.1' for term 0, '.taylor.2' for term 1) and no flag changes; otherwise the
flags of term i and of the higher term are set to false and no image name changes. An
image name that was given is never changed, and a term whose flag is unset is never given
an image name and keeps its flag unset. -/
theorem checkSpectralTermImages_spec (imageFile : List Char) (st : SpectralTerms) (i : Nat)
    (hi : i < 2) :
    (st.itsFlagFindSpectralTerms i = true → st.itsSpectralTermImages i = [] →
      ((∃ a b, imageFile = a ++ ".taylor.0".toList ++ b) →
        ∃ a b, imageFile = a ++ ".taylor.0".toList ++ b
          ∧ (∀ a1 b1, imageFile = a1 ++ ".taylor.0".toList ++ b1 → a1.length ≤ a.length)
          ∧ (checkSpectralTermImages imageFile st).itsSpectralTermImages i
              = a ++ termname i ++ b
          ∧ (checkSpectralTermImages imageFile st).itsFlagFindSpectralTerms
              = st.itsFlagFindSpectralTerms)
      ∧ ((¬ ∃ a b, imageFile = a ++ ".taylor.0".toList ++ b) →
        (∀ j, i ≤ j → j < 2 →
          (checkSpectralTermImages imageFile st).itsFlagFindSpectralTerms j = false)
        ∧ (checkSpectralTermImages imageFile st).itsSpectralTermImages
            = st.itsSpectralTermImages))
    ∧ (st.itsSpectralTermImages i ≠ [] →
        (checkSpectralTermImages imageFile st).itsSpectralTermImages i
          = st.itsSpectralTermImages i)
    ∧ (st.itsFlagFindSpectralTerms i = false →
        (checkSpectralTermImages imageFile st).itsSpectralTermImages i
          = st.itsSpectralTermImages i
        ∧ (checkSpectralTermImages imageFile st).itsFlagFindSpectralTerms i = false)
    ∧ (termname 0 = ".taylor.1".toList ∧ termname 1 = ".taylor.2".toList) := by
  have hi01 : i = 0 ∨ i = 1 := by omega
  cases hf : rfind imageFile ".taylor.0".toList with
  | none =>
    have hno := rfind_none_spec _ _ hf
    obtain ⟨himg, -, hf0, hf1⟩ := checkSpectralTermImages_none imageFile st hf
    refine ⟨fun hflag hempty => ⟨fun hex => absurd hex hno, fun _ => ⟨?_, himg⟩⟩,
      fun _ => by rw [himg], fun hflag => ⟨by rw [himg], ?_⟩, rfl, rfl⟩
    · intro j hij hj
      have hj01 : j = 0 ∨ j = 1 := by omega
      rcases hi01 with rfl | rfl <;> rcases hj01 with rfl | rfl
      · rw [hf0]; simp [hempty]
      · rw [hf1]; simp [hempty, hflag]
      · omega
      · rw [hf1]; simp [hempty]
    · rcases hi01 with rfl | rfl
      · rw [hf0]; simp [hflag]
      · rw [hf1]; simp [hflag]
  | some pos =>
    obtain ⟨a, b, hab, hlen, hrep, hlast⟩ := rfind_some_spec _ _ _ hf
    obtain ⟨hflags, -, himg⟩ := checkSpectralTermImages_some imageFile st pos hf
    have h9 : ".taylor.0".toList.length = 9 := rfl
    rw [h9] at hrep
    refine ⟨fun hflag hempty => ⟨fun _ => ⟨a, b, hab, fun a1 b1 h1 => ?_, ?_, hflags⟩,
        fun hno => absurd ⟨a, b, hab⟩ hno⟩,
      fun hne => ?_, fun hflag => ⟨?_, ?_⟩, rfl, rfl⟩
    · rw [hlen]; exact hlast a1 b1 h1
    · rw [himg i hi, if_pos ⟨hflag, hempty⟩, hrep]
    · rw [himg i hi, if_neg (fun h => hne h.2)]
    · rw [himg i hi, if_neg (fun h => by rw [hflag] at h; cases h.1)]
    · rw [hflags]; exact hflag

/-- Witness of C17: with the input image 'a.taylor.0', both flags set and no image name given,
the images of the terms become 'a.taylor.1' and 'a.taylor.2'; with the input image
'a.fits' both flags are cleared. -/
theorem checkSpectralTermImages_spec_witness :
    (checkSpectralTermImages "a.taylor.0".toList demoTerms).itsSpectralTermImages 0
      = "a.taylor.1".toList
    ∧ (checkSpectralTermImages "a.taylor.0".toList demoTerms).itsSpectralTermImages 1
      = "a.taylor.2".toList
    ∧ (checkSpectralTermImages "a.taylor.0.taylor.0.x".toList demoTerms).itsSpectralTermImages 1
      = "a.taylor.0.taylor.2.x".toList
    ∧ (checkSpectralTermImages "a.fits".toList demoTerms).itsFlagFindSpectralTerms 0 = false
    ∧ (checkSpectralTermImages "a.fits".toList demoTerms).itsFlagFindSpectralTerms 1 = false
    ∧ ∃ a b, "a.taylor.0".toList = a ++ ".taylor.0".toList ++ b
      ∧ (checkSpectralTermImages "a.taylor.0".toList demoTerms).itsSpectralTermImages 0
          = a ++ termname 0 ++ b :=
  ⟨by decide, by decide, by decide, by decide, by decide,
    (((checkSpectralTermImages_spec "a.taylor.0".toList demoTerms 0 (by decide)).1 rfl rfl).1
      ⟨['a'], [], by decide⟩).imp (fun _ h => h.imp (fun _ h => ⟨h.1, h.2.2.1⟩))⟩


/-! ### locationString -/

theorem map_getD_range (l : List Int) (d : Int) :
    (List.range l.length).map (fun i => l.getD i d) = l := by
  apply List.ext_getElem
  · simp
  · intro i h1 h2
    simp [List.getD_eq_getElem?_getD, List.getElem?_eq_getElem h2]

theorem foldl_range_getD (l : List Int) (f : String → Int → String) (init : String) :
    (List.range l.length).foldl (fun out i => f out (l.getD i 0)) init = l.foldl f init := by
  conv_rhs => rw [← map_getD_range l 0, List.foldl_map]

theorem foldl_intercalate_go (l : List Int) (p acc : String) :
    l.foldl (fun out x => out ++ "_" ++ toString x) (p ++ acc)
      = p ++ String.intercalate.go acc "_" (l.map toString) := by
  induction l generalizing acc with
  | nil => rfl
  | cons a t ih =>
    simp only [List.foldl_cons, List.map_cons, String.intercalate.go]
    rw [← ih]
    simp only [String.append_assoc]

theorem locationString_eq (subsection : Section) :
    locationString subsection
      = subsection.starts.foldl (fun out x => out ++ "_" ++ toString x) "_" ++ "__" := by
  unfold locationString Section.getStartList Section.getStart
  dsimp only
  rw [foldl_range_getD subsection.starts (fun out x => out ++ "_" ++ toString x)]

/-- C18. For a subsection with at least one axis the result of `locationString` is '__', then
the 0-based starts of the axes in decimal joined by single '_', then '__'. For every
subsection the result starts and ends with '__'. -/
theorem locationString_spec (subsection : Section) :
    (subsection.starts ≠ [] →
      locationString subsection
        = "__" ++ "_".intercalate (subsection.starts.map toString) ++ "__")
    ∧ (∃ tail, locationString subsection = "__" ++ tail)
    ∧ (∃ head, locationString subsection = head ++ "__") := by
  rw [locationString_eq]
  have hnonempty : ∀ a t, subsection.starts = a :: t →
      subsection.starts.foldl (fun out x => out ++ "_" ++ toString x) "_"
        = "__" ++ "_".intercalate (subsection.starts.map toString) := by
    intro a t h
    rw [h]
    simp only [List.foldl_cons, List.map_cons, String.intercalate]
    have h2 : "_" ++ "_" ++ toString a = "__" ++ toString a := by
      rw [show "_" ++ "_" = "__" from by decide]
    rw [h2, foldl_intercalate_go]
  refine ⟨fun hne => ?_, ?_, ⟨_, rfl⟩⟩
  · cases hs : subsection.starts with
    | nil => exact absurd hs hne
    | cons a t => rw [← hs, hnonempty a t hs]
  · cases hs : subsection.starts with
    | nil => exact ⟨"_", by decide⟩
    | cons a t =>
      rw [← hs, hnonempty a t hs]
      exact ⟨_, String.append_assoc _ _ _⟩

/-- Witness of C18: the subsection [101:200,11:250,1:1,2001:3000] gives '__100_10_0_2000__'. -/
theorem locationString_spec_witness :
    locationString (Section.ofRanges [(101, 200), (11, 250), (1, 1), (2001, 3000)])
      = "__100_10_0_2000__"
    ∧ locationString (Section.ofRanges [(101, 200), (11, 250), (1, 1), (2001, 3000)])
      = "__" ++ "_".intercalate
          ((Section.ofRanges [(101, 200), (11, 250), (1, 1), (2001, 3000)]).starts.map toString)
        ++ "__" :=
  ⟨by decide,
    (locationString_spec (Section.ofRanges [(101, 200), (11, 250), (1, 1), (2001, 3000)])).1
      (by decide)⟩


/-! ### doAddGaussian and addGaussian -/

theorem lround_of_mem (x : ℚ) (n : Int) (h1 : (n : ℚ) - 1 / 2 < x) (h2 : x < (n : ℚ) + 1 / 2) :
    lround x = n := by
  unfold lround
  split
  · rw [Int.floor_eq_iff]
    constructor <;> linarith
  · rw [neg_eq_iff_eq_neg, Int.floor_eq_iff]
    constructor <;> push_cast <;> linarith

theorem wrapInt32_zero : wrapInt32 0 = 0 := by decide

theorem gaussian_box_corner (axes : List Nat) (i : Nat) (z : ℚ)
    (hz1 : 3 / 2 < z) (hz2 : z < 5 / 2) :
    wrapInt32 (max (lround (-2 - z)) 0) = 0
    ∧ wrapInt32 (min (lround (-2 + z)) (lastPixel axes i)) = 0 := by
  have hlo : lround (-2 - z) = -4 := lround_of_mem _ _ (by push_cast; linarith) (by push_cast; linarith)
  have hhi : lround (-2 + z) = 0 := lround_of_mem _ _ (by push_cast; linarith) (by push_cast; linarith)
  have hlast : 0 ≤ lastPixel axes i := by
    unfold lastPixel
    exact Int.emod_nonneg _ (by decide)
  rw [hlo, hhi, min_eq_left hlast]
  exact ⟨by decide, by decide⟩

/-- C19. When `doAddGaussian` returns false, `addGaussian` returns false and leaves the array as
it was. The converse fails: for a Gaussian centred at (-2, -2) whose zero point lies
between 1.5 and 2.5 pixels, whatever the shape of the array,
`doAddGaussian` returns true (the box of the Gaussian cut to the array is the single
pixel (0, 0)) while `addGaussian` hands the Gaussian to `addPointSource`, which finds
the centre outside the array, adds nothing and returns false. -/
theorem doAddGaussian_addGaussian {F : Type} (lib : SimLibrary F) (array : Nat → F)
    (axes : List Nat) (gauss : Gaussian2D) (fluxGen : FluxGenerator F) (integrate : Bool) :
    (doAddGaussian lib axes gauss = false →
      addGaussian lib array axes gauss fluxGen integrate = (false, array))
    ∧ (gauss.xCenter = -2 → gauss.yCenter = -2 →
        3 / 2 < lib.zeroPoint gauss.majorAxis gauss.height →
        lib.zeroPoint gauss.majorAxis gauss.height < 5 / 2 →
        doAddGaussian lib axes gauss = true
        ∧ addGaussian lib array axes gauss fluxGen integrate = (false, array)) := by
  constructor
  · intro h
    unfold doAddGaussian at h
    unfold addGaussian
    dsimp only at h ⊢
    rw [h]
    rfl
  · intro hx hy hz1 hz2
    obtain ⟨hmin, hxmax⟩ := gaussian_box_corner axes 0 _ hz1 hz2
    obtain ⟨-, hymax⟩ := gaussian_box_corner axes 1 _ hz1 hz2
    have hc : lround (-2 : ℚ) = -2 := lround_of_mem _ _ (by norm_num) (by norm_num)
    constructor
    · unfold doAddGaussian
      dsimp only
      rw [hx, hy, hmin, hxmax, hymax]
      rfl
    · unfold addGaussian
      dsimp only
      rw [hx, hy, hmin, hxmax, hymax]
      simp [addPointSource, hc, show wrapInt32 (-2) = -2 from by decide]

/-- Witness of C19: an array of 10 by 10 pixels and a Gaussian of height 1 and full width
at half maximum 0.424 centred at (-2, -2): `doAddGaussian` returns true, `addGaussian`
returns false and leaves the array as it was. -/
theorem doAddGaussian_addGaussian_witness :
    (3 / 2 < demoSimLibrary.zeroPoint demoGaussian.majorAxis demoGaussian.height
      ∧ demoSimLibrary.zeroPoint demoGaussian.majorAxis demoGaussian.height < 5 / 2)
    ∧ doAddGaussian demoSimLibrary [10, 10] demoGaussian = true
    ∧ addGaussian demoSimLibrary (fun _ => 0) [10, 10] demoGaussian demoFluxGenerator true
      = (false, fun _ => 0) :=
  ⟨by norm_num [demoSimLibrary, demoGaussian],
    (doAddGaussian_addGaussian demoSimLibrary (fun _ => 0) [10, 10] demoGaussian
      demoFluxGenerator true).2 rfl rfl (by norm_num [demoSimLibrary, demoGaussian])
      (by norm_num [demoSimLibrary, demoGaussian])⟩


/-! ### trimTriList -/

theorem trimLoop_demo : trimLoop 5 demoTriList 0 0
    = ([demoMatch 0 true, demoMatch 0 false], 20, 20) := by
  norm_num [trimLoop, trimIteration, countSenses, trimScale, sameSense,
    magnification, demoTriList, demoMatch, wrapInt32, List.filter]

/-- C20. In `trimTriList`, when after the last count the counter of same-sense matches exceeds
that of opposite-sense matches every match that remains has the same sense, and when it
is smaller every match that remains has opposite senses; when the two counters are equal
the last step removes nothing. The twelve matches of `demoTriList` end in such a tie:
the two matches that remain after the five trimming passes, one of the same sense and
one of opposite senses, are both kept. -/
theorem trimTriList_senses (trilist : List (Triangle × Triangle)) :
    ((countSenses (trimLoop 5 trilist 0 0).1 (trimLoop 5 trilist 0 0).2.1
          (trimLoop 5 trilist 0 0).2.2).2
        < (countSenses (trimLoop 5 trilist 0 0).1 (trimLoop 5 trilist 0 0).2.1
          (trimLoop 5 trilist 0 0).2.2).1 →
      ∀ p ∈ trimTriList trilist, sameSense p = true)
    ∧ ((countSenses (trimLoop 5 trilist 0 0).1 (trimLoop 5 trilist 0 0).2.1
          (trimLoop 5 trilist 0 0).2.2).1
        < (countSenses (trimLoop 5 trilist 0 0).1 (trimLoop 5 trilist 0 0).2.1
          (trimLoop 5 trilist 0 0).2.2).2 →
      ∀ p ∈ trimTriList trilist, sameSense p = false)
    ∧ ((countSenses (trimLoop 5 trilist 0 0).1 (trimLoop 5 trilist 0 0).2.1
          (trimLoop 5 trilist 0 0).2.2).1
        = (countSenses (trimLoop 5 trilist 0 0).1 (trimLoop 5 trilist 0 0).2.1
          (trimLoop 5 trilist 0 0).2.2).2 →
      trimTriList trilist = (trimLoop 5 trilist 0 0).1)
    ∧ trimTriList demoTriList = [demoMatch 0 true, demoMatch 0 false]
    ∧ sameSense (demoMatch 0 true) = true ∧ sameSense (demoMatch 0 false) = false := by
  refine ⟨fun h p hp => ?_, fun h p hp => ?_, fun h => ?_, ?_, rfl, rfl⟩
  · simp only [trimTriList, trimSenses, List.mem_filter] at hp
    have hle : ¬ (countSenses (trimLoop 5 trilist 0 0).1 (trimLoop 5 trilist 0 0).2.1
        (trimLoop 5 trilist 0 0).2.2).1 ≤ (countSenses (trimLoop 5 trilist 0 0).1
        (trimLoop 5 trilist 0 0).2.1 (trimLoop 5 trilist 0 0).2.2).2 := by omega
    have h2 := hp.2
    simp only [Bool.and_eq_true, Bool.or_eq_true, decide_eq_true_eq] at h2
    exact h2.1.resolve_left hle
  · simp only [trimTriList, trimSenses, List.mem_filter] at hp
    have hle : ¬ (countSenses (trimLoop 5 trilist 0 0).1 (trimLoop 5 trilist 0 0).2.1
        (trimLoop 5 trilist 0 0).2.2).2 ≤ (countSenses (trimLoop 5 trilist 0 0).1
        (trimLoop 5 trilist 0 0).2.1 (trimLoop 5 trilist 0 0).2.2).1 := by omega
    have h2 := hp.2
    simp only [Bool.and_eq_true, Bool.or_eq_true, decide_eq_true_eq] at h2
    simpa using h2.2.resolve_left hle
  · simp only [trimTriList, trimSenses, h]
    simp
  · simp only [trimTriList, trimLoop_demo]
    norm_num [trimSenses, countSenses, sameSense, demoMatch]

/-- Witness of C20: the counters of `demoTriList` after the last count are both 21. -/
theorem trimTriList_senses_witness :
    countSenses (trimLoop 5 demoTriList 0 0).1 (trimLoop 5 demoTriList 0 0).2.1
        (trimLoop 5 demoTriList 0 0).2.2 = (21, 21)
    ∧ trimTriList demoTriList = (trimLoop 5 demoTriList 0 0).1 :=
  ⟨by rw [trimLoop_demo]; norm_num [countSenses, sameSense, demoMatch],
    (trimTriList_senses demoTriList).2.2.1
      (by rw [trimLoop_demo]; norm_num [countSenses, sameSense, demoMatch])⟩


/-! ### vote -/

theorem countVote_ne_nil (entries : List (Int × (Point × Point))) (p1 p2 : Point) :
    countVote entries p1 p2 ≠ [] := by
  cases entries with
  | nil => simp [countVote]
  | cons e rest =>
    unfold countVote
    split <;> simp

theorem countVote_pos (entries : List (Int × (Point × Point))) (p1 p2 : Point)
    (h : ∀ e ∈ entries, 1 ≤ e.1) : ∀ e ∈ countVote entries p1 p2, 1 ≤ e.1 := by
  induction entries with
  | nil =>
    intro e he
    simp only [countVote, List.mem_singleton] at he
    rw [he]
  | cons a rest ih =>
    intro e he
    unfold countVote at he
    split at he
    · rcases List.mem_cons.mp he with rfl | hm
      · have := h a (List.mem_cons_self a rest)
        show 1 ≤ a.1 + 1
        omega
      · exact h e (List.mem_cons_of_mem a hm)
    · rcases List.mem_cons.mp he with rfl | hm
      · exact h e (List.mem_cons_self e rest)
      · exact ih (fun x hx => h x (List.mem_cons_of_mem a hx)) e hm

theorem voteEntries_step (trilist : List (Triangle × Triangle))
    (entries : List (Int × (Point × Point)))
    (hne : entries ≠ [] ∨ trilist ≠ []) (hpos : ∀ e ∈ entries, 1 ≤ e.1) :
    trilist.foldl (fun entries tri =>
        (List.range 3).foldl (fun entries p =>
          countVote entries (tri.1.getPtList.getD p default) (tri.2.getPtList.getD p default))
          entries) entries ≠ []
    ∧ ∀ e ∈ trilist.foldl (fun entries tri =>
        (List.range 3).foldl (fun entries p =>
          countVote entries (tri.1.getPtList.getD p default) (tri.2.getPtList.getD p default))
          entries) entries, 1 ≤ e.1 := by
  induction trilist generalizing entries with
  | nil =>
    rcases hne with h | h
    · exact ⟨h, hpos⟩
    · exact absurd rfl h
  | cons tri rest ih =>
    have hr : List.range 3 = [0, 1, 2] := rfl
    simp only [List.foldl_cons, hr, List.foldl_nil]
    apply ih
    · exact Or.inl (countVote_ne_nil _ _ _)
    · exact countVote_pos _ _ _ (countVote_pos _ _ _ (countVote_pos _ _ _ hpos))

theorem mem_multimapInsert {α : Type} (m : List (Int × α)) (e x : Int × α) :
    x ∈ multimapInsert m e ↔ x = e ∨ x ∈ m := by
  induction m with
  | nil => simp [multimapInsert]
  | cons h rest ih =>
    unfold multimapInsert
    split
    · simp
    · simp only [List.mem_cons, ih]
      tauto

theorem mem_foldl_multimapInsert {α : Type} (entries m : List (Int × α)) (x : Int × α) :
    x ∈ entries.foldl multimapInsert m ↔ x ∈ m ∨ x ∈ entries := by
  induction entries generalizing m with
  | nil => simp
  | cons e rest ih =>
    simp only [List.foldl_cons, ih, mem_multimapInsert, List.mem_cons]
    tauto

theorem multimapInsert_sorted {α : Type} (m : List (Int × α)) (e : Int × α)
    (h : m.Pairwise (fun a b => a.1 ≤ b.1)) :
    (multimapInsert m e).Pairwise (fun a b => a.1 ≤ b.1) := by
  induction m with
  | nil => simp [multimapInsert]
  | cons a rest ih =>
    unfold multimapInsert
    obtain ⟨ha, hrest⟩ := List.pairwise_cons.mp h
    split
    · rename_i hlt
      refine List.pairwise_cons.mpr ⟨fun x hx => ?_, h⟩
      rcases List.mem_cons.mp hx with rfl | hm
      · omega
      · have := ha x hm
        omega
    · rename_i hlt
      refine List.pairwise_cons.mpr ⟨fun x hx => ?_, ih hrest⟩
      rcases (mem_multimapInsert rest e x).mp hx with rfl | hm
      · omega
      · exact ha x hm

theorem foldl_multimapInsert_sorted {α : Type} (entries m : List (Int × α))
    (h : m.Pairwise (fun a b => a.1 ≤ b.1)) :
    (entries.foldl multimapInsert m).Pairwise (fun a b => a.1 ≤ b.1) := by
  induction entries generalizing m with
  | nil => exact h
  | cons e rest ih => exact ih _ (multimapInsert_sorted m e h)

theorem voteLoop_accepts (l : List (Int × (Point × Point))) (outlist : List (Point × Point))
    (prevVote : Int) (hs : List.Chain (fun a b => b ≤ a) prevVote (l.map Prod.fst)) :
    ∃ n, voteLoop false l outlist prevVote = outlist ++ (l.take n).map Prod.snd
      ∧ ((outlist.map (fun p => p.1.ID)).Nodup →
          ((outlist ++ (l.take n).map Prod.snd).map (fun p => p.1.ID)).Nodup)
      ∧ List.Chain (fun a b => b ≤ a ∧ a ≤ 2 * b) prevVote ((l.take n).map Prod.fst) := by
  induction l generalizing outlist prevVote with
  | nil => exact ⟨0, by simp [voteLoop], by simp, by simp⟩
  | cons rvote rest ih =>
    simp only [List.map_cons, List.chain_cons] at hs
    obtain ⟨hle, hrest⟩ := hs
    by_cases hstop : (outlist.any (fun o => rvote.2.1.ID == o.1.ID)
        || decide (2 * rvote.1 < prevVote)) = true
    · refine ⟨0, ?_, by simp, by simp⟩
      simp [voteLoop, hstop]
    · obtain ⟨n, hrun, hnodup, hchain⟩ := ih (outlist ++ [rvote.2]) rvote.1 hrest
      simp only [Bool.or_eq_true, List.any_eq_true, beq_iff_eq, decide_eq_true_eq, not_or,
        not_exists, not_and, not_lt] at hstop
      obtain ⟨hnew, hhalf⟩ := hstop
      refine ⟨n + 1, ?_, ?_, ?_⟩
      · have hno : (outlist.any (fun o => rvote.2.1.ID == o.1.ID)
            || decide (2 * rvote.1 < prevVote)) = false := by
          rw [Bool.eq_false_iff]
          intro hc
          simp only [Bool.or_eq_true, List.any_eq_true, beq_iff_eq, decide_eq_true_eq] at hc
          rcases hc with ⟨o, ho, heq⟩ | hc
          · exact hnew o ho heq
          · omega
        simp only [voteLoop, Bool.not_false, if_true, hno, hrun, List.take_succ_cons,
          List.map_cons, List.append_assoc, List.singleton_append]
      · intro hnd
        have hnd2 : ((outlist ++ [rvote.2]).map (fun p => p.1.ID)).Nodup := by
          rw [List.map_append, List.nodup_append]
          refine ⟨hnd, by simp, ?_⟩
          intro a ha hb
          simp only [List.map_cons, List.map_nil, List.mem_singleton] at hb
          obtain ⟨o, ho, hoa⟩ := List.mem_map.mp ha
          exact hnew o ho (by rw [hoa, hb])
        have := hnodup hnd2
        simpa [List.append_assoc] using this
      · simp only [List.take_succ_cons, List.map_cons, List.chain_cons]
        exact ⟨⟨hle, hhalf⟩, hchain⟩

theorem vote_some_iff (trilist : List (Triangle × Triangle)) :
    (trilist ≠ [] → ∃ out, vote trilist = some out) ∧ (trilist = [] → vote trilist = none) := by
  constructor
  · intro hne
    obtain ⟨hnil, -⟩ := voteEntries_step trilist [] (Or.inr hne) (by simp)
    have hv : ((voteEntries trilist).foldl multimapInsert []).reverse ≠ [] := by
      intro h
      rw [List.reverse_eq_nil_iff] at h
      obtain ⟨e, rest, he⟩ := List.exists_cons_of_ne_nil hnil
      have hm : e ∈ (voteEntries trilist).foldl multimapInsert [] := by
        rw [mem_foldl_multimapInsert]
        right
        show e ∈ voteEntries trilist
        unfold voteEntries
        rw [he]
        exact List.mem_cons_self e rest
      rw [h] at hm
      cases hm
    unfold vote
    dsimp only
    cases hrev : ((voteEntries trilist).foldl multimapInsert []).reverse with
    | nil => exact absurd hrev hv
    | cons top rest =>
      dsimp only
      split
      · exact ⟨_, rfl⟩
      · exact ⟨_, rfl⟩
  · intro h
    rw [h]
    rfl

/-- C21. For the empty list `vote` has no defined result: it reads the largest vote of an empty
multimap. For every list that is not empty `vote` returns a list, and when no pair of
points received more than one vote the list it returns is empty. -/
theorem vote_no_match (trilist : List (Triangle × Triangle)) :
    vote [] = none
    ∧ (trilist ≠ [] → (∃ out, vote trilist = some out)
        ∧ ((∀ e ∈ voteEntries trilist, e.1 ≤ 1) → vote trilist = some [])) := by
  refine ⟨rfl, fun hne => ⟨(vote_some_iff trilist).1 hne, fun hall => ?_⟩⟩
  obtain ⟨out, hout⟩ := (vote_some_iff trilist).1 hne
  obtain ⟨-, hpos⟩ := voteEntries_step trilist [] (Or.inr hne) (by simp)
  unfold vote at hout ⊢
  dsimp only at hout ⊢
  cases hrev : ((voteEntries trilist).foldl multimapInsert []).reverse with
  | nil =>
    rw [hrev] at hout
    cases hout
  | cons top rest =>
    dsimp only
    have hm : top ∈ voteEntries trilist := by
      have h1 : top ∈ ((voteEntries trilist).foldl multimapInsert []).reverse := by
        rw [hrev]
        exact List.mem_cons_self top rest
      rw [List.mem_reverse, mem_foldl_multimapInsert] at h1
      rcases h1 with h1 | h1
      · cases h1
      · exact h1
    have h1 : top.1 = 1 := by
      have := hall top hm
      have := hpos top hm
      omega
    simp [h1]

/-- Witness of C21: one match gives every pair of points one vote, and `vote` returns the empty
list; the empty list of matches has no result. -/
theorem vote_no_match_witness :
    vote [] = none ∧ vote demoSingleMatch = some []
    ∧ (voteEntries demoSingleMatch).map Prod.fst = [1, 1, 1] :=
  ⟨(vote_no_match demoSingleMatch).1,
    ((vote_no_match demoSingleMatch).2 (by decide)).2 (by decide), by decide⟩

/-- C22. The list returned by `vote` holds the points of the first entries of the votes taken
from the largest down; no two returned pairs have the same first-list point ID, the votes
of the returned pairs are non-increasing and each is at least half of the one before it.
Two returned pairs can have the same second-list point ID: for the four matches of
`demoVoteList` the pairs (B, X) and (A, X) are both returned. -/
theorem vote_accepted (trilist : List (Triangle × Triangle)) (out : List (Point × Point))
    (h : vote trilist = some out) :
    (out.map (fun p => p.1.ID)).Nodup
    ∧ (∃ n, out = ((((voteEntries trilist).foldl multimapInsert []).reverse.take n).map Prod.snd)
        ∧ List.Chain' (fun a b => b ≤ a ∧ a ≤ 2 * b)
            ((((voteEntries trilist).foldl multimapInsert []).reverse.take n).map Prod.fst))
    ∧ vote demoVoteList = some demoVoteResult
    ∧ demoVoteResult.map (fun p => (p.1.ID, p.2.ID))
        = [("E", "U"), ("B", "X"), ("C", "Y"), ("A", "X"), ("H", "P"), ("F", "V"),
            ("G", "W"), ("D", "Z")] := by
  refine ⟨?_, ?_, by decide, by decide⟩ <;>
  · have hsorted := foldl_multimapInsert_sorted (voteEntries trilist) [] List.Pairwise.nil
    unfold vote at h
    dsimp only at h
    cases hrev : ((voteEntries trilist).foldl multimapInsert []).reverse with
    | nil =>
      rw [hrev] at h
      cases h
    | cons top rest =>
      rw [hrev] at h
      dsimp only at h
      have hdesc : List.Chain (fun a b => b ≤ a) top.1 (rest.map Prod.fst) := by
        have h1 := List.pairwise_reverse.mpr hsorted
        rw [hrev] at h1
        have h2 : List.Pairwise (fun a b => b ≤ a) ((top :: rest).map Prod.fst) :=
          List.pairwise_map.mpr h1
        exact List.Pairwise.chain' h2
      obtain ⟨n, hrun, hnodup, hchain⟩ := voteLoop_accepts rest [top.2] top.1 hdesc
      have hloop : voteLoop true (top :: rest) [] top.1 = voteLoop false rest [top.2] top.1 := by
        simp [voteLoop]
      split at h
      · cases h
        first
          | exact List.nodup_nil
          | exact ⟨0, by simp, by simp⟩
      · cases h
        rw [hloop, hrun]
        first
          | exact hnodup (by simp)
          | exact ⟨n + 1, by simp, by simpa [List.Chain'] using hchain⟩

/-- Witness of C22: the four matches of `demoVoteList`: the first-list IDs of the returned
pairs are all different, and the votes of the returned pairs are 2, 2, 2, 2, 1, 1, 1, 1. -/
theorem vote_accepted_witness :
    vote demoVoteList = some demoVoteResult
    ∧ (((voteEntries demoVoteList).foldl multimapInsert []).reverse.map Prod.fst)
        = [2, 2, 2, 2, 1, 1, 1, 1]
    ∧ (demoVoteResult.map (fun p => p.1.ID)).Nodup :=
  ⟨by decide, by decide, (vote_accepted demoVoteList demoVoteResult (by decide)).1⟩


/-! ### Params -/

theorem StdMap.mem_keys_set {T : Type} (m : StdMap T) (name : String) (value : T) (k : String) :
    k ∈ (m.set name value).keys ↔ k = name ∨ k ∈ m.keys := by
  obtain ⟨l⟩ := m
  simp only [StdMap.set, StdMap.keys]
  induction l with
  | nil => simp [StdMap.setEntries]
  | cons e rest ih =>
    unfold StdMap.setEntries
    split
    · simp
    · split
      · rename_i h
        simp [h]
      · simp only [List.map_cons, List.mem_cons, ih]
        tauto

theorem StdMap.find_set_self {T : Type} (m : StdMap T) (name : String) (value : T) :
    (m.set name value).find name = some value := by
  obtain ⟨l⟩ := m
  simp only [StdMap.set, StdMap.find]
  induction l with
  | nil => simp [StdMap.setEntries, List.lookup]
  | cons e rest ih =>
    unfold StdMap.setEntries
    split
    · simp [List.lookup]
    · split
      · simp [List.lookup]
      · rename_i h1 h2
        obtain ⟨k, v⟩ := e
        simp only [List.lookup]
        have hne : (name == k) = false := by simpa using h2
        rw [hne]
        exact ih

theorem StdMap.find_set_ne {T : Type} (m : StdMap T) (name : String) (value : T) (k : String)
    (hk : k ≠ name) : (m.set name value).find k = m.find k := by
  obtain ⟨l⟩ := m
  simp only [StdMap.set, StdMap.find]
  have hkn : (k == name) = false := by simpa using hk
  induction l with
  | nil => simp [StdMap.setEntries, List.lookup, hkn]
  | cons e rest ih =>
    obtain ⟨k1, v1⟩ := e
    unfold StdMap.setEntries
    split
    · simp [List.lookup, hkn]
    · split
      · rename_i h1 h2
        dsimp only at h2
        have hk1 : (k == k1) = false := by rw [← h2]; exact hkn
        simp [List.lookup, hkn, hk1]
      · simp only [List.lookup]
        cases (k == k1)
        · exact ih
        · rfl

theorem StdMap.find_isSome {T : Type} (m : StdMap T) (k : String) :
    (m.find k).isSome = true ↔ k ∈ m.keys := by
  obtain ⟨l⟩ := m
  simp only [StdMap.find, StdMap.keys]
  induction l with
  | nil => simp [List.lookup]
  | cons e rest ih =>
    obtain ⟨k1, v1⟩ := e
    simp only [List.lookup, List.map_cons, List.mem_cons]
    by_cases h : k = k1
    · simp [h]
    · have hb : (k == k1) = false := by simpa using h
      rw [hb]
      simp only [h, false_or]
      exact ih

theorem Params.has_iff (p : Params) (name : String) :
    p.has name = true ↔ name ∈ p.itsArrays.keys := by
  rw [← StdMap.find_isSome]
  unfold Params.has StdMap.count
  cases (p.itsArrays.find name).isSome <;> simp

theorem Params.count_fst (p : Params) (name : String) :
    (p.count name).1 = (p.itsCounts.find name).getD 0 := by
  unfold Params.count
  cases p.itsCounts.find name <;> rfl

/-- C23. The method `add` throws `invalid_argument` exactly when a parameter of that name exists,
`update` exactly when none exists, and a call that throws leaves the object as it was. After
an `add` that succeeds `has(name)` is true, the value and the axes are the ones given, the
parameter is free and its count is 0. After an `update` that succeeds the value is the one
given and the count is one more than before (for a count below the largest `int`). The
overloads for a `double` and without axes do the same with an array of one element and
with `Axes()`. -/
theorem Params_add_update (p : Params) (name : String) (ip : List ℚ) (axes : Axes) (x : ℚ) :
    ((p.addArrayAxes name ip axes).2 ≠ none ↔ p.has name = true)
    ∧ (p.has name = true → p.addArrayAxes name ip axes
        = (p, some (.invalid_argument ("Parameter " ++ name ++ " already exists"))))
    ∧ (p.has name = false →
        (p.addArrayAxes name ip axes).2 = none
        ∧ (p.addArrayAxes name ip axes).1.has name = true
        ∧ (p.addArrayAxes name ip axes).1.value name = some ip
        ∧ (p.addArrayAxes name ip axes).1.isFree name = some true
        ∧ ((p.addArrayAxes name ip axes).1.count name).1 = 0
        ∧ (p.addArrayAxes name ip axes).1.itsAxes.find name = some axes)
    ∧ (p.addArray name ip = p.addArrayAxes name ip ⟨[]⟩
        ∧ p.add name x = p.addArrayAxes name [x] ⟨[]⟩
        ∧ p.addAxes name x axes = p.addArrayAxes name [x] axes)
    ∧ ((p.updateArray name ip).2 ≠ none ↔ p.has name = false)
    ∧ (p.has name = false → p.updateArray name ip
        = (p, some (.invalid_argument ("Parameter " ++ name ++ " does not already exist"))))
    ∧ (p.has name = true →
        (p.updateArray name ip).2 = none
        ∧ (p.updateArray name ip).1.has name = true
        ∧ (p.updateArray name ip).1.value name = some ip
        ∧ (-(2 : Int) ^ 31 ≤ (p.count name).1 → (p.count name).1 < 2 ^ 31 - 1 →
            ((p.updateArray name ip).1.count name).1 = (p.count name).1 + 1))
    ∧ p.update name x = p.updateArray name [x] := by
  refine ⟨?_, ?_, ?_, ⟨rfl, rfl, rfl⟩, ?_, ?_, ?_, rfl⟩
  · cases h : p.has name <;> simp [Params.addArrayAxes, h]
  · intro h
    simp [Params.addArrayAxes, h]
  · intro h
    have hq : p.addArrayAxes name ip axes
        = ({ itsArrays := p.itsArrays.set name ip, itsAxes := p.itsAxes.set name axes,
             itsFree := p.itsFree.set name true, itsCounts := p.itsCounts.set name 0 }, none) := by
      simp [Params.addArrayAxes, h]
    rw [hq]
    refine ⟨rfl, ?_, ?_, ?_, ?_, ?_⟩
    · rw [Params.has_iff, StdMap.mem_keys_set]
      exact Or.inl rfl
    · exact StdMap.find_set_self _ _ _
    · exact StdMap.find_set_self _ _ _
    · rw [Params.count_fst]
      show ((p.itsCounts.set name 0).find name).getD 0 = 0
      rw [StdMap.find_set_self]
      rfl
    · exact StdMap.find_set_self _ _ _
  · cases h : p.has name <;> simp [Params.updateArray, h]
  · intro h
    simp [Params.updateArray, h]
  · intro h
    have hq : p.updateArray name ip
        = ({ itsArrays := p.itsArrays.set name ip, itsAxes := p.itsAxes.set name ⟨[]⟩,
             itsFree := p.itsFree.set name true,
             itsCounts := p.itsCounts.increment name }, none) := by
      simp [Params.updateArray, h]
    rw [hq]
    refine ⟨rfl, ?_, ?_, ?_⟩
    · rw [Params.has_iff, StdMap.mem_keys_set]
      exact Or.inl rfl
    · exact StdMap.find_set_self _ _ _
    · intro h1 h2
      rw [Params.count_fst, Params.count_fst]
      rw [Params.count_fst] at h1 h2
      show ((p.itsCounts.increment name).find name).getD 0 = _
      unfold StdMap.increment
      rw [StdMap.find_set_self]
      show wrapInt32 _ = _
      exact wrapInt32_of_range _ (by omega) (by omega)

/-- Witness of C23: the parameters of the test `ImageDFTEquationTest::setUp`: the image is
added to an empty object; a second `add` of the same name throws and an `update` counts. -/
theorem Params_add_update_witness :
    demoParams.has "image.i.cena" = true
    ∧ demoParams.names = ["image.i.cena"]
    ∧ (demoParams.count "image.i.cena").1 = 0
    ∧ (demoParams.addArrayAxes "image.i.cena" [0] demoAxes).2
        = some (.invalid_argument "Parameter image.i.cena already exists")
    ∧ (Params.empty.updateArray "image.i.cena" [0]).2
        = some (.invalid_argument "Parameter image.i.cena does not already exist")
    ∧ ((demoParams.updateArray "image.i.cena" [9 / 10]).1.count "image.i.cena").1
        = (demoParams.count "image.i.cena").1 + 1 :=
  ⟨by decide, by decide, by decide, by decide, by decide,
    ((Params_add_update demoParams "image.i.cena" [9 / 10] demoAxes 0).2.2.2.2.2.2.1
      (by decide)).2.2.2 (by decide) (by decide)⟩


/-! ### Params: the keys of the four maps -/

theorem keyCode_injective (a b : String) (h : keyCode a = keyCode b) : a = b := by
  unfold keyCode at h
  have hinj : Function.Injective Char.toNat := by
    intro x y hxy
    exact Char.ext (UInt32.ext (by simpa [Char.toNat] using hxy))
  exact String.ext ((List.map_injective_iff.mpr hinj) h)

theorem keyLt_trans (a b c : String) (h1 : keyLt a b = true) (h2 : keyLt b c = true) :
    keyLt a c = true := by
  simp only [keyLt, decide_eq_true_eq] at *
  exact lt_trans h1 h2

theorem keyLt_of_not (a b : String) (h1 : keyLt a b = false) (h2 : a ≠ b) : keyLt b a = true := by
  simp only [keyLt, decide_eq_true_eq, decide_eq_false_iff_not] at *
  exact lt_of_le_of_ne (not_lt.mp h1) (fun h => h2 (keyCode_injective _ _ h).symm)

theorem keyLt_irrefl (a : String) : keyLt a a = false := by
  simp [keyLt]

theorem StdMap.sorted_set {T : Type} (m : StdMap T) (name : String) (value : T)
    (h : m.keys.Pairwise (fun a b => keyLt a b = true)) :
    (m.set name value).keys.Pairwise (fun a b => keyLt a b = true) := by
  obtain ⟨l⟩ := m
  simp only [StdMap.set, StdMap.keys] at h ⊢
  induction l with
  | nil => simp [StdMap.setEntries]
  | cons e rest ih =>
    obtain ⟨k1, v1⟩ := e
    simp only [List.map_cons, List.pairwise_cons] at h
    obtain ⟨hhead, hrest⟩ := h
    unfold StdMap.setEntries
    split
    · rename_i hlt
      simp only [List.map_cons, List.pairwise_cons]
      refine ⟨fun k hk => ?_, hhead, hrest⟩
      rcases List.mem_cons.mp hk with rfl | hm
      · exact hlt
      · exact keyLt_trans _ _ _ hlt (hhead k hm)
    · split
      · rename_i hlt heq
        dsimp only at heq
        simp only [List.map_cons, List.pairwise_cons]
        rw [heq]
        exact ⟨hhead, hrest⟩
      · rename_i hlt hne
        simp only [List.map_cons, List.pairwise_cons]
        refine ⟨fun k hk => ?_, ih hrest⟩
        have hk2 := (StdMap.mem_keys_set ⟨rest⟩ name value k).mp hk
        rcases hk2 with rfl | hm
        · exact keyLt_of_not _ _ (by simpa using hlt) hne
        · exact hhead k hm

theorem StdMap.keys_set_of_mem {T : Type} (m : StdMap T) (name : String) (value : T)
    (h : name ∈ m.keys) (k : String) : k ∈ (m.set name value).keys ↔ k ∈ m.keys := by
  rw [StdMap.mem_keys_set]
  constructor
  · rintro (rfl | hk)
    · exact h
    · exact hk
  · exact Or.inr

theorem Params.sameKeys_setAll (p : Params) (name : String) (array : List ℚ) (axes : Axes)
    (isfree : Bool) (count : Int) (h : p.sameKeys) :
    Params.sameKeys ⟨p.itsArrays.set name array, p.itsAxes.set name axes,
      p.itsFree.set name isfree, p.itsCounts.set name count⟩ := by
  obtain ⟨hs, hk⟩ := h
  refine ⟨StdMap.sorted_set _ _ _ hs, fun k => ?_⟩
  obtain ⟨h1, h2, h3⟩ := hk k
  simp only [StdMap.mem_keys_set, h1, h2, h3, and_self]

theorem Params.sameKeys_setFree (p : Params) (name : String) (isfree : Bool) (h : p.sameKeys)
    (hhas : p.has name = true) :
    Params.sameKeys { p with itsFree := p.itsFree.set name isfree } := by
  obtain ⟨hs, hk⟩ := h
  have hmem : name ∈ p.itsFree.keys := (hk name).1.mp ((Params.has_iff p name).mp hhas)
  refine ⟨StdMap.sorted_set _ _ _ hs, fun k => ?_⟩
  obtain ⟨h1, h2, h3⟩ := hk k
  simp only [StdMap.keys_set_of_mem _ _ _ hmem, h1, h2, h3, and_self]

theorem Params.sameKeys_empty : Params.sameKeys ⟨⟨[]⟩, ⟨[]⟩, ⟨[]⟩, ⟨[]⟩⟩ := by
  refine ⟨by simp [StdMap.keys], fun k => by simp [StdMap.keys]⟩

theorem Params.sameKeys_add (p : Params) (name : String) (ip : List ℚ) (axes : Axes)
    (h : p.sameKeys) : (p.addArrayAxes name ip axes).1.sameKeys := by
  unfold Params.addArrayAxes
  split
  · exact h
  · exact Params.sameKeys_setAll p name ip axes true 0 h

theorem Params.sameKeys_update (p : Params) (name : String) (ip : List ℚ)
    (h : p.sameKeys) : (p.updateArray name ip).1.sameKeys := by
  unfold Params.updateArray
  split
  · exact h
  · exact Params.sameKeys_setAll p name ip ⟨[]⟩ true _ h

theorem Params.sameKeys_mergeName (other p : Params) (name : String) (ho : other.sameKeys)
    (hname : name ∈ other.names) (h : p.sameKeys) :
    ∃ q, Params.mergeName other p name = some q ∧ q.sameKeys := by
  unfold Params.mergeName
  cases hhas : p.has name with
  | true => exact ⟨p, by simp, h⟩
  | false =>
    have hfree : name ∈ other.itsFree.keys := hname
    obtain ⟨h1, h2, -⟩ := ho.2 name
    obtain ⟨array, harray⟩ := Option.isSome_iff_exists.mp
      ((StdMap.find_isSome _ _).mpr (h1.mpr hfree))
    obtain ⟨isfree, hisfree⟩ := Option.isSome_iff_exists.mp
      ((StdMap.find_isSome _ _).mpr hfree)
    obtain ⟨axes, haxes⟩ := Option.isSome_iff_exists.mp
      ((StdMap.find_isSome _ _).mpr (h2.mpr hfree))
    refine ⟨⟨p.itsArrays.set name array, p.itsAxes.set name axes, p.itsFree.set name isfree,
      p.itsCounts.increment name⟩, by simp [harray, hisfree, haxes], ?_⟩
    exact Params.sameKeys_setAll p name array axes isfree _ h

theorem Params.sameKeys_mergeNames (other : Params) (ho : other.sameKeys) (names : List String)
    (hnames : ∀ name ∈ names, name ∈ other.names) (p : Params) (h : p.sameKeys) :
    ∃ q, names.foldlM (Params.mergeName other) p = some q ∧ q.sameKeys := by
  induction names generalizing p with
  | nil => exact ⟨p, rfl, h⟩
  | cons name rest ih =>
    obtain ⟨q, hq, hsame⟩ := Params.sameKeys_mergeName other p name ho
      (hnames name (List.mem_cons_self name rest)) h
    obtain ⟨r, hr, hrsame⟩ := ih (fun n hn => hnames n (List.mem_cons_of_mem name hn)) q hsame
    refine ⟨r, ?_, hrsame⟩
    simp only [List.foldlM_cons, hq, Option.bind_eq_bind, Option.some_bind]
    exact hr

theorem Params.sameKeys_call (p : Params) (c : ParamsCall) (h : p.sameKeys)
    (hg : Params.guarded p [c]) : ∃ q, p.call c = some q ∧ q.sameKeys := by
  obtain ⟨hc, -⟩ := hg
  cases c with
  | add name ip axes => exact ⟨_, rfl, Params.sameKeys_add p name ip axes h⟩
  | update name ip => exact ⟨_, rfl, Params.sameKeys_update p name ip h⟩
  | fix name => exact ⟨_, rfl, Params.sameKeys_setFree p name false h hc⟩
  | free name => exact ⟨_, rfl, Params.sameKeys_setFree p name true h hc⟩
  | merge other =>
    exact Params.sameKeys_mergeNames other hc other.names (fun _ hn => hn) p h
  | reset => exact ⟨_, rfl, Params.sameKeys_empty⟩

theorem Params.sameKeys_run (calls : List ParamsCall) (p : Params) (h : p.sameKeys)
    (hg : Params.guarded p calls) : ∃ q, Params.run calls p = some q ∧ q.sameKeys := by
  induction calls generalizing p with
  | nil => exact ⟨p, rfl, h⟩
  | cons c rest ih =>
    obtain ⟨hc, hrest⟩ := hg
    obtain ⟨q, hq, hsame⟩ := Params.sameKeys_call p c h ⟨hc, fun _ _ => trivial⟩
    obtain ⟨r, hr, hrsame⟩ := ih q hsame (hrest q hq)
    refine ⟨r, ?_, hrsame⟩
    unfold Params.run at hr ⊢
    simp only [List.foldlM_cons, hq, Option.bind_eq_bind, Option.some_bind]
    exact hr

theorem lookup_of_mem {T : Type} (l : List (String × T)) (e : String × T) (he : e ∈ l)
    (h : (l.map Prod.fst).Pairwise (fun a b => keyLt a b = true)) : l.lookup e.1 = some e.2 := by
  induction l with
  | nil => cases he
  | cons a rest ih =>
    obtain ⟨k1, v1⟩ := a
    simp only [List.map_cons, List.pairwise_cons] at h
    rcases List.mem_cons.mp he with rfl | hm
    · simp [List.lookup]
    · have hne : e.1 ≠ k1 := by
        intro heq
        have := h.1 e.1 (List.mem_map_of_mem Prod.fst hm)
        rw [heq, keyLt_irrefl] at this
        cases this
      have hb : (e.1 == k1) = false := by simpa using hne
      simp only [List.lookup, hb]
      exact ih hm h.2

theorem Params.names_facts (q : Params) (h : q.sameKeys) :
    (∀ name, name ∈ q.names ↔ q.has name = true)
    ∧ q.names.Nodup
    ∧ q.size = q.names.length % 2 ^ 32
    ∧ (∀ name, q.has name = true ↔ (name ∈ q.freeNames ∨ name ∈ q.fixedNames))
    ∧ (∀ name, ¬ (name ∈ q.freeNames ∧ name ∈ q.fixedNames)) := by
  obtain ⟨hs, hk⟩ := h
  have hlook : ∀ e ∈ q.itsFree.entries, q.isFree e.1 = some e.2 :=
    fun e he => lookup_of_mem q.itsFree.entries e he hs
  have hnames : ∀ name, name ∈ q.names ↔ q.has name = true := by
    intro name
    rw [Params.has_iff]
    exact ((hk name).1).symm
  refine ⟨hnames, ?_, ?_, ?_, ?_⟩
  · refine List.Pairwise.imp ?_ hs
    intro a b hab heq
    rw [heq, keyLt_irrefl] at hab
    cases hab
  · simp [Params.size, Params.names]
  · intro name
    rw [← hnames]
    simp only [Params.names, Params.freeNames, Params.fixedNames, List.mem_map, List.mem_filter]
    constructor
    · rintro ⟨e, he, rfl⟩
      have := hlook e he
      cases hv : e.2
      · right
        exact ⟨e, ⟨he, by rw [this, hv]; rfl⟩, rfl⟩
      · left
        exact ⟨e, ⟨he, by rw [this, hv]; rfl⟩, rfl⟩
    · rintro (⟨e, ⟨he, -⟩, rfl⟩ | ⟨e, ⟨he, -⟩, rfl⟩) <;> exact ⟨e, he, rfl⟩
  · intro name
    simp only [Params.freeNames, Params.fixedNames, List.mem_map, List.mem_filter]
    rintro ⟨⟨e1, ⟨he1, hf1⟩, rfl⟩, ⟨e2, ⟨he2, hf2⟩, heq⟩⟩
    rw [heq] at hf2
    rw [beq_iff_eq] at hf1 hf2
    rw [hf1] at hf2
    cases hf2

/-- Counterexample to C25 as stated: `free` called on an empty `Params` with a name that is no
parameter. The name becomes a key of `itsFree` alone: `names()` and `freeNames()` list it and
`size()` counts it while `has(name)` is false. -/
theorem Params_key_sets_counterexample :
    Params.run [.free "x"] Params.empty = some (Params.empty.free "x")
    ∧ (Params.empty.free "x").names = ["x"]
    ∧ (Params.empty.free "x").size = 1
    ∧ (Params.empty.free "x").freeNames = ["x"]
    ∧ (Params.empty.free "x").has "x" = false
    ∧ (Params.empty.free "x").itsFree.keys = ["x"]
    ∧ (Params.empty.free "x").itsArrays.keys = [] := by
  refine ⟨rfl, by decide, by decide, by decide, by decide, by decide, by decide⟩

/-- C25, amended. After every sequence of `add`, `update`, `fix`, `free`, `merge` and `reset` calls
starting from an empty `Params` in which `fix` and `free` name parameters that exist at
that point, and the objects merged in have the same keys in their four maps (as the objects
built by such sequences have), every call returns and the four maps have the same key set:
`names()` lists a name exactly when `has(name)` holds, without repetition, `size()` is their
number, and `freeNames()` and `fixedNames()` partition them. -/
theorem Params_key_sets (calls : List ParamsCall) (hg : Params.guarded Params.empty calls) :
    ∃ q, Params.run calls Params.empty = some q ∧ q.sameKeys
      ∧ (∀ name, name ∈ q.names ↔ q.has name = true)
      ∧ q.names.Nodup
      ∧ q.size = q.names.length % 2 ^ 32
      ∧ (∀ name, q.has name = true ↔ (name ∈ q.freeNames ∨ name ∈ q.fixedNames))
      ∧ (∀ name, ¬ (name ∈ q.freeNames ∧ name ∈ q.fixedNames)) := by
  obtain ⟨q, hq, hsame⟩ := Params.sameKeys_run calls Params.empty Params.sameKeys_empty hg
  exact ⟨q, hq, hsame, Params.names_facts q hsame⟩

/-- Witness of C25: the image of the test is added, fixed, freed and updated, and a second
object is merged in; the names are those for which `has` holds. -/
theorem Params_key_sets_witness :
    (Params.run [.add "image.i.cena" [1, 7 / 10] demoAxes, .fix "image.i.cena",
        .free "image.i.cena", .update "image.i.cena" [9 / 10],
        .merge (Params.empty.add "flux" 2).1] Params.empty).map Params.names
      = some ["flux", "image.i.cena"]
    ∧ ∃ q, Params.run [.add "image.i.cena" [1, 7 / 10] demoAxes, .fix "image.i.cena",
        .free "image.i.cena", .update "image.i.cena" [9 / 10],
        .merge (Params.empty.add "flux" 2).1] Params.empty = some q
      ∧ ∀ name, name ∈ q.names ↔ q.has name = true :=
  ⟨by decide,
    (Params_key_sets [.add "image.i.cena" [1, 7 / 10] demoAxes, .fix "image.i.cena",
        .free "image.i.cena", .update "image.i.cena" [9 / 10],
        .merge (Params.empty.add "flux" 2).1]
      (by
        refine ⟨trivial, fun q1 h1 => ?_⟩
        cases h1
        refine ⟨by decide, fun q2 h2 => ?_⟩
        cases h2
        refine ⟨by decide, fun q3 h3 => ?_⟩
        cases h3
        refine ⟨trivial, fun q4 h4 => ?_⟩
        cases h4
        refine ⟨Params.sameKeys_add Params.empty "flux" [2] ⟨[]⟩ Params.sameKeys_empty,
          fun q5 _ => trivial⟩)).imp
      (fun _ h => ⟨h.1, h.2.2.1⟩)⟩


/-! ### matchLists -/

theorem defineTolerances_idem (dbl : DoubleArith) (sl : ℚ → ℚ → ℚ) (t : Triangle) (eps : ℚ) :
    (t.defineTolerances dbl sl eps).defineTolerances dbl sl eps = t.defineTolerances dbl sl eps :=
  rfl

theorem isMatch_defined (dbl : DoubleArith) (sl : ℚ → ℚ → ℚ) (a b : Triangle) (eps : ℚ) :
    (a.defineTolerances dbl sl eps).isMatch dbl sl (b.defineTolerances dbl sl eps) eps
      = a.isMatch dbl sl b eps := rfl

theorem isMatch_fixed (dbl : DoubleArith) (sl : ℚ → ℚ → ℚ) (a b : Triangle) (eps : ℚ)
    (ha : a.defineTolerances dbl sl eps = a) (hb : b.defineTolerances dbl sl eps = b) :
    (a.isMatch dbl sl b eps).2 = (a, b) := by
  unfold Triangle.isMatch
  simp only [ha, hb]

theorem matchInner_sublist (dbl : DoubleArith) (sl : ℚ → ℚ → ℚ) (eps maxRatioB minRatioB : ℚ)
    (a : Triangle) (list2 : List Triangle) (ha : a.defineTolerances dbl sl eps = a)
    (hl : ∀ b ∈ list2, b.defineTolerances dbl sl eps = b) :
    (matchInner dbl sl eps maxRatioB minRatioB a list2).2 = (a, list2)
    ∧ (matchInner dbl sl eps maxRatioB minRatioB a list2).1.Sublist
        ((list2.filter (fun b => (a.isMatch dbl sl b eps).1)).map (fun b => (a, b))) := by
  induction list2 with
  | nil => exact ⟨rfl, List.Sublist.refl _⟩
  | cons b rest ih =>
    have hbfix := hl b (List.mem_cons_self b rest)
    obtain ⟨ih1, ih2⟩ := ih (fun x hx => hl x (List.mem_cons_of_mem b hx))
    have hm := isMatch_fixed dbl sl a b eps ha hbfix
    have hm1 : (a.isMatch dbl sl b eps).2.1 = a := by rw [hm]
    have hm2 : (a.isMatch dbl sl b eps).2.2 = b := by rw [hm]
    unfold matchInner
    by_cases hup : b.ratio < maxRatioB
    · rw [if_pos hup]
      by_cases hlow : b.ratio > minRatioB
      · rw [if_pos hlow]
        simp only [hm1, hm2, ih1, List.filter_cons]
        refine ⟨trivial, ?_⟩
        by_cases hr : (a.isMatch dbl sl b eps).1 = true
        · simp only [hr, if_true, List.map_cons, List.singleton_append]
          exact List.Sublist.cons₂ _ ih2
        · simp only [hr, if_false, List.nil_append]
          exact ih2
      · rw [if_neg hlow]
        simp only [ih1, List.filter_cons]
        refine ⟨trivial, ?_⟩
        by_cases hr : (a.isMatch dbl sl b eps).1 = true
        · simp only [hr, if_true, List.map_cons]
          exact List.Sublist.cons _ ih2
        · simp only [hr, if_false]
          exact ih2
    · rw [if_neg hup]
      exact ⟨rfl, List.nil_sublist _⟩

theorem matchOuter_sublist (dbl : DoubleArith) (sl : ℚ → ℚ → ℚ) (eps maxTol1 maxTol2 : ℚ)
    (list1 list2 : List Triangle) (hl1 : ∀ a ∈ list1, a.defineTolerances dbl sl eps = a)
    (hl2 : ∀ b ∈ list2, b.defineTolerances dbl sl eps = b) :
    (matchOuter dbl sl eps maxTol1 maxTol2 list1 list2).2 = (list1, list2)
    ∧ (matchOuter dbl sl eps maxTol1 maxTol2 list1 list2).1.Sublist
        (matchAllPairs dbl sl list1 list2 eps) := by
  induction list1 with
  | nil => exact ⟨rfl, List.Sublist.refl _⟩
  | cons a rest ih =>
    obtain ⟨hin1, hin2⟩ := matchInner_sublist dbl sl eps
      (dbl.add a.ratio (dbl.sqrt (dbl.add maxTol1 maxTol2)))
      (dbl.sub a.ratio (dbl.sqrt (dbl.add maxTol1 maxTol2))) a list2
      (hl1 a (List.mem_cons_self a rest)) hl2
    obtain ⟨ih1, ih2⟩ := ih (fun x hx => hl1 x (List.mem_cons_of_mem a hx))
    have hin21 : (matchInner dbl sl eps (dbl.add a.ratio (dbl.sqrt (dbl.add maxTol1 maxTol2)))
        (dbl.sub a.ratio (dbl.sqrt (dbl.add maxTol1 maxTol2))) a list2).2.1 = a := by rw [hin1]
    have hin22 : (matchInner dbl sl eps (dbl.add a.ratio (dbl.sqrt (dbl.add maxTol1 maxTol2)))
        (dbl.sub a.ratio (dbl.sqrt (dbl.add maxTol1 maxTol2))) a list2).2.2 = list2 := by rw [hin1]
    unfold matchOuter
    simp only [hin21, hin22, ih1, matchAllPairs, List.flatMap_cons]
    exact ⟨trivial, List.Sublist.append hin2 ih2⟩

theorem stableSort_sorted (l : List Triangle) :
    (stableSort l).Pairwise (fun x y => x.ratio ≤ y.ratio) := by
  haveI : IsTotal Triangle (fun a b => Triangle.lt b a = false) :=
    ⟨fun a b => by
      simp only [Triangle.lt, decide_eq_false_iff_not, not_lt]
      exact le_total _ _⟩
  haveI : IsTrans Triangle (fun a b => Triangle.lt b a = false) :=
    ⟨fun a b c hab hbc => by
      simp only [Triangle.lt, decide_eq_false_iff_not, not_lt] at *
      exact le_trans hab hbc⟩
  have h := List.sorted_insertionSort (fun a b => Triangle.lt b a = false) l
  refine List.Pairwise.imp ?_ h
  intro a b hab
  simpa [Triangle.lt] using hab

theorem matchInner_of_window (dbl : DoubleArith) (sl : ℚ → ℚ → ℚ) (eps maxRatioB minRatioB : ℚ)
    (a : Triangle) (list2 : List Triangle) (ha : a.defineTolerances dbl sl eps = a)
    (hl : ∀ b ∈ list2, b.defineTolerances dbl sl eps = b)
    (hsorted : list2.Pairwise (fun x y => x.ratio ≤ y.ratio))
    (hwin : ∀ b ∈ list2, (a.isMatch dbl sl b eps).1 = true →
      b.ratio < maxRatioB ∧ b.ratio > minRatioB) :
    matchInner dbl sl eps maxRatioB minRatioB a list2
      = ((list2.filter (fun b => (a.isMatch dbl sl b eps).1)).map (fun b => (a, b)), a, list2) := by
  induction list2 with
  | nil => rfl
  | cons b rest ih =>
    obtain ⟨hb, hrest⟩ := List.pairwise_cons.mp hsorted
    have hbfix := hl b (List.mem_cons_self b rest)
    have ih2 := ih (fun x hx => hl x (List.mem_cons_of_mem b hx)) hrest
      (fun x hx => hwin x (List.mem_cons_of_mem b hx))
    have hm := isMatch_fixed dbl sl a b eps ha hbfix
    have hm1 : (a.isMatch dbl sl b eps).2.1 = a := by rw [hm]
    have hm2 : (a.isMatch dbl sl b eps).2.2 = b := by rw [hm]
    unfold matchInner
    by_cases hup : b.ratio < maxRatioB
    · rw [if_pos hup]
      by_cases hlow : b.ratio > minRatioB
      · rw [if_pos hlow]
        simp only [hm1, hm2, ih2, List.filter_cons]
        split <;> simp
      · rw [if_neg hlow]
        have hno : (a.isMatch dbl sl b eps).1 = false := by
          rw [Bool.eq_false_iff]
          intro h
          exact hlow (hwin b (List.mem_cons_self b rest) h).2
        simp only [ih2, List.filter_cons, hno]
        simp
    · rw [if_neg hup]
      have hnone : ∀ x ∈ b :: rest, (a.isMatch dbl sl x eps).1 = false := by
        intro x hx
        rw [Bool.eq_false_iff]
        intro h
        have hw := (hwin x hx h).1
        have hle : b.ratio ≤ x.ratio := by
          rcases List.mem_cons.mp hx with rfl | hmem
          · exact le_refl _
          · exact hb x hmem
        exact hup (lt_of_le_of_lt hle hw)
      have hfil : (b :: rest).filter (fun x => (a.isMatch dbl sl x eps).1) = [] := by
        rw [List.filter_eq_nil_iff]
        intro x hx
        rw [hnone x hx]
        simp
      rw [hfil]
      rfl

theorem matchOuter_of_window (dbl : DoubleArith) (sl : ℚ → ℚ → ℚ) (eps maxTol1 maxTol2 : ℚ)
    (list1 list2 : List Triangle) (hl1 : ∀ a ∈ list1, a.defineTolerances dbl sl eps = a)
    (hl2 : ∀ b ∈ list2, b.defineTolerances dbl sl eps = b)
    (hsorted : list2.Pairwise (fun x y => x.ratio ≤ y.ratio))
    (hwin : ∀ a ∈ list1, ∀ b ∈ list2, (a.isMatch dbl sl b eps).1 = true →
      b.ratio < dbl.add a.ratio (dbl.sqrt (dbl.add maxTol1 maxTol2))
      ∧ b.ratio > dbl.sub a.ratio (dbl.sqrt (dbl.add maxTol1 maxTol2))) :
    matchOuter dbl sl eps maxTol1 maxTol2 list1 list2
      = (matchAllPairs dbl sl list1 list2 eps, list1, list2) := by
  induction list1 with
  | nil => rfl
  | cons a rest ih =>
    have hin := matchInner_of_window dbl sl eps
      (dbl.add a.ratio (dbl.sqrt (dbl.add maxTol1 maxTol2)))
      (dbl.sub a.ratio (dbl.sqrt (dbl.add maxTol1 maxTol2))) a list2
      (hl1 a (List.mem_cons_self a rest)) hl2 hsorted (hwin a (List.mem_cons_self a rest))
    have ih2 := ih (fun x hx => hl1 x (List.mem_cons_of_mem a hx))
      (fun x hx => hwin x (List.mem_cons_of_mem a hx))
    unfold matchOuter
    simp only [hin, ih2, matchAllPairs, List.flatMap_cons]

/-- When every match of the two lists, sorted and with their tolerances, has its second ratio
strictly between the doubles `minRatioB` and `maxRatioB` of its first triangle, `matchLists`
returns the matches of the search over all pairs. -/
theorem matchLists_all_pairs_of_window (dbl : DoubleArith) (sideLength : ℚ → ℚ → ℚ)
    (list1 list2 : List Triangle) (epsilon : ℚ)
    (hwin : ∀ a ∈ (stableSort list1).map (fun t => t.defineTolerances dbl sideLength epsilon),
      ∀ b ∈ (stableSort list2).map (fun t => t.defineTolerances dbl sideLength epsilon),
      (a.isMatch dbl sideLength b epsilon).1 = true →
        b.ratio < dbl.add a.ratio (dbl.sqrt (dbl.add
            (maxRatioTol ((stableSort list1).map
              (fun t => t.defineTolerances dbl sideLength epsilon)))
            (maxRatioTol ((stableSort list2).map
              (fun t => t.defineTolerances dbl sideLength epsilon)))))
        ∧ b.ratio > dbl.sub a.ratio (dbl.sqrt (dbl.add
            (maxRatioTol ((stableSort list1).map
              (fun t => t.defineTolerances dbl sideLength epsilon)))
            (maxRatioTol ((stableSort list2).map
              (fun t => t.defineTolerances dbl sideLength epsilon)))))) :
    matchLists dbl sideLength list1 list2 epsilon
      = (matchAllPairs dbl sideLength
          ((stableSort list1).map (fun t => t.defineTolerances dbl sideLength epsilon))
          ((stableSort list2).map (fun t => t.defineTolerances dbl sideLength epsilon)) epsilon,
        (stableSort list1).map (fun t => t.defineTolerances dbl sideLength epsilon),
        (stableSort list2).map (fun t => t.defineTolerances dbl sideLength epsilon)) := by
  have hfix : ∀ (l : List Triangle),
      ∀ t ∈ l.map (fun t => t.defineTolerances dbl sideLength epsilon),
        t.defineTolerances dbl sideLength epsilon = t := by
    intro l t ht
    obtain ⟨u, -, rfl⟩ := List.mem_map.mp ht
    exact defineTolerances_idem dbl sideLength u epsilon
  have hsort : ((stableSort list2).map (fun t => t.defineTolerances dbl sideLength epsilon)).Pairwise
      (fun x y => x.ratio ≤ y.ratio) := by
    rw [List.pairwise_map]
    exact stableSort_sorted list2
  unfold matchLists
  exact matchOuter_of_window dbl sideLength epsilon _ _ _ _ (hfix _) (hfix _) hsort hwin

theorem binary64_values :
    roundDouble (1 / 10) = 3602879701896397 / 2 ^ 55
    ∧ roundDouble (-3 / 5) = -5404319552844595 / 2 ^ 53
    ∧ roundDouble (2 ^ 53 + 1) = 2 ^ 53
    ∧ roundDouble (2 ^ 53 + 3) = 2 ^ 53 + 4
    ∧ sqrtDouble 2 = 6369051672525773 / 2 ^ 52
    ∧ sqrtDouble 25 = 5 := by decide!

theorem demoTriangle_values :
    demoTriangleA.ratio = 5 ∧ demoTriangleB.ratio = 5 + 5 / 8192
    ∧ demoTriangleA.angle = -5404319552844595 / 2 ^ 53
    ∧ demoTriangleB.angle = -5404319552844595 / 2 ^ 53
    ∧ (demoTriangleA.defineTolerances binary64 demoSideLength demoEpsilon).ratioTol
      = 7036089517833151 / 2 ^ 75
    ∧ (demoTriangleB.defineTolerances binary64 demoSideLength demoEpsilon).ratioTol
      = 879707414713615 / 2 ^ 72
    ∧ (demoTriangleA.defineTolerances binary64 demoSideLength demoEpsilon).angleTol
      = 5763964551124269 / 2 ^ 80
    ∧ (demoTriangleB.defineTolerances binary64 demoSideLength demoEpsilon).angleTol
      = 5763843257003035 / 2 ^ 80
    ∧ binary64.mul (binary64.sub demoTriangleA.ratio demoTriangleB.ratio)
        (binary64.sub demoTriangleA.ratio demoTriangleB.ratio) = 25 / 2 ^ 26
    ∧ binary64.add (7036089517833151 / 2 ^ 75) (879707414713615 / 2 ^ 72)
      = 1759218604442759 / 2 ^ 72
    ∧ binary64.sqrt (1759218604442759 / 2 ^ 72) = 2814749767107487 / 2 ^ 62
    ∧ binary64.add 5 (2814749767107487 / 2 ^ 62) = 5 + 5 / 8192
    ∧ (5 : ℚ) + 5 / 8192 < 5 + 2814749767107487 / 2 ^ 62 := by decide!

/-- C24. `matchLists` can miss a match that the search over all pairs finds. When the first
list holds the triangle `a` and the second the triangle `b`, `isMatch` accepts the pair and
the double `maxRatioB = a.ratio() + sqrt(maxTol1 + maxTol2)` of line 288 is not above the ratio
of `b`, the loop over the second list stops at once: `matchLists` returns no match, and the
search over all pairs returns the pair. The other direction holds for every arithmetic of
doubles and every two lists: `matchLists` leaves the lists sorted with the tolerances for
`epsilon`, and what it returns is a part of the matches of the search over all pairs of
these lists, in the same order, so that each pair returned is a match. -/
theorem matchLists_window_drops (dbl : DoubleArith) (sideLength : ℚ → ℚ → ℚ) (a b : Triangle)
    (epsilon : ℚ) (hmatch : (a.isMatch dbl sideLength b epsilon).1 = true)
    (hbound : ¬ b.ratio < dbl.add a.ratio (dbl.sqrt (dbl.add
      (a.defineTolerances dbl sideLength epsilon).ratioTol
      (b.defineTolerances dbl sideLength epsilon).ratioTol))) :
    ((matchLists dbl sideLength [a] [b] epsilon).1 = []
      ∧ (matchLists dbl sideLength [a] [b] epsilon).2.1 = [a.defineTolerances dbl sideLength epsilon]
      ∧ (matchLists dbl sideLength [a] [b] epsilon).2.2 = [b.defineTolerances dbl sideLength epsilon]
      ∧ matchAllPairs dbl sideLength (matchLists dbl sideLength [a] [b] epsilon).2.1
          (matchLists dbl sideLength [a] [b] epsilon).2.2 epsilon
        = [(a.defineTolerances dbl sideLength epsilon, b.defineTolerances dbl sideLength epsilon)])
    ∧ ∀ list1 list2 : List Triangle,
        (matchLists dbl sideLength list1 list2 epsilon).2.1
            = (stableSort list1).map (fun t => t.defineTolerances dbl sideLength epsilon)
        ∧ (matchLists dbl sideLength list1 list2 epsilon).2.2
            = (stableSort list2).map (fun t => t.defineTolerances dbl sideLength epsilon)
        ∧ (matchLists dbl sideLength list1 list2 epsilon).1.Sublist
            (matchAllPairs dbl sideLength (matchLists dbl sideLength list1 list2 epsilon).2.1
              (matchLists dbl sideLength list1 list2 epsilon).2.2 epsilon) := by
  have hgen : ∀ list1 list2 : List Triangle,
      (matchLists dbl sideLength list1 list2 epsilon).2
          = ((stableSort list1).map (fun t => t.defineTolerances dbl sideLength epsilon),
            (stableSort list2).map (fun t => t.defineTolerances dbl sideLength epsilon))
      ∧ (matchLists dbl sideLength list1 list2 epsilon).1.Sublist
          (matchAllPairs dbl sideLength
            ((stableSort list1).map (fun t => t.defineTolerances dbl sideLength epsilon))
            ((stableSort list2).map (fun t => t.defineTolerances dbl sideLength epsilon))
            epsilon) := by
    intro list1 list2
    have hfix : ∀ (l : List Triangle),
        ∀ t ∈ l.map (fun t => t.defineTolerances dbl sideLength epsilon),
          t.defineTolerances dbl sideLength epsilon = t := by
      intro l t ht
      obtain ⟨u, -, rfl⟩ := List.mem_map.mp ht
      exact defineTolerances_idem dbl sideLength u epsilon
    unfold matchLists
    exact matchOuter_sublist dbl sideLength epsilon _ _ _ _ (hfix _) (hfix _)
  refine ⟨?_, fun list1 list2 => ?_⟩
  · have hrun : matchLists dbl sideLength [a] [b] epsilon
        = ([], [a.defineTolerances dbl sideLength epsilon],
            [b.defineTolerances dbl sideLength epsilon]) := by
      simp only [matchLists, stableSort, List.insertionSort, List.orderedInsert, List.map_cons,
        List.map_nil, maxRatioTol, List.foldl_cons, List.foldl_nil, Bool.true_or, if_true,
        matchOuter, matchInner]
      have hr : (a.defineTolerances dbl sideLength epsilon).ratio = a.ratio := rfl
      have hrb : (b.defineTolerances dbl sideLength epsilon).ratio = b.ratio := rfl
      rw [hr, hrb, if_neg hbound]
      rfl
    rw [hrun]
    refine ⟨rfl, rfl, rfl, ?_⟩
    simp only [matchAllPairs, List.flatMap_cons, List.flatMap_nil, List.append_nil,
      isMatch_defined, List.filter_cons, hmatch, if_true, List.filter_nil, List.map_cons,
      List.map_nil]
  · obtain ⟨h1, h2⟩ := hgen list1 list2
    have h21 : (matchLists dbl sideLength list1 list2 epsilon).2.1
        = (stableSort list1).map (fun t => t.defineTolerances dbl sideLength epsilon) := by
      rw [h1]
    have h22 : (matchLists dbl sideLength list1 list2 epsilon).2.2
        = (stableSort list2).map (fun t => t.defineTolerances dbl sideLength epsilon) := by
      rw [h1]
    rw [h21, h22]
    exact ⟨rfl, rfl, h2⟩

/-- Witness of C24: in the arithmetic of binary64, for the triangles on (0, 0), (1, 0), (3, 4) and
on (0, 0), (1, 0), (3.0003662109375, 4.00048828125) and `epsilon = 0x1.db5a826fe739dp-15`:
`isMatch` accepts the pair, the bound `maxRatioB` is the double 5.0006103515625, which is
the ratio of the second triangle, and `matchLists` returns no match where the search over
all pairs returns one. -/
theorem matchLists_window_drops_witness :
    (demoTriangleA.isMatch binary64 demoSideLength demoTriangleB demoEpsilon).1 = true
    ∧ demoTriangleB.ratio = 5 + 5 / 8192
    ∧ binary64.add demoTriangleA.ratio (binary64.sqrt (binary64.add
        (demoTriangleA.defineTolerances binary64 demoSideLength demoEpsilon).ratioTol
        (demoTriangleB.defineTolerances binary64 demoSideLength demoEpsilon).ratioTol))
      = 5 + 5 / 8192
    ∧ (matchLists binary64 demoSideLength [demoTriangleA] [demoTriangleB] demoEpsilon).1 = []
    ∧ matchAllPairs binary64 demoSideLength
        (matchLists binary64 demoSideLength [demoTriangleA] [demoTriangleB] demoEpsilon).2.1
        (matchLists binary64 demoSideLength [demoTriangleA] [demoTriangleB] demoEpsilon).2.2
        demoEpsilon
      = [(demoTriangleA.defineTolerances binary64 demoSideLength demoEpsilon,
          demoTriangleB.defineTolerances binary64 demoSideLength demoEpsilon)] :=
  ⟨by decide!, by decide!, by decide!,
    (matchLists_window_drops binary64 demoSideLength demoTriangleA demoTriangleB demoEpsilon
      (by decide!) (by decide!)).1.1,
    (matchLists_window_drops binary64 demoSideLength demoTriangleA demoTriangleB demoEpsilon
      (by decide!) (by decide!)).1.2.2.2⟩

end askap.analysis
